import Mathlib

/-!
# TechnoMart: order status, order totals and catering payments

A shallow embedding of the domain logic of the mobile client
(`mobile/src/app/(tabs)/order-tracking.jsx`, `mobile/src/app/(tabs)/catering.jsx`,
`mobile/src/components/ScheduleCateringModal.jsx`, `mobile/src/app/(tabs)/account-profile.jsx`).

The data handled by these screens is JSON delivered by the REST layer, read with
JavaScript's loose operators (`||`, `??`, `*`, `-`, `<=`, `===`). The embedding keeps
those operators: a field holds a `JSValue` (a JSON primitive, `undefined` for a missing
property, `NaN` as an arithmetic result), and an operation that raises a `TypeError`
returns `Except.error`.

Idealisation: a finite IEEE-754 double is modelled by the rational number it denotes,
so arithmetic is exact and there is no overflow, no infinity and no signed zero.
-/

deriving instance DecidableEq for Except

namespace TechnoMart

/-! ## JavaScript values and operators -/

/-- A JavaScript number: a finite value or `NaN`. -/
inductive JSNumber where
  | fin (q : ℚ)
  | nan
  deriving DecidableEq

/-- A JavaScript value as it occurs in a field of a parsed JSON record: `undefined` marks a
missing property, `host` is a reference to a built-in object of the runtime (named by its
global path, such as `Object` or `Object.prototype`). -/
inductive JSValue where
  | undefined
  | null
  | bool (b : Bool)
  | num (n : JSNumber)
  | str (s : String)
  | host (name : String)
  deriving DecidableEq

/-- The run-time errors the embedded code can raise. -/
inductive JSError where
  | typeError (message : String)
  deriving DecidableEq

namespace JSNumber

/-- Number addition, `a + b`. -/
def add : JSNumber → JSNumber → JSNumber
  | fin a, fin b => fin (a + b)
  | _, _ => nan

/-- Number subtraction, `a - b`. -/
def sub : JSNumber → JSNumber → JSNumber
  | fin a, fin b => fin (a - b)
  | _, _ => nan

/-- Number multiplication, `a * b`. -/
def mul : JSNumber → JSNumber → JSNumber
  | fin a, fin b => fin (a * b)
  | _, _ => nan

/-- Comparison `a <= b`: false as soon as one side is `NaN`. -/
def le : JSNumber → JSNumber → Bool
  | fin a, fin b => decide (a ≤ b)
  | _, _ => false

/-- Comparison `a < b`: false as soon as one side is `NaN`. -/
def lt : JSNumber → JSNumber → Bool
  | fin a, fin b => decide (a < b)
  | _, _ => false

end JSNumber

namespace JSValue

/-- The abstract operation ToBoolean: the falsy values are `undefined`, `null`, `false`,
`0`, `NaN` and the empty string. -/
def truthy : JSValue → Bool
  | undefined => false
  | null => false
  | bool b => b
  | num (JSNumber.fin q) => decide (q ≠ 0)
  | num JSNumber.nan => false
  | str s => decide (s ≠ "")
  | host _ => true

/-- The operator `a || b`. -/
def or (a b : JSValue) : JSValue := if a.truthy then a else b

/-- The operator `a ?? b`. -/
def nullish (a b : JSValue) : JSValue :=
  match a with
  | undefined => b
  | null => b
  | _ => a

/-- The abstract operation ToNumber. The empty string converts to `0`; the numeric value
of a non-empty string is given by `strToNum` (the StringToNumber grammar of the runtime). -/
def toNumber (strToNum : String → JSNumber) : JSValue → JSNumber
  | undefined => JSNumber.nan
  | null => JSNumber.fin 0
  | bool b => JSNumber.fin (if b then 1 else 0)
  | num n => n
  | str s => if s = "" then JSNumber.fin 0 else strToNum s
  | host _ => JSNumber.nan

/-- The operator `a === b` on the values of this model: `NaN` is different from itself, every other
value is equal to itself only. -/
def strictEq (a b : JSValue) : Bool :=
  match a with
  | num JSNumber.nan => false
  | _ => decide (a = b)

end JSValue

/-- The method `String.prototype.toLowerCase`, on the letters `A`-`Z`; every other
character is kept. (The keys looked up below are ASCII and contain no `k`, the one ASCII
letter that is the lower case of a character outside ASCII, so on those keys the result
agrees with the full Unicode mapping.) -/
def toLowerCase (s : String) : String := String.mk (s.data.map Char.toLower)

/-- The call `v.toLowerCase()`: defined on strings; on `undefined` and `null` the property
read fails, on any other value the property is not a function. -/
def callToLowerCase : JSValue → Except JSError String
  | JSValue.str s => Except.ok (toLowerCase s)
  | JSValue.undefined => Except.error (JSError.typeError "Cannot read property of undefined")
  | JSValue.null => Except.error (JSError.typeError "Cannot read property of null")
  | _ => Except.error (JSError.typeError "toLowerCase is not a function")

/-- The properties every object literal inherits from `Object.prototype`. -/
def objectPrototype : List (String × JSValue) :=
  [ ("constructor", JSValue.host "Object"),
    ("__defineGetter__", JSValue.host "Object.prototype.__defineGetter__"),
    ("__defineSetter__", JSValue.host "Object.prototype.__defineSetter__"),
    ("hasOwnProperty", JSValue.host "Object.prototype.hasOwnProperty"),
    ("__lookupGetter__", JSValue.host "Object.prototype.__lookupGetter__"),
    ("__lookupSetter__", JSValue.host "Object.prototype.__lookupSetter__"),
    ("isPrototypeOf", JSValue.host "Object.prototype.isPrototypeOf"),
    ("propertyIsEnumerable", JSValue.host "Object.prototype.propertyIsEnumerable"),
    ("toString", JSValue.host "Object.prototype.toString"),
    ("valueOf", JSValue.host "Object.prototype.valueOf"),
    ("__proto__", JSValue.host "Object.prototype"),
    ("toLocaleString", JSValue.host "Object.prototype.toLocaleString") ]

/-- The property read `o[key]` on an object literal with own properties `own`: an own
property first, then the prototype chain, `undefined` when neither has the key. -/
def getProperty (own : List (String × JSValue)) (key : String) : JSValue :=
  match own.lookup key with
  | some v => v
  | none =>
    match objectPrototype.lookup key with
    | some v => v
    | none => JSValue.undefined

/-! ## Order tracking: the status index -/

/-- The constant `statusMapping` of `order-tracking.jsx`. -/
def statusMapping : List (String × JSValue) :=
  [ ("pending", JSValue.num (JSNumber.fin 0)),
    ("accepted", JSValue.num (JSNumber.fin 1)),
    ("in_progress", JSValue.num (JSNumber.fin 2)),
    ("ready", JSValue.num (JSNumber.fin 3)),
    ("completed", JSValue.num (JSNumber.fin 4)),
    ("cancelled", JSValue.num (JSNumber.fin 0)) ]

/-- The expression `statusMapping[(order.status || '').toLowerCase()] ?? 0` of
`renderStatusBar`, as a function of `order.status`. -/
def statusIndex (status : JSValue) : Except JSError JSValue :=
  match callToLowerCase (JSValue.or status (JSValue.str "")) with
  | Except.ok key =>
    Except.ok (JSValue.nullish (getProperty statusMapping key) (JSValue.num (JSNumber.fin 0)))
  | Except.error e => Except.error e

/-! ## Order tracking: the order total -/

/-- An object found in an `items` array, with the properties the screens read; a property
the object does not have is `undefined`. -/
structure ItemRecord where
  menu_item : JSValue := JSValue.undefined
  name : JSValue := JSValue.undefined
  price : JSValue := JSValue.undefined
  unit_price : JSValue := JSValue.undefined
  quantity : JSValue := JSValue.undefined
  image : JSValue := JSValue.undefined
  size : JSValue := JSValue.undefined
  customize : JSValue := JSValue.undefined
  deriving DecidableEq

/-- An element of an `items` array: an object, or a primitive such as `null`. -/
inductive JSItem where
  | prim (v : JSValue)
  | obj (o : ItemRecord)
  deriving DecidableEq

/-- The property read `item.f`: a `TypeError` on `null` and `undefined`, `undefined` on
any other primitive, the property on an object. -/
def JSItem.get (f : ItemRecord → JSValue) : JSItem → Except JSError JSValue
  | JSItem.prim JSValue.undefined =>
    Except.error (JSError.typeError "Cannot read property of undefined")
  | JSItem.prim JSValue.null => Except.error (JSError.typeError "Cannot read property of null")
  | JSItem.prim _ => Except.ok JSValue.undefined
  | JSItem.obj o => Except.ok (f o)

/-- An order as the order-tracking screen receives it. `items` is `none` when the property
is absent or is not an array (`Array.isArray` is false). -/
structure Order where
  id : JSValue := JSValue.undefined
  order_number : JSValue := JSValue.undefined
  status : JSValue := JSValue.undefined
  items : Option (List JSItem) := none
  created_at : JSValue := JSValue.undefined
  payment_method : JSValue := JSValue.undefined

/-- The callback of the `reduce` in `renderOrderItem`:
`(sum, item) => sum + (item.price || 0) * (item.quantity || 0)`. -/
def addItemAmount (strToNum : String → JSNumber) (sum : JSNumber) (item : JSItem) :
    Except JSError JSNumber :=
  match item.get ItemRecord.price with
  | Except.error e => Except.error e
  | Except.ok p =>
    match item.get ItemRecord.quantity with
    | Except.error e => Except.error e
    | Except.ok q =>
      Except.ok (sum.add
        (((p.or (JSValue.num (JSNumber.fin 0))).toNumber strToNum).mul
          ((q.or (JSValue.num (JSNumber.fin 0))).toNumber strToNum)))

/-- The method `Array.prototype.reduce` with an initial value, for a callback that may throw. -/
def reduce {α β : Type} (f : β → α → Except JSError β) : List α → β → Except JSError β
  | [], acc => Except.ok acc
  | x :: xs, acc =>
    match f acc x with
    | Except.ok acc1 => reduce f xs acc1
    | Except.error e => Except.error e

/-- The constant `totalAmount` of `renderOrderItem`:
`items = Array.isArray(order.items) ? order.items : []`, then the `reduce` from `0`. -/
def orderTotal (strToNum : String → JSNumber) (order : Order) : Except JSError JSNumber :=
  let items := match order.items with
    | some xs => xs
    | none => []
  reduce (addItemAmount strToNum) items (JSNumber.fin 0)

/-! ## Catering: events and the remaining payment -/

/-- A catering event held in the state `cateringEvents`. `items` is `none` when the
property is absent or is not an array; `extra` are further properties of the record, which
an object spread carries along. -/
structure CateringEvent where
  id : JSValue := JSValue.undefined
  name : JSValue := JSValue.undefined
  client_name : JSValue := JSValue.undefined
  event_date : JSValue := JSValue.undefined
  start_time : JSValue := JSValue.undefined
  end_time : JSValue := JSValue.undefined
  location : JSValue := JSValue.undefined
  guest_count : JSValue := JSValue.undefined
  notes : JSValue := JSValue.undefined
  items : Option (List JSItem) := none
  total_price : JSValue := JSValue.undefined
  paid_amount : JSValue := JSValue.undefined
  status : JSValue := JSValue.undefined
  extra : List (String × JSValue) := []
  deriving DecidableEq

/-- The dialogs the catering screens raise with `Alert.alert`. -/
inductive Alert where
  | error (message : String)
  | success (message : String)
  | downPaymentRequired (downPayment : JSNumber)
  | payRemaining (remaining : JSNumber)
  deriving DecidableEq

/-- The constant `remaining` of `handlePayRemaining`:
`event.total_price - (event.paid_amount || 0)`. -/
def remainingBalance (strToNum : String → JSNumber) (event : CateringEvent) : JSNumber :=
  (event.total_price.toNumber strToNum).sub
    ((event.paid_amount.or (JSValue.num (JSNumber.fin 0))).toNumber strToNum)

/-- The record `{ ...ev, paid_amount: ev.total_price, status: 'Confirmed' }`. -/
def settle (ev : CateringEvent) : CateringEvent :=
  { ev with paid_amount := ev.total_price, status := JSValue.str "Confirmed" }

/-- The state update of `handlePayRemaining`:
`prev.map((ev) => ev.id === event.id ? { ...ev, paid_amount: ev.total_price, status: 'Confirmed' } : ev)`. -/
def applyPayment (eventId : JSValue) (prev : List CateringEvent) : List CateringEvent :=
  prev.map (fun ev => if ev.id.strictEq eventId then settle ev else ev)

/-- What a run of `handlePayRemaining` did: the calls of `updateCateringEventPayment`
(event id and amount), the dialogs shown, and the state `cateringEvents` afterwards. -/
structure PayResult where
  requests : List (JSValue × JSNumber)
  alerts : List Alert
  events : List CateringEvent
  deriving DecidableEq

/-- The handler `handlePayRemaining(event)` run on the state `prev`. `payNow` tells whether
the user presses "Pay Now" (rather than "Cancel") in the dialog, `apiOk` whether the
awaited `updateCateringEventPayment` resolves (rather than rejects). -/
def handlePayRemaining (strToNum : String → JSNumber) (event : CateringEvent)
    (payNow apiOk : Bool) (prev : List CateringEvent) : PayResult :=
  let remaining := remainingBalance strToNum event
  if remaining.le (JSNumber.fin 0) then
    { requests := [], alerts := [], events := prev }
  else if !payNow then
    { requests := [], alerts := [Alert.payRemaining remaining], events := prev }
  else if apiOk then
    { requests := [(event.id, remaining)],
      alerts := [Alert.payRemaining remaining,
        Alert.success "Full payment received! Event confirmed."],
      events := applyPayment event.id prev }
  else
    { requests := [(event.id, remaining)],
      alerts := [Alert.payRemaining remaining, Alert.error "Payment failed."],
      events := prev }

/-! ## Catering: scheduling an event -/

/-- The code points `String.prototype.trim` strips: the WhiteSpace and LineTerminator
productions of ECMAScript. -/
def isWhiteSpace (c : Char) : Bool :=
  [0x9, 0xA, 0xB, 0xC, 0xD, 0x20, 0xA0, 0x1680, 0x2028, 0x2029, 0x202F, 0x205F, 0x3000,
    0xFEFF].contains c.toNat || (decide (0x2000 ≤ c.toNat) && decide (c.toNat ≤ 0x200A))

/-- The method `String.prototype.trim`. -/
def trim (s : String) : String :=
  String.mk ((s.data.dropWhile isWhiteSpace).reverse.dropWhile isWhiteSpace).reverse

/-- The state `scheduleForm`. The keys `startTime24` and `endTime24` are written by the
time picker of the modal and are `undefined` before. -/
structure ScheduleForm where
  eventName : JSValue := JSValue.str ""
  client : JSValue := JSValue.str ""
  date : JSValue := JSValue.str ""
  startTime : JSValue := JSValue.str ""
  endTime : JSValue := JSValue.str ""
  startTime24 : JSValue := JSValue.undefined
  endTime24 : JSValue := JSValue.undefined
  location : JSValue := JSValue.str ""
  attendees : JSValue := JSValue.str ""
  contactName : JSValue := JSValue.str ""
  contactPhone : JSValue := JSValue.str ""
  notes : JSValue := JSValue.str ""
  selectedItems : List JSValue := []
  deriving DecidableEq

/-- An entry of the state `menuItems`. -/
structure MenuItem where
  id : JSValue := JSValue.undefined
  name : JSValue := JSValue.undefined
  price : JSValue := JSValue.undefined
  image : JSValue := JSValue.undefined
  category : JSValue := JSValue.undefined
  selectedQuantity : JSValue := JSValue.undefined
  deriving DecidableEq

/-- The test `!scheduleForm[f] || scheduleForm[f].toString().trim() === ''` of the
required-field filter. The string form of a truthy value that is not a string (a non-zero
number, `true`, a built-in object) is never blank. -/
def isMissing (v : JSValue) : Bool :=
  !v.truthy ||
    (match v with
     | JSValue.str s => decide (trim s = "")
     | _ => false)

/-- The values of the `required` keys of `handleScheduleSubmit` in `catering.jsx`. -/
def requiredFields (form : ScheduleForm) : List JSValue :=
  [form.eventName, form.client, form.date, form.startTime, form.endTime, form.location,
    form.attendees, form.contactName, form.contactPhone]

/-- The values of the `required` keys of `handleSubmit` in `ScheduleCateringModal.jsx`. -/
def requiredFieldsModal (form : ScheduleForm) : List JSValue :=
  [form.eventName, form.client, form.date, form.startTime24, form.endTime24, form.location,
    form.attendees, form.contactName, form.contactPhone]

/-- The method `Array.prototype.map` for a callback that may throw. -/
def mapItems {α β : Type} (f : α → Except JSError β) : List α → Except JSError (List β)
  | [] => Except.ok []
  | x :: xs =>
    match f x with
    | Except.error e => Except.error e
    | Except.ok y =>
      match mapItems f xs with
      | Except.error e => Except.error e
      | Except.ok ys => Except.ok (y :: ys)

/-- The callback building `selectedItemsData` in `catering.jsx`: `menuItems.find` by id,
then the snapshot; reading `item.id` on the `undefined` of a failed `find` throws. -/
def lineItem (menuItems : List MenuItem) (itemId : JSValue) : Except JSError ItemRecord :=
  match menuItems.find? (fun i => i.id.strictEq itemId) with
  | none => Except.error (JSError.typeError "Cannot read property of undefined")
  | some item =>
    Except.ok
      { menu_item := item.id
        name := item.name
        quantity := item.selectedQuantity.or (JSValue.num (JSNumber.fin 1))
        unit_price := item.price.or (JSValue.num (JSNumber.fin 0))
        image := item.image.or JSValue.null }

/-- The callback building `selectedItemsData` in `ScheduleCateringModal.jsx`; here the
quantity is `item.selectedQuantity` as it is. -/
def lineItemModal (menuItems : List MenuItem) (itemId : JSValue) : Except JSError ItemRecord :=
  match menuItems.find? (fun i => i.id.strictEq itemId) with
  | none => Except.error (JSError.typeError "Cannot read property of undefined")
  | some item =>
    Except.ok
      { menu_item := item.id
        name := item.name
        quantity := item.selectedQuantity
        unit_price := item.price.or (JSValue.num (JSNumber.fin 0))
        image := item.image.or JSValue.null }

/-- The constant `totalPrice` of both submit handlers:
`selectedItemsData.reduce((sum, i) => sum + i.unit_price * i.quantity, 0)`. -/
def totalPrice (strToNum : String → JSNumber) (selectedItemsData : List ItemRecord) : JSNumber :=
  selectedItemsData.foldl
    (fun sum i => sum.add ((i.unit_price.toNumber strToNum).mul (i.quantity.toNumber strToNum)))
    (JSNumber.fin 0)

/-- The constant `downPayment` of both submit handlers: `totalPrice * 0.5`. -/
def downPayment (total : JSNumber) : JSNumber := total.mul (JSNumber.fin (1 / 2))

/-- The state of the catering tab that `handleScheduleSubmit` writes. -/
structure CateringState where
  cateringEvents : List CateringEvent
  modalVisible : Bool
  deriving DecidableEq

/-- What a run of `handleScheduleSubmit` did: the dialogs shown and the state afterwards. -/
structure SubmitResult where
  alerts : List Alert
  state : CateringState
  deriving DecidableEq

/-- The event record appended by the "Pay Now" button of `handleScheduleSubmit`; `now` is
the value of `Date.now()`. -/
def newEvent (strToNum : String → JSNumber) (form : ScheduleForm)
    (selectedItemsData : List ItemRecord) (now : JSValue) : CateringEvent :=
  { id := now
    name := form.eventName
    client_name := form.client
    event_date := form.date
    start_time := form.startTime
    end_time := form.endTime
    location := form.location
    guest_count := JSValue.num (form.attendees.toNumber strToNum)
    notes := form.notes
    items := some (selectedItemsData.map JSItem.obj)
    total_price := JSValue.num (totalPrice strToNum selectedItemsData)
    paid_amount := JSValue.num (downPayment (totalPrice strToNum selectedItemsData))
    status := JSValue.str "Pending Payment" }

/-- The handler `handleScheduleSubmit` of `catering.jsx` run on the state `st`. `payNow`
tells whether the user presses "Pay Now" (rather than "Cancel") in the down-payment dialog,
`now` is the value of `Date.now()` at that moment. -/
def handleScheduleSubmit (strToNum : String → JSNumber) (form : ScheduleForm)
    (menuItems : List MenuItem) (now : JSValue) (payNow : Bool) (st : CateringState) :
    Except JSError SubmitResult :=
  if ((requiredFields form).filter isMissing).length ≠ 0 then
    Except.ok { alerts := [Alert.error "Please fill all required fields."], state := st }
  else if form.selectedItems.length = 0 then
    Except.ok { alerts := [Alert.error "Please select at least one menu item."], state := st }
  else
    match mapItems (lineItem menuItems) form.selectedItems with
    | Except.error e => Except.error e
    | Except.ok selectedItemsData =>
      let prompt := Alert.downPaymentRequired (downPayment (totalPrice strToNum selectedItemsData))
      if payNow then
        Except.ok
          { alerts := [prompt, Alert.success "Event scheduled successfully!"]
            state :=
              { cateringEvents :=
                  st.cateringEvents ++ [newEvent strToNum form selectedItemsData now]
                modalVisible := false } }
      else
        Except.ok { alerts := [prompt], state := st }

/-- The request body `payload` of `handleSubmit` in `ScheduleCateringModal.jsx`. -/
structure CateringPayload where
  name : JSValue
  client_name : JSValue
  event_date : JSValue
  start_time : JSValue
  end_time : JSValue
  location : JSValue
  guest_count : JSValue
  contact_name : JSValue
  contact_phone : JSValue
  notes : JSValue
  items : List ItemRecord
  total_price : JSValue
  paid_amount : JSValue
  deriving DecidableEq

/-- The outcome of the awaited `createCateringEvent(payload)`: the promise resolves with a
record `{ success, data, message }`, or the `try` block throws. -/
inductive CreateResponse where
  | resolved (success : JSValue) (data : CateringEvent) (message : JSValue)
  | rejected
  deriving DecidableEq

/-- The state that `handleSubmit` of the modal writes. -/
structure ModalState where
  cateringEvents : List CateringEvent
  scheduleForm : ScheduleForm
  loading : Bool
  modalVisible : Bool
  deriving DecidableEq

/-- What a run of `handleSubmit` did: the dialogs shown (`serverMessage` is the error dialog
carrying `result.message`), the payloads sent and the state afterwards. -/
structure ModalResult where
  alerts : List Alert
  serverMessage : Option JSValue
  requests : List CateringPayload
  state : ModalState
  deriving DecidableEq

/-- The `payload` built by the "Pay Now" button of `handleSubmit`. -/
def buildPayload (strToNum : String → JSNumber) (form : ScheduleForm)
    (selectedItemsData : List ItemRecord) : CateringPayload :=
  { name := form.eventName
    client_name := form.client
    event_date := form.date
    start_time := form.startTime24
    end_time := form.endTime24
    location := form.location
    guest_count := JSValue.num (form.attendees.toNumber strToNum)
    contact_name := form.contactName
    contact_phone := form.contactPhone
    notes := form.notes
    items := selectedItemsData
    total_price := JSValue.num (totalPrice strToNum selectedItemsData)
    paid_amount := JSValue.num (downPayment (totalPrice strToNum selectedItemsData)) }

/-- The form written by `setScheduleForm` after a successful creation. -/
def resetForm (form : ScheduleForm) : ScheduleForm :=
  { eventName := JSValue.str ""
    client := form.client
    date := JSValue.str ""
    startTime := JSValue.str ""
    endTime := JSValue.str ""
    startTime24 := JSValue.undefined
    endTime24 := JSValue.undefined
    location := JSValue.str ""
    attendees := JSValue.str ""
    contactName := JSValue.str ""
    contactPhone := JSValue.str ""
    notes := JSValue.str ""
    selectedItems := [] }

/-- The handler `handleSubmit` of `ScheduleCateringModal.jsx` run on the state `st` (whose
`scheduleForm` is the form submitted). `payNow` tells whether the user presses "Pay Now" in
the down-payment dialog, `response` is the outcome of `createCateringEvent`. -/
def handleSubmit (strToNum : String → JSNumber) (menuItems : List MenuItem) (payNow : Bool)
    (response : CreateResponse) (st : ModalState) : Except JSError ModalResult :=
  let form := st.scheduleForm
  if ((requiredFieldsModal form).filter isMissing).length ≠ 0 then
    Except.ok
      { alerts := [Alert.error "Please fill all required fields."], serverMessage := none,
        requests := [], state := st }
  else if form.selectedItems.length = 0 then
    Except.ok
      { alerts := [Alert.error "Please select at least one menu item."], serverMessage := none,
        requests := [], state := st }
  else
    match mapItems (lineItemModal menuItems) form.selectedItems with
    | Except.error e => Except.error e
    | Except.ok selectedItemsData =>
      let prompt := Alert.downPaymentRequired (downPayment (totalPrice strToNum selectedItemsData))
      if payNow then
        let payload := buildPayload strToNum form selectedItemsData
        match response with
        | CreateResponse.resolved success data message =>
          if success.truthy then
            Except.ok
              { alerts := [prompt, Alert.success "Event scheduled successfully!"]
                serverMessage := none
                requests := [payload]
                state :=
                  { cateringEvents := st.cateringEvents ++ [data]
                    scheduleForm := resetForm form
                    loading := false
                    modalVisible := false } }
          else
            Except.ok
              { alerts := [prompt]
                serverMessage := some message
                requests := [payload]
                state := { st with loading := false } }
        | CreateResponse.rejected =>
          Except.ok
            { alerts := [prompt, Alert.error "Something went wrong."]
              serverMessage := none
              requests := [payload]
              state := { st with loading := false } }
      else
        Except.ok { alerts := [prompt], serverMessage := none, requests := [], state := st }


/-! ## Catering: the event card and the invariants of an event -/

/-- The condition under which the event card renders the button "Pay Remaining 50%":
`event.status === 'Pending Payment'`. -/
def payButtonShown (event : CateringEvent) : Bool :=
  event.status.strictEq (JSValue.str "Pending Payment")

/-- A press on "Pay Remaining 50%" on the card of `event`. The card has the button, whose
`onPress` is `handlePayRemaining(event)`, only under `payButtonShown`; on a card without the
button there is nothing to press. -/
def pressPayRemaining (strToNum : String → JSNumber) (event : CateringEvent)
    (payNow apiOk : Bool) (prev : List CateringEvent) : PayResult :=
  if payButtonShown event then handlePayRemaining strToNum event payNow apiOk prev
  else { requests := [], alerts := [], events := prev }

/-- The states of `cateringEvents` reachable from `start` by presses on "Pay Remaining 50%"
on cards of events of the list, whatever the user and the server answer. -/
inductive ReachableByPayments (strToNum : String → JSNumber) (start : List CateringEvent) :
    List CateringEvent → Prop where
  | start : ReachableByPayments strToNum start start
  | press {events : List CateringEvent} (event : CateringEvent) (payNow apiOk : Bool) :
      ReachableByPayments strToNum start events → event ∈ events →
      ReachableByPayments strToNum start
        (pressPayRemaining strToNum event payNow apiOk events).events

/-- The invariant `0 <= paid_amount <= total_price` of the specification, read with the
comparisons of JavaScript on the two fields. -/
def paidWithinTotal (strToNum : String → JSNumber) (ev : CateringEvent) : Bool :=
  (JSNumber.fin 0).le (ev.paid_amount.toNumber strToNum) &&
    (ev.paid_amount.toNumber strToNum).le (ev.total_price.toNumber strToNum)

/-- The invariant `status == 'Confirmed'` iff `paid_amount == total_price` of the
specification. -/
def confirmedIffPaid (ev : CateringEvent) : Prop :=
  ev.status.strictEq (JSValue.str "Confirmed") = true ↔
    ev.paid_amount.strictEq ev.total_price = true

/-! ## Catering: loading and classifying the events -/

/-- The call `v.toLowerCase()` with the lower-casing `lower` of the runtime (the full
Unicode mapping of `String.prototype.toLowerCase`). -/
def callLower (lower : String → String) : JSValue → Except JSError String
  | JSValue.str s => Except.ok (lower s)
  | JSValue.undefined => Except.error (JSError.typeError "Cannot read property of undefined")
  | JSValue.null => Except.error (JSError.typeError "Cannot read property of null")
  | _ => Except.error (JSError.typeError "toLowerCase is not a function")

/-- The call `v.trim()`. -/
def callTrim : JSValue → Except JSError String
  | JSValue.str s => Except.ok (trim s)
  | JSValue.undefined => Except.error (JSError.typeError "Cannot read property of undefined")
  | JSValue.null => Except.error (JSError.typeError "Cannot read property of null")
  | _ => Except.error (JSError.typeError "trim is not a function")

/-- The callback of the `reduce` in `loadData`:
`(sum, item) => sum + (item.unit_price || item.price || 0) * (item.quantity || 1)`. -/
def addFallbackAmount (strToNum : String → JSNumber) (sum : JSNumber) (item : JSItem) :
    Except JSError JSNumber :=
  match item.get ItemRecord.unit_price with
  | Except.error e => Except.error e
  | Except.ok u =>
    match item.get ItemRecord.price with
    | Except.error e => Except.error e
    | Except.ok p =>
      match item.get ItemRecord.quantity with
      | Except.error e => Except.error e
      | Except.ok q =>
        Except.ok (sum.add
          ((((u.or p).or (JSValue.num (JSNumber.fin 0))).toNumber strToNum).mul
            ((q.or (JSValue.num (JSNumber.fin 1))).toNumber strToNum)))

/-- The record built for a fetched event `ev` by the `map` of `loadData`:
`client_name: ev.client_name?.trim() || ''`, `items` made an array, `total_price`, `status`
and `paid_amount` defaulted with `??`. -/
def normalizeEvent (strToNum : String → JSNumber) (ev : CateringEvent) :
    Except JSError CateringEvent :=
  let clientName : Except JSError JSValue :=
    match ev.client_name with
    | JSValue.undefined => Except.ok (JSValue.str "")
    | JSValue.null => Except.ok (JSValue.str "")
    | JSValue.str s => Except.ok ((JSValue.str (trim s)).or (JSValue.str ""))
    | _ => Except.error (JSError.typeError "trim is not a function")
  let total : Except JSError JSValue :=
    match ev.total_price with
    | JSValue.undefined | JSValue.null =>
      match ev.items with
      | some xs =>
        match reduce (addFallbackAmount strToNum) xs (JSNumber.fin 0) with
        | Except.ok t => Except.ok (JSValue.num t)
        | Except.error e => Except.error e
      | none => Except.ok (JSValue.num (JSNumber.fin 0))
    | v => Except.ok v
  match clientName with
  | Except.error e => Except.error e
  | Except.ok name =>
    match total with
    | Except.error e => Except.error e
    | Except.ok t =>
      Except.ok
        { ev with
          client_name := name
          items := some (match ev.items with
            | some xs => xs
            | none => [])
          total_price := t
          status := ev.status.nullish (JSValue.str "Pending")
          paid_amount := ev.paid_amount.nullish (JSValue.num (JSNumber.fin 0)) }

/-- The list `normalizedEvents` of `loadData`: the fetched events, each normalised. -/
def normalizedEvents (strToNum : String → JSNumber) (events : List CateringEvent) :
    Except JSError (List CateringEvent) :=
  mapItems (normalizeEvent strToNum) events

/-- The method `Array.prototype.filter` for a callback that may throw. -/
def filterItems {α : Type} (p : α → Except JSError Bool) : List α → Except JSError (List α)
  | [] => Except.ok []
  | x :: xs =>
    match p x with
    | Except.error e => Except.error e
    | Except.ok b =>
      match filterItems p xs with
      | Except.error e => Except.error e
      | Except.ok ys => Except.ok (if b then x :: ys else ys)

/-- The callback of the filter building `userEvents`:
`event.client_name.toLowerCase() === scheduleForm.client.trim().toLowerCase() &&
event.status !== 'cancelled'`. -/
def isUserEvent (lower : String → String) (client : JSValue) (event : CateringEvent) :
    Except JSError Bool :=
  match callLower lower event.client_name with
  | Except.error e => Except.error e
  | Except.ok name =>
    match callTrim client with
    | Except.error e => Except.error e
    | Except.ok c =>
      Except.ok (decide (name = lower c) && !(event.status.strictEq (JSValue.str "cancelled")))

/-- The constant `userEvents` of the catering tab; `client` is `scheduleForm.client`. -/
def userEvents (lower : String → String) (client : JSValue) (cateringEvents : List CateringEvent) :
    Except JSError (List CateringEvent) :=
  filterItems (isUserEvent lower client) cateringEvents

/-- The constant `upcomingEvents`: the user events with `new Date(event.event_date) >= today`.
`timeValue v` is the time value of `new Date(v)` (`NaN` for an invalid date), `now` the time
value of `today = new Date()`, the current instant. -/
def upcomingEvents (timeValue : JSValue → JSNumber) (now : ℚ) (events : List CateringEvent) :
    List CateringEvent :=
  events.filter (fun event => (JSNumber.fin now).le (timeValue event.event_date))

/-- The constant `pastEvents`: the user events with `new Date(event.event_date) < today`. -/
def pastEvents (timeValue : JSValue → JSNumber) (now : ℚ) (events : List CateringEvent) :
    List CateringEvent :=
  events.filter (fun event => (timeValue event.event_date).lt (JSNumber.fin now))

/-! ## Catering: the menu of the modal and the total on the event card -/

/-- The menu written by `setMenuItems` in `loadData`:
`items.map((i) => ({ ...i, selectedQuantity: 1 }))`. -/
def loadedMenuItems (items : List MenuItem) : List MenuItem :=
  items.map (fun i => { i with selectedQuantity := JSValue.num (JSNumber.fin 1) })

/-- The `onBlur` of the quantity input of the modal, on the menu entry `item`:
`finalQty = parseInt(item.inputQuantity) || 1; item.selectedQuantity = finalQty`.
`parsed` is the value of `parseInt(item.inputQuantity)`. -/
def blurQuantity (parsed : JSNumber) (item : MenuItem) : MenuItem :=
  { item with
    selectedQuantity := (JSValue.num parsed).or (JSValue.num (JSNumber.fin 1)) }

/-- The callback of the `reduce` on the event card:
`(sum, i) => sum + (i.unit_price || 0) * (i.quantity || 1)`. -/
def addCardAmount (strToNum : String → JSNumber) (sum : JSNumber) (item : JSItem) :
    Except JSError JSNumber :=
  match item.get ItemRecord.unit_price with
  | Except.error e => Except.error e
  | Except.ok u =>
    match item.get ItemRecord.quantity with
    | Except.error e => Except.error e
    | Except.ok q =>
      Except.ok (sum.add
        (((u.or (JSValue.num (JSNumber.fin 0))).toNumber strToNum).mul
          ((q.or (JSValue.num (JSNumber.fin 1))).toNumber strToNum)))

/-- The constant `dynamicTotal` of the event card: `event.items.reduce(..., 0)`; the call
throws when `event.items` is not an array. -/
def dynamicTotal (strToNum : String → JSNumber) (event : CateringEvent) :
    Except JSError JSNumber :=
  match event.items with
  | some xs => reduce (addCardAmount strToNum) xs (JSNumber.fin 0)
  | none => Except.error (JSError.typeError "event.items.reduce is not a function")

/-! ## Account profile: redeeming an offer -/

/-- A special offer as the profile screen holds it; `points` is a copy of the fetched
`required_points`. -/
structure Offer where
  id : JSValue := JSValue.undefined
  name : JSValue := JSValue.undefined
  points : JSValue := JSValue.undefined
  deriving DecidableEq

/-- The state `redeemOffer` reads and writes: the credit points, the cart of the cart
context, and the visibility of the credit modal. -/
structure ProfileState where
  creditPoints : JSValue
  cart : List JSValue
  creditModal : Bool
  deriving DecidableEq

/-- The outcome of the `try` block of `redeemOffer`: `getValidToken()` rejects; or the
request `api.post('/orders/redeem-offer/', ...)` is sent and rejects; or it resolves, with
`data` the value of `res.data` (`none` when `res.data` is `undefined` or `null`, so that the
read of `remaining_points` throws) holding `remaining_points`. The two values of a failure
are `err.response?.data?.detail` and `err.message`. -/
inductive RedeemResponse where
  | tokenFailed (detail message : JSValue)
  | rejected (detail message : JSValue)
  | resolved (data : Option JSValue) (message : JSValue)
  deriving DecidableEq

/-- The dialogs of `redeemOffer`. -/
inductive ProfileAlert where
  | notEnoughPoints (needed : JSValue) (available : JSNumber)
  | redeemed (name points : JSValue)
  | error (message : JSValue)
  deriving DecidableEq

/-- What a run of `redeemOffer` did: the requests sent (`offer_id` and `points_used`), the
dialogs shown and the state afterwards. -/
structure RedeemResult where
  requests : List (JSValue × JSValue)
  alerts : List ProfileAlert
  state : ProfileState
  deriving DecidableEq

/-- The constant `points` of `redeemOffer`: `Number(creditPoints) || 0`. -/
def availablePoints (strToNum : String → JSNumber) (creditPoints : JSValue) : JSNumber :=
  ((JSValue.num (creditPoints.toNumber strToNum)).or (JSValue.num (JSNumber.fin 0))).toNumber
    strToNum

/-- The message of the `catch` of `redeemOffer`:
`err.response?.data?.detail || err.message || 'Failed to redeem the offer.'`. -/
def redeemErrorMessage (detail message : JSValue) : JSValue :=
  (detail.or message).or (JSValue.str "Failed to redeem the offer.")

/-- The handler `redeemOffer(offer)` run on the state `st`, with the outcome `response` of
its `try` block. -/
def redeemOffer (strToNum : String → JSNumber) (offer : Offer) (response : RedeemResponse)
    (st : ProfileState) : RedeemResult :=
  let points := availablePoints strToNum st.creditPoints
  if points.lt (offer.points.toNumber strToNum) then
    { requests := [], alerts := [ProfileAlert.notEnoughPoints offer.points points], state := st }
  else
    match response with
    | RedeemResponse.tokenFailed detail message =>
      { requests := []
        alerts := [ProfileAlert.error (redeemErrorMessage detail message)]
        state := st }
    | RedeemResponse.rejected detail message =>
      { requests := [(offer.id, offer.points)]
        alerts := [ProfileAlert.error (redeemErrorMessage detail message)]
        state := st }
    | RedeemResponse.resolved none message =>
      { requests := [(offer.id, offer.points)]
        alerts := [ProfileAlert.error (redeemErrorMessage JSValue.undefined message)]
        state := st }
    | RedeemResponse.resolved (some remaining) _ =>
      { requests := [(offer.id, offer.points)]
        alerts := [ProfileAlert.redeemed offer.name offer.points]
        state :=
          { creditPoints := remaining.nullish (JSValue.num points)
            cart := []
            creditModal := false } }

/-! ## Catering: the quantity input of the modal -/

/-- The text written to `item.inputQuantity` by `onChangeText` of the quantity input:
`val.replace(/[^0-9]/g, '')`. -/
def quantityInput (val : String) : String :=
  String.mk (val.data.filter (fun c => decide (48 ≤ c.toNat) && decide (c.toNat ≤ 57)))

/-- The number that a string of decimal digits writes. -/
def decimalValue (s : String) : ℕ :=
  s.data.foldl (fun acc c => 10 * acc + (c.toNat - 48)) 0

/-- The function `parseInt` on a string of decimal digits, as `quantityInput` returns it:
`NaN` on the empty string, and the number the digits write when that is at most `2 ^ 53`;
every whole number up to there is a double, and `parseInt` returns it exactly. Above
`2 ^ 53` the result of `parseInt` is the number rounded to a double, and `Infinity` from
about 309 digits on; these results are not represented here and the value is `none`. -/
def parseIntDigits (s : String) : Option JSNumber :=
  if s.data = [] then some JSNumber.nan
  else if decimalValue s ≤ 2 ^ 53 then some (JSNumber.fin (decimalValue s : ℚ))
  else none

/-- The menu entry after the text `val` is typed into its quantity input and the input
loses focus: `onChangeText` then `onBlur`; `none` when the result of `parseInt` is not
represented. -/
def typeQuantity (val : String) (item : MenuItem) : Option MenuItem :=
  (parseIntDigits (quantityInput val)).map (fun parsed => blurQuantity parsed item)

/-! ## Order tracking: loading the orders and the total of the details modal -/

/-- The expression `(o.status ?? '').toLowerCase()` of the filters of `loadOrders`. -/
def statusKey (o : Order) : Except JSError String :=
  callToLowerCase (o.status.nullish (JSValue.str ""))

/-- The callback of the filter of the active orders: the status key is neither `completed`
nor `cancelled`. -/
def isActiveOrder (o : Order) : Except JSError Bool :=
  match statusKey o with
  | Except.error e => Except.error e
  | Except.ok k => Except.ok (decide (k ≠ "completed") && decide (k ≠ "cancelled"))

/-- The callback of the filter of the completed orders. -/
def isCompletedOrder (o : Order) : Except JSError Bool :=
  match statusKey o with
  | Except.error e => Except.error e
  | Except.ok k => Except.ok (decide (k = "completed"))

/-- The callback of the filter of the cancelled orders. -/
def isCancelledOrder (o : Order) : Except JSError Bool :=
  match statusKey o with
  | Except.error e => Except.error e
  | Except.ok k => Except.ok (decide (k = "cancelled"))

/-- The outcome of the awaited `fetchUserOrders()`: it rejects, or resolves with `data`
(`none` when the value is not an array). -/
inductive OrdersResponse where
  | rejected
  | resolved (data : Option (List Order))

/-- The three lists written by `loadOrders`. -/
structure OrderLists where
  orders : List Order
  completedOrders : List Order
  cancelledOrders : List Order

/-- The function `loadOrders`: the fetched list filtered three times; when the fetch or a
filter throws, the `catch` empties the three lists. -/
def loadOrders (response : OrdersResponse) : OrderLists :=
  match response with
  | OrdersResponse.rejected => { orders := [], completedOrders := [], cancelledOrders := [] }
  | OrdersResponse.resolved data =>
    let list := match data with
      | some xs => xs
      | none => []
    match filterItems isActiveOrder list with
    | Except.error _ => { orders := [], completedOrders := [], cancelledOrders := [] }
    | Except.ok active =>
      match filterItems isCompletedOrder list with
      | Except.error _ => { orders := [], completedOrders := [], cancelledOrders := [] }
      | Except.ok completed =>
        match filterItems isCancelledOrder list with
        | Except.error _ => { orders := [], completedOrders := [], cancelledOrders := [] }
        | Except.ok cancelled =>
          { orders := active, completedOrders := completed, cancelledOrders := cancelled }

/-- The callback of the `reduce` of the order-details modal:
`(s, it) => s + (it.price || 0) * (it.quantity || 1)`. -/
def addModalAmount (strToNum : String → JSNumber) (sum : JSNumber) (item : JSItem) :
    Except JSError JSNumber :=
  match item.get ItemRecord.price with
  | Except.error e => Except.error e
  | Except.ok p =>
    match item.get ItemRecord.quantity with
    | Except.error e => Except.error e
    | Except.ok q =>
      Except.ok (sum.add
        (((p.or (JSValue.num (JSNumber.fin 0))).toNumber strToNum).mul
          ((q.or (JSValue.num (JSNumber.fin 1))).toNumber strToNum)))

/-- The total of the order-details modal:
`Array.isArray(selectedOrder.items) ? selectedOrder.items.reduce(..., 0) : 0`. -/
def modalTotal (strToNum : String → JSNumber) (selectedOrder : Order) :
    Except JSError JSNumber :=
  match selectedOrder.items with
  | some xs => reduce (addModalAmount strToNum) xs (JSNumber.fin 0)
  | none => Except.ok (JSNumber.fin 0)

/-! ## Catering: the time picker of the modal -/

/-- The method `String.prototype.padStart` with a pad string of one character. -/
def padStart (s : String) (targetLength : Nat) (pad : Char) : String :=
  String.mk (List.replicate (targetLength - s.length) pad) ++ s

/-- The constant `displayTime` of the time picker, for `hours = selected.getHours()` and
`minutes = selected.getMinutes()`. -/
def displayTime (hours minutes : Nat) : String :=
  let ampm := if hours ≥ 12 then "PM" else "AM"
  let displayHours := if hours % 12 = 0 then 12 else hours % 12
  toString displayHours ++ ":" ++ padStart (toString minutes) 2 '0' ++ " " ++ ampm

/-- The constant `backendTime` of the time picker. -/
def backendTime (hours minutes : Nat) : String :=
  padStart (toString hours) 2 '0' ++ ":" ++ padStart (toString minutes) 2 '0'

/-- The value of `showTimePicker.field` while the picker is shown. -/
inductive TimeField where
  | startTime
  | endTime
  deriving DecidableEq

/-- The `onChange` of the time picker on the form: nothing is written when no time is
selected, else the display time goes to the field and the backend time to the field with
the suffix `24`. -/
def pickTime (field : TimeField) (selected : Option (Nat × Nat)) (form : ScheduleForm) :
    ScheduleForm :=
  match selected with
  | none => form
  | some (hours, minutes) =>
    match field with
    | TimeField.startTime =>
      { form with
        startTime := JSValue.str (displayTime hours minutes)
        startTime24 := JSValue.str (backendTime hours minutes) }
    | TimeField.endTime =>
      { form with
        endTime := JSValue.str (displayTime hours minutes)
        endTime24 := JSValue.str (backendTime hours minutes) }

/-! ## Menu management: objects as lists of properties -/

/-- The assignment `obj[k] = v` on the own properties of an object, listed in their order:
an existing property keeps its place, a new one goes last. -/
def assign {α : Type} : List (String × α) → String → α → List (String × α)
  | [], k, v => [(k, v)]
  | e :: rest, k, v => if e.1 == k then (k, v) :: rest else e :: assign rest k v

/-! ## Menu management: the key of the params -/

/-- The property read `params[k]`: `undefined` when the object has no such property. -/
def readParam (params : List (String × JSValue)) (k : String) : JSValue :=
  (List.lookup k params).getD JSValue.undefined

/-- The test `v !== undefined && v !== null && v !== ''` of `paramKey`. -/
def keepsParam (v : JSValue) : Bool :=
  !(v.strictEq JSValue.undefined) && !(v.strictEq JSValue.null) && !(v.strictEq (JSValue.str ""))

/-- The constant `paramKey` of `useMenuManagement`. `params` is `none` when it is `null`
(then `params || {}` is the empty object), else the own properties of the object in the order
of `Object.keys`; `le` is the order in which `sort()` compares two keys and `stringify` is
`JSON.stringify` on the object built, which receives the properties in assignment order. The
body of the `try` does not throw on such params. -/
def paramKey (le : String → String → Bool) (stringify : List (String × JSValue) → String)
    (params : Option (List (String × JSValue))) : String :=
  let p := params.getD []
  let keys := (p.map Prod.fst).insertionSort (fun a b => le a b = true)
  let obj := keys.foldl
    (fun obj k =>
      let v := readParam p k
      if keepsParam v then assign obj k v else obj)
    []
  stringify obj

/-! ## Menu management: the items of the state -/

/-- A property value of a menu item: a primitive, or an object with primitive properties
(such as a category record). -/
inductive PropValue where
  | prim (v : JSValue)
  | object (fields : List (String × JSValue))
  deriving DecidableEq

namespace PropValue

/-- The abstract operation ToBoolean: every object is truthy. -/
def truthy : PropValue → Bool
  | prim v => v.truthy
  | object _ => true

/-- The operator `a || b`. -/
def or (a b : PropValue) : PropValue := if a.truthy then a else b

/-- The operator `a === b`: two primitives are compared as values; an object is equal to
itself only, and the objects of a parsed response are different from every object of the
state. -/
def strictEq (a b : PropValue) : Bool :=
  match a, b with
  | prim x, prim y => x.strictEq y
  | _, _ => false

end PropValue

/-- The property read `item.k`: `undefined` when the item has no such property. -/
def getProp (item : List (String × PropValue)) (k : String) : PropValue :=
  (List.lookup k item).getD (PropValue.prim JSValue.undefined)

/-- The expression `typeof v === 'string' && v`. -/
def stringAnd (v : PropValue) : PropValue :=
  match v with
  | PropValue.prim (JSValue.str s) => PropValue.prim (JSValue.str s)
  | _ => PropValue.prim (JSValue.bool false)

/-- The property read `cat?.k` on a category object. -/
def optionalField (fields : List (String × JSValue)) (k : String) : JSValue :=
  (List.lookup k fields).getD JSValue.undefined

/-- The object spread `{ ...a, ...b }`: the properties of `b` assigned to a copy of `a`. -/
def spread {α : Type} (a b : List (String × α)) : List (String × α) :=
  b.foldl (fun acc e => assign acc e.1 e.2) a

/-- The function `normalizeForState`. `item` is `none` for a falsy argument; `toStr` is the
conversion `String(v)` of the runtime. A category that is `null` has `typeof` `object` and no
field; a category that is neither a string nor an object goes through `String(cat || '')`. -/
def normalizeForState (toStr : JSValue → String) (item : Option (List (String × PropValue))) :
    Option (List (String × PropValue)) :=
  match item with
  | none => none
  | some item =>
    let img :=
      (((((stringAnd (getProp item "image")).or (stringAnd (getProp item "imageUrl"))).or
        (stringAnd (getProp item "image_url"))).or (stringAnd (getProp item "photo"))).or
        (stringAnd (getProp item "picture"))).or (PropValue.prim (JSValue.str ""))
    let cat := getProp item "category"
    let category : PropValue :=
      match cat with
      | PropValue.prim (JSValue.str s) => PropValue.prim (JSValue.str s)
      | PropValue.object fields =>
        PropValue.prim
          ((((((optionalField fields "name").or (optionalField fields "label")).or
            (optionalField fields "title")).or (optionalField fields "slug")).or
            (optionalField fields "id")).or (JSValue.str ""))
      | PropValue.prim JSValue.null => PropValue.prim (JSValue.str "")
      | PropValue.prim v => PropValue.prim (JSValue.str (toStr (v.or (JSValue.str ""))))
    some
      (assign
        (assign
          (assign item "category" ((category.or cat).or (PropValue.prim (JSValue.str ""))))
          "image"
          (((img.or (getProp item "image")).or (getProp item "imageUrl")).or
            (PropValue.prim (JSValue.str ""))))
        "imageUrl"
        (((img.or (getProp item "imageUrl")).or (getProp item "image")).or
          (PropValue.prim (JSValue.str ""))))

/-- The method `Array.prototype.findIndex`: `none` stands for `-1`. -/
def findIndex {α : Type} (p : α → Bool) : List α → Option Nat
  | [] => none
  | x :: xs => if p x then some 0 else (findIndex p xs).map (fun i => i + 1)

/-- The function `upsertItem` as a function of the previous items (the updater handed to
`setItems`; nothing is set when the normalised item is `null`). -/
def upsertItem (toStr : JSValue → String) (incoming : Option (List (String × PropValue)))
    (prev : List (List (String × PropValue))) : List (List (String × PropValue)) :=
  match normalizeForState toStr incoming with
  | none => prev
  | some normalized =>
    let idx :=
      if !((getProp normalized "id").strictEq (PropValue.prim JSValue.undefined)) &&
          !((getProp normalized "id").strictEq (PropValue.prim JSValue.null)) then
        findIndex (fun it => (getProp it "id").strictEq (getProp normalized "id")) prev
      else none
    match idx with
    | some i => prev.set i (spread (prev.getD i []) normalized)
    | none => normalized :: prev

/-! ## Employees: fetching every page -/

/-- An employee record as the server sends it. -/
structure RawEmployee where
  id : JSValue := JSValue.undefined
  name : JSValue := JSValue.undefined
  position : JSValue := JSValue.undefined
  hourlyRate : JSValue := JSValue.undefined
  hourly_rate : JSValue := JSValue.undefined
  rate : JSValue := JSValue.undefined
  contact : JSValue := JSValue.undefined
  status : JSValue := JSValue.undefined
  avatar : JSValue := JSValue.undefined
  deriving DecidableEq

/-- An employee as `_normalizeEmployee` returns it. -/
structure Employee where
  id : JSValue
  name : JSValue
  position : JSValue
  hourlyRate : JSNumber
  contact : JSValue
  status : String
  avatar : JSValue
  deriving DecidableEq

/-- The method `_normalizeEmployee`; the call of `toLowerCase` throws on a status that is
truthy and not a string. -/
def _normalizeEmployee (strToNum : String → JSNumber) (e : RawEmployee) :
    Except JSError Employee :=
  match callToLowerCase (e.status.or (JSValue.str "active")) with
  | Except.error err => Except.error err
  | Except.ok status =>
    Except.ok
      { id := e.id
        name := e.name.or (JSValue.str "")
        position := e.position.or (JSValue.str "")
        hourlyRate :=
          (((e.hourlyRate.nullish e.hourly_rate).nullish e.rate).nullish
            (JSValue.num (JSNumber.fin 0))).toNumber strToNum
        contact := e.contact.or (JSValue.str "")
        status := status
        avatar := e.avatar.or (JSValue.str "/placeholder.svg") }

/-- A pagination object as the server sends it. -/
structure PaginationRaw where
  page : JSValue := JSValue.undefined
  current : JSValue := JSValue.undefined
  limit : JSValue := JSValue.undefined
  pageSize : JSValue := JSValue.undefined
  total : JSValue := JSValue.undefined
  totalItems : JSValue := JSValue.undefined
  totalPages : JSValue := JSValue.undefined
  total_pages : JSValue := JSValue.undefined
  pages : JSValue := JSValue.undefined
  deriving DecidableEq

/-- The property `data` of a response: an array, an object (with its `pagination`, when that
is truthy), or anything else. -/
inductive ResponseData where
  | array (items : List RawEmployee)
  | object (pagination : Option PaginationRaw)
  | other

/-- The value `res` that `apiClient.get` resolves with: an array, an object (each of
`results` and `items` is `none` unless it is an array, each pagination is `none` unless it is
truthy), or `null`. -/
inductive ApiResponse where
  | array (items : List RawEmployee)
  | object (data : ResponseData) (results items : Option (List RawEmployee))
      (pagination metaPagination : Option PaginationRaw)
  | null

/-- The pagination of a page as `_fetchEmployeesPage` returns it. -/
structure Pagination where
  page : JSNumber
  limit : JSNumber
  total : JSNumber
  totalPages : JSNumber
  deriving DecidableEq

/-- The result of `_fetchEmployeesPage`. -/
structure PageResult where
  employees : List Employee
  pagination : Option Pagination
  deriving DecidableEq

/-- The constant `container` of `_fetchEmployeesPage`. -/
def responseContainer (res : ApiResponse) : List RawEmployee :=
  match res with
  | ApiResponse.array xs => xs
  | ApiResponse.object (ResponseData.array xs) _ _ _ _ => xs
  | ApiResponse.object _ (some xs) _ _ _ => xs
  | ApiResponse.object _ none (some xs) _ _ => xs
  | _ => []

/-- The constant `paginationRaw` of `_fetchEmployeesPage`:
`res?.pagination || res?.meta?.pagination || res?.data?.pagination || null`. -/
def responsePagination (res : ApiResponse) : Option PaginationRaw :=
  match res with
  | ApiResponse.object data _ _ pagination metaPagination =>
    (pagination.orElse (fun _ => metaPagination)).orElse
      (fun _ =>
        match data with
        | ResponseData.object p => p
        | _ => none)
  | _ => none

/-- The method `_fetchEmployeesPage` for the params of `getAllEmployees`, whose `limit` and
`page` are numbers. `respond` is the outcome of the request for a page (the other params
are the same in every request): it rejects, or resolves with `res`. -/
def _fetchEmployeesPage (strToNum : String → JSNumber)
    (respond : ℕ → Except JSError ApiResponse) (limit : ℚ) (page : ℕ) :
    Except JSError PageResult :=
  match respond page with
  | Except.error e => Except.error e
  | Except.ok res =>
    match mapItems (_normalizeEmployee strToNum) (responseContainer res) with
    | Except.error e => Except.error e
    | Except.ok employees =>
      Except.ok
        { employees := employees
          pagination := (responsePagination res).map (fun raw =>
            { page :=
                (((raw.page.nullish raw.current).nullish (JSValue.num (JSNumber.fin page))).nullish
                  (JSValue.num (JSNumber.fin 1))).toNumber strToNum
              limit :=
                (((raw.limit.nullish raw.pageSize).nullish (JSValue.num (JSNumber.fin limit))).nullish
                  (JSValue.num (JSNumber.fin 0))).toNumber strToNum
              total :=
                ((raw.total.nullish raw.totalItems).nullish
                  (JSValue.num (JSNumber.fin employees.length))).toNumber strToNum
              totalPages :=
                (((raw.totalPages.nullish raw.total_pages).nullish raw.pages).nullish
                  (JSValue.num (JSNumber.fin 1))).toNumber strToNum }) }

/-- The params of `getAllEmployees` that the method reads: `limit`, and `page` (`none` when
it is missing, else a page number). -/
structure EmployeeParams where
  limit : JSValue := JSValue.undefined
  page : Option ℕ := none

/-- The constant `limit` of `getAllEmployees`: the number given, or 200 when `limit` is
missing, is not a finite number or is not positive. -/
def employeesLimit (strToNum : String → JSNumber) (params : EmployeeParams) : ℚ :=
  let limitValue :=
    (if params.limit.strictEq JSValue.undefined || params.limit.strictEq JSValue.null then
      JSValue.num (JSNumber.fin 0)
    else params.limit).toNumber strToNum
  match limitValue with
  | JSNumber.fin q => if q > 0 then q else 200
  | JSNumber.nan => 200

/-- The `while (true)` loop of `getAllEmployees`, run for at most `fuel` rounds: `none` when
the rounds are used up before the `break`; a failed fetch rejects the call. -/
def getAllEmployeesLoop (strToNum : String → JSNumber)
    (fetchPage : ℕ → Except JSError PageResult) (limit : ℚ) :
    ℕ → ℕ → List Employee → Option (Except JSError (List Employee))
  | 0, _, _ => none
  | fuel + 1, page, aggregated =>
    match fetchPage page with
    | Except.error e => some (Except.error e)
    | Except.ok r =>
      let totalPages :=
        ((match r.pagination with
          | some p => JSValue.num p.totalPages
          | none => JSValue.undefined).or JSValue.undefined).or (JSValue.num (JSNumber.fin 0))
      if !totalPages.truthy || (totalPages.toNumber strToNum).le (JSNumber.fin page) ||
          (JSNumber.fin r.employees.length).lt (JSNumber.fin limit) then
        some (Except.ok (aggregated ++ r.employees))
      else getAllEmployeesLoop strToNum fetchPage limit fuel (page + 1) (aggregated ++ r.employees)

/-- The method `getAllEmployees`, with at most `fuel` rounds of its loop. -/
def getAllEmployees (strToNum : String → JSNumber) (respond : ℕ → Except JSError ApiResponse)
    (params : EmployeeParams) (fuel : ℕ) : Option (Except JSError (List Employee)) :=
  let limit := employeesLimit strToNum params
  getAllEmployeesLoop strToNum (_fetchEmployeesPage strToNum respond limit) limit fuel
    (params.page.getD 1) []

/-! ## Catering: selecting the menu rows of the modal -/

/-- The method `Array.prototype.includes`: an element is found when it is the same value,
`NaN` included. -/
def includes (xs : List JSValue) (v : JSValue) : Bool := xs.any (fun x => decide (x = v))

/-- The function `toggleMenuItem` of the modal, as the update of the form. -/
def toggleMenuItem (itemId : JSValue) (prev : ScheduleForm) : ScheduleForm :=
  { prev with
    selectedItems :=
      if includes prev.selectedItems itemId then
        prev.selectedItems.filter (fun id => !(id.strictEq itemId))
      else prev.selectedItems ++ [itemId] }

/-- A press on a row of the menu selection, `onPress={() => toggleMenuItem(item.id)}`. The
rows are rendered from `menuItems`; `row` is the place of the entry pressed, and there is
nothing to press at a place the menu does not have. -/
def pressMenuRow (menuItems : List MenuItem) (row : ℕ) (form : ScheduleForm) : ScheduleForm :=
  match menuItems.get? row with
  | some item => toggleMenuItem item.id form
  | none => form

/-! ## The specification's wording of the totals -/

/-- Rounding to two decimal places, half up. -/
def roundHalfUpCents (q : ℚ) : ℚ := (⌊q * 100 + 1 / 2⌋ : ℤ) / 100

/-- The down payment as the specification words it: `total * 0.5` rounded half-up to two
decimal places. -/
def specDownPayment (total : ℚ) : ℚ := roundHalfUpCents (total * (1 / 2))

/-- A field that holds a finite number. -/
def JSValue.isFinite : JSValue → Bool
  | JSValue.num (JSNumber.fin _) => true
  | _ => false

/-- A field that holds a finite number or is missing (`undefined` or `null`). -/
def JSValue.isNumberOrMissing : JSValue → Bool
  | JSValue.undefined => true
  | JSValue.null => true
  | JSValue.num (JSNumber.fin _) => true
  | _ => false

/-- The amount a numeric field stands for, a missing one counting as `0`. -/
def JSValue.numberOrZero : JSValue → ℚ
  | JSValue.num (JSNumber.fin q) => q
  | _ => 0

/-- The order total as the specification words it: the sum over the items of
`price * quantity`, a missing price or quantity counting as `0`. -/
def specTotal (items : List ItemRecord) : ℚ :=
  (items.map (fun r => r.price.numberOrZero * r.quantity.numberOrZero)).sum

/-- The clamped total of the specification: the sum over the items of
`max(price, 0) * max(quantity, 0)`. -/
def specClampedTotal (items : List ItemRecord) : ℚ :=
  (items.map (fun r => max r.price.numberOrZero 0 * max r.quantity.numberOrZero 0)).sum

/-- The total of a list of line items as the specification words it: the sum of
`unit_price * quantity`. -/
def specLineTotal (items : List ItemRecord) : ℚ :=
  (items.map (fun r => r.unit_price.numberOrZero * r.quantity.numberOrZero)).sum

/-- The clamped total of a list of line items: the sum of
`max(unit_price, 0) * max(quantity, 0)`. -/
def specClampedLineTotal (items : List ItemRecord) : ℚ :=
  (items.map (fun r => max r.unit_price.numberOrZero 0 * max r.quantity.numberOrZero 0)).sum

/-! ## Scenarios of the specification -/

/-- A runtime in which no non-empty string denotes a number. -/
def noNumericStrings : String → JSNumber := fun _ => JSNumber.nan

/-- The event of the settlement scenario: total 2000, paid 1000, status `Pending Payment`. -/
def scenarioEvent : CateringEvent :=
  { id := JSValue.num (JSNumber.fin 1)
    total_price := JSValue.num (JSNumber.fin 2000)
    paid_amount := JSValue.num (JSNumber.fin 1000)
    status := JSValue.str "Pending Payment" }

/-- An event that is paid in full: total 2000, paid 2000, status `Confirmed`. -/
def paidEvent : CateringEvent :=
  { id := JSValue.num (JSNumber.fin 2)
    total_price := JSValue.num (JSNumber.fin 2000)
    paid_amount := JSValue.num (JSNumber.fin 2000)
    status := JSValue.str "Confirmed" }

/-- An event whose `paid_amount` is above its `total_price`: total 100, paid 150. -/
def overpaidEvent : CateringEvent :=
  { id := JSValue.num (JSNumber.fin 3)
    total_price := JSValue.num (JSNumber.fin 100)
    paid_amount := JSValue.num (JSNumber.fin 150)
    status := JSValue.str "Pending Payment" }

/-- An order whose `items` array holds the single entry `null`. -/
def nullItemOrder : Order := { items := some [JSItem.prim JSValue.null] }

/-- An order of two well-formed items: 2 at 150 and 3 at 20, the second without image. -/
def twoItemOrder : Order :=
  { items := some
      [JSItem.obj { price := JSValue.num (JSNumber.fin 150), quantity := JSValue.num (JSNumber.fin 2) },
       JSItem.obj { price := JSValue.num (JSNumber.fin 20), quantity := JSValue.num (JSNumber.fin 3) }] }

/-- One item of negative price: 1 at -5. -/
def negativePriceItems : List ItemRecord :=
  [{ price := JSValue.num (JSNumber.fin (-5)), quantity := JSValue.num (JSNumber.fin 1) }]

/-- The order of the item of negative price. -/
def negativePriceOrder : Order := { items := some (negativePriceItems.map JSItem.obj) }

/-- A menu of one entry: id 7, price 1000, quantity 2 chosen. -/
def scenarioMenu : List MenuItem :=
  [{ id := JSValue.num (JSNumber.fin 7)
     name := JSValue.str "Buffet"
     price := JSValue.num (JSNumber.fin 1000)
     selectedQuantity := JSValue.num (JSNumber.fin 2) }]

/-- A schedule form with every required field filled and the menu entry 7 selected. -/
def scenarioForm : ScheduleForm :=
  { eventName := JSValue.str "Seminar"
    client := JSValue.str "Ana Cruz"
    date := JSValue.str "2099-01-01"
    startTime := JSValue.str "9:00 AM"
    endTime := JSValue.str "5:00 PM"
    startTime24 := JSValue.str "09:00"
    endTime24 := JSValue.str "17:00"
    location := JSValue.str "Hall A"
    attendees := JSValue.str "50"
    contactName := JSValue.str "Ana"
    contactPhone := JSValue.str "0917"
    selectedItems := [JSValue.num (JSNumber.fin 7)] }

/-- The state of the modal holding `scenarioForm`, with no event yet. -/
def scenarioModalState : ModalState :=
  { cateringEvents := [], scheduleForm := scenarioForm, loading := false, modalVisible := true }

/-- The line items built from `scenarioMenu` for the selection of `scenarioForm`. -/
def scenarioLineItems : List ItemRecord :=
  [{ menu_item := JSValue.num (JSNumber.fin 7)
     name := JSValue.str "Buffet"
     quantity := JSValue.num (JSNumber.fin 2)
     unit_price := JSValue.num (JSNumber.fin 1000)
     image := JSValue.null }]

/-- A menu whose one entry has a negative price: id 7, price -100, quantity 1. -/
def negativePriceMenu : List MenuItem :=
  [{ id := JSValue.num (JSNumber.fin 7)
     name := JSValue.str "Voucher"
     price := JSValue.num (JSNumber.fin (-100))
     selectedQuantity := JSValue.num (JSNumber.fin 1) }]

/-- The line items built from `negativePriceMenu` for the selection of `scenarioForm`. -/
def negativePriceLineItems : List ItemRecord :=
  [{ menu_item := JSValue.num (JSNumber.fin 7)
     name := JSValue.str "Voucher"
     quantity := JSValue.num (JSNumber.fin 1)
     unit_price := JSValue.num (JSNumber.fin (-100))
     image := JSValue.null }]

/-- A menu whose one entry has no price: id 7, quantity 1. -/
def freeMenu : List MenuItem :=
  [{ id := JSValue.num (JSNumber.fin 7)
     name := JSValue.str "Water"
     selectedQuantity := JSValue.num (JSNumber.fin 1) }]

/-- A cancelled event with half of its total paid: total 2000, paid 1000. -/
def cancelledEvent : CateringEvent :=
  { id := JSValue.num (JSNumber.fin 4)
    client_name := JSValue.str "Ana Cruz"
    event_date := JSValue.str "2099-01-01"
    total_price := JSValue.num (JSNumber.fin 2000)
    paid_amount := JSValue.num (JSNumber.fin 1000)
    status := JSValue.str "Cancelled" }

/-- The line items built from `freeMenu` for the selection of `scenarioForm`. -/
def freeLineItems : List ItemRecord :=
  [{ menu_item := JSValue.num (JSNumber.fin 7)
     name := JSValue.str "Water"
     quantity := JSValue.num (JSNumber.fin 1)
     unit_price := JSValue.num (JSNumber.fin 0)
     image := JSValue.null }]

/-- The comparison of the names as the specification words it, for the current client `c`:
the event's client name, lower-cased, equals `c` trimmed and lower-cased. -/
def clientMatches (lower : String → String) (c : String) (ev : CateringEvent) : Bool :=
  match ev.client_name with
  | JSValue.str n => decide (lower n = lower (trim c))
  | _ => false

/-- The `event_date` of the event is a valid date. -/
def hasValidDate (timeValue : JSValue → JSNumber) (ev : CateringEvent) : Bool :=
  match timeValue ev.event_date with
  | JSNumber.fin _ => true
  | JSNumber.nan => false

/-- The time values of `new Date(v)` for the date strings of the scenarios (midnight UTC of
the day, in milliseconds since the epoch); no other value is used as a date there. -/
def scenarioTimeValue : JSValue → JSNumber
  | JSValue.str "2024-01-01" => JSNumber.fin 1704067200000
  | JSValue.str "2025-01-01" => JSNumber.fin 1735689600000
  | JSValue.str "2099-01-01" => JSNumber.fin 4070908800000
  | _ => JSNumber.nan

/-- The instant 2025-01-01 at 12:00 UTC, in milliseconds since the epoch. -/
def noon2025 : ℚ := 1735732800000

/-- An event of the client `Ana Cruz` dated 2024-01-01. -/
def event2024 : CateringEvent :=
  { id := JSValue.num (JSNumber.fin 11)
    client_name := JSValue.str "Ana Cruz"
    event_date := JSValue.str "2024-01-01"
    status := JSValue.str "Confirmed" }

/-- An event of the client `Ana Cruz` dated 2025-01-01. -/
def event2025 : CateringEvent :=
  { id := JSValue.num (JSNumber.fin 12)
    client_name := JSValue.str "Ana Cruz"
    event_date := JSValue.str "2025-01-01"
    status := JSValue.str "Pending Payment" }

/-- An event of the client `Ana Cruz` dated 2099-01-01. -/
def event2099 : CateringEvent :=
  { id := JSValue.num (JSNumber.fin 13)
    client_name := JSValue.str "Ana Cruz"
    event_date := JSValue.str "2099-01-01"
    status := JSValue.str "Pending Payment" }

/-- An event of the client `Ana Cruz` without `event_date`. -/
def undatedEvent : CateringEvent :=
  { id := JSValue.num (JSNumber.fin 14)
    client_name := JSValue.str "Ana Cruz"
    status := JSValue.str "Confirmed" }

/-- The scenario form with a second selected id, 99, that no menu entry has. -/
def staleSelectionForm : ScheduleForm :=
  { scenarioForm with
    selectedItems := [JSValue.num (JSNumber.fin 7), JSValue.num (JSNumber.fin 99)] }

/-- The state of the modal holding `staleSelectionForm`, with no event yet. -/
def staleSelectionModalState : ModalState :=
  { cateringEvents := [], scheduleForm := staleSelectionForm, loading := false,
    modalVisible := true }

/-- An offer of 500 points. -/
def offer500 : Offer :=
  { id := JSValue.num (JSNumber.fin 1), name := JSValue.str "Free meal",
    points := JSValue.num (JSNumber.fin 500) }

/-- A profile with 300 credit points, a cart of one entry and the credit modal open. -/
def profile300 : ProfileState :=
  { creditPoints := JSValue.num (JSNumber.fin 300), cart := [JSValue.str "item"],
    creditModal := true }

/-- An offer of 300 points. -/
def offer300 : Offer :=
  { id := JSValue.num (JSNumber.fin 2), name := JSValue.str "Free drink",
    points := JSValue.num (JSNumber.fin 300) }

/-- The scenario form without any selected menu entry. -/
def emptySelectionForm : ScheduleForm := { scenarioForm with selectedItems := [] }

/-- The scenario form with a location of blanks only. -/
def blankLocationForm : ScheduleForm := { scenarioForm with location := JSValue.str "   " }

/-- The scenario menu after `0` is typed as the quantity of its entry. -/
def zeroQuantityMenu : List MenuItem := scenarioMenu.filterMap (typeQuantity "0")

/-- The two digits of a number below 100, the first one `0` for a number below 10. -/
def twoDigits (n : Nat) : String := String.mk [Char.ofNat (48 + n / 10), Char.ofNat (48 + n % 10)]

/-- An order with one item of price 100 and no quantity. -/
def noQuantityOrder : Order :=
  { status := JSValue.str "pending"
    items := some [JSItem.obj { price := JSValue.num (JSNumber.fin 100) }] }

/-- A fetched list of two orders, the second with the number 5 as its status. -/
def numericStatusOrders : List Order :=
  [ { id := JSValue.num (JSNumber.fin 1), status := JSValue.str "Pending" },
    { id := JSValue.num (JSNumber.fin 2), status := JSValue.num (JSNumber.fin 5) } ]

/-- A fetched list with an open order, a completed one, a cancelled one and one without status. -/
def fetchedOrders : List Order :=
  [ { id := JSValue.num (JSNumber.fin 1), status := JSValue.str "Pending" },
    { id := JSValue.num (JSNumber.fin 2), status := JSValue.str "Completed" },
    { id := JSValue.num (JSNumber.fin 3), status := JSValue.str "CANCELLED" },
    { id := JSValue.num (JSNumber.fin 4) } ]

/-- The order of two keys by their characters, for the `sort()` of the scenarios. -/
def keyLe (a b : String) : Bool := decide (a ≤ b)

/-- A string between double quotes. -/
def quoted (s : String) : String := String.mk ([Char.ofNat 34] ++ s.data ++ [Char.ofNat 34])

/-- A rendering of an object in the manner of `JSON.stringify`, for the scenarios: the
properties in their order between braces, strings quoted, numbers by numerator and
denominator. -/
def scenarioStringify (obj : List (String × JSValue)) : String :=
  String.mk [Char.ofNat 123] ++ ",".intercalate (obj.map (fun e => quoted e.1 ++ ":" ++
    (match e.2 with
      | JSValue.str s => quoted s
      | JSValue.num (JSNumber.fin q) =>
        if q.den = 1 then toString q.num else toString q.num ++ "/" ++ toString q.den
      | JSValue.bool b => toString b
      | _ => "null"))) ++ String.mk [Char.ofNat 125]

/-- The params `{ search: 'tea', page: 2, category: '' }`. -/
def paramsSearchFirst : List (String × JSValue) :=
  [("search", JSValue.str "tea"), ("page", JSValue.num (JSNumber.fin 2)),
    ("category", JSValue.str "")]

/-- The params `{ archived: undefined, page: 2, search: 'tea' }`. -/
def paramsPageFirst : List (String × JSValue) :=
  [("archived", JSValue.undefined), ("page", JSValue.num (JSNumber.fin 2)),
    ("search", JSValue.str "tea")]

/-- A conversion `String(v)` for the scenarios: a string is itself, a boolean its name, any
other value the empty string. -/
def scenarioToStr (v : JSValue) : String :=
  match v with
  | JSValue.str s => s
  | JSValue.bool b => toString b
  | _ => ""

/-- The item `{ id: 'm1', name: 'Cola', category: 'Drinks' }` of the state. -/
def colaItem : List (String × PropValue) :=
  [("id", PropValue.prim (JSValue.str "m1")), ("name", PropValue.prim (JSValue.str "Cola")),
    ("category", PropValue.prim (JSValue.str "Drinks"))]

/-- The item `{ id: 'm2', name: 'Tea', category: 'Drinks' }` of the state. -/
def teaItem : List (String × PropValue) :=
  [("id", PropValue.prim (JSValue.str "m2")), ("name", PropValue.prim (JSValue.str "Tea")),
    ("category", PropValue.prim (JSValue.str "Drinks"))]

/-- The incoming item `{ id: 'm1', name: 'Cola Zero' }`, without category. -/
def renamedCola : List (String × PropValue) :=
  [("id", PropValue.prim (JSValue.str "m1")), ("name", PropValue.prim (JSValue.str "Cola Zero"))]

/-- The employee record number `n` of the scenarios. -/
def rawEmployee (n : ℕ) : RawEmployee :=
  { id := JSValue.num (JSNumber.fin n), name := JSValue.str "Ana", status := JSValue.str "Active" }

/-- A server with three pages of two employees, asked with `limit: 2`: every page reports
`totalPages: 3`. -/
def threePageServer (page : ℕ) : Except JSError ApiResponse :=
  Except.ok (ApiResponse.object (ResponseData.array [rawEmployee (2 * page), rawEmployee (2 * page + 1)])
    none none (some { totalPages := JSValue.num (JSNumber.fin 3) }) none)

/-- The employee number `n` of the scenarios, normalised. -/
def scenarioEmployee (n : ℕ) : Employee :=
  { id := JSValue.num (JSNumber.fin n), name := JSValue.str "Ana", position := JSValue.str "",
    hourlyRate := JSNumber.fin 0, contact := JSValue.str "", status := "active",
    avatar := JSValue.str "/placeholder.svg" }

/-- The pages of the server of three pages as `_fetchEmployeesPage` returns them. -/
def threePageResult (page : ℕ) : PageResult :=
  { employees := [scenarioEmployee (2 * page), scenarioEmployee (2 * page + 1)]
    pagination := some
      { page := JSNumber.fin page, limit := JSNumber.fin 2, total := JSNumber.fin 2,
        totalPages := JSNumber.fin 3 } }

/-- The params `{ limit: 2 }`. -/
def limitTwoParams : EmployeeParams := { limit := JSValue.num (JSNumber.fin 2) }


/-- The scenario form before any menu row is pressed. -/
def unselectedForm : ScheduleForm := { scenarioForm with selectedItems := [] }

/-! ## Theorems -/

/-- No character in the image of `Char.toLower` is one of the capital letters `A`-`Z`. -/
theorem toLower_not_upper (c : Char) :
    ¬ (65 ≤ (Char.toLower c).toNat ∧ (Char.toLower c).toNat ≤ 90) := by
  simp only [Char.toLower]
  by_cases h : c.toNat ≥ 65 ∧ c.toNat ≤ 90
  · rw [if_pos h]
    obtain ⟨h1, h2⟩ := h
    generalize c.toNat = n at h1 h2
    interval_cases n <;> decide
  · rw [if_neg h]
    exact h

/-- A string that contains a capital letter `A`-`Z` is not the lower case of any string. -/
theorem toLowerCase_ne_of_upper (s : String) (key : String) (u : Char)
    (hu : 65 ≤ u.toNat ∧ u.toNat ≤ 90) (hmem : u ∈ key.data) : toLowerCase s ≠ key := by
  intro h
  have hdata : s.data.map Char.toLower = key.data := by rw [← h]; rfl
  rw [← hdata] at hmem
  obtain ⟨c, _, hc⟩ := List.mem_map.1 hmem
  exact toLower_not_upper c (hc ▸ hu)

/-- The expression `s || ''` is `s` for every string `s`. -/
theorem or_str_empty (s : String) : JSValue.or (JSValue.str s) (JSValue.str "") = JSValue.str s := by
  by_cases h : s = ""
  · subst h
    rfl
  · simp [JSValue.or, JSValue.truthy, h]

/-- The status index of the statuses of the progress bar, of a missing and of an empty
status, and of every string whose lower case is neither a key of `statusMapping` nor one of
the two inherited property names `constructor` and `__proto__`. -/
theorem statusIndex_known :
    statusIndex (JSValue.str "pending") = Except.ok (JSValue.num (JSNumber.fin 0)) ∧
    statusIndex (JSValue.str "accepted") = Except.ok (JSValue.num (JSNumber.fin 1)) ∧
    statusIndex (JSValue.str "in_progress") = Except.ok (JSValue.num (JSNumber.fin 2)) ∧
    statusIndex (JSValue.str "ready") = Except.ok (JSValue.num (JSNumber.fin 3)) ∧
    statusIndex (JSValue.str "completed") = Except.ok (JSValue.num (JSNumber.fin 4)) ∧
    statusIndex (JSValue.str "cancelled") = Except.ok (JSValue.num (JSNumber.fin 0)) ∧
    statusIndex JSValue.undefined = Except.ok (JSValue.num (JSNumber.fin 0)) ∧
    statusIndex JSValue.null = Except.ok (JSValue.num (JSNumber.fin 0)) ∧
    statusIndex (JSValue.str "") = Except.ok (JSValue.num (JSNumber.fin 0)) ∧
    ∀ s : String,
      toLowerCase s ∉ ["pending", "accepted", "in_progress", "ready", "completed", "cancelled"] →
      toLowerCase s ≠ "constructor" → toLowerCase s ≠ "__proto__" →
      statusIndex (JSValue.str s) = Except.ok (JSValue.num (JSNumber.fin 0)) := by
  refine ⟨by decide, by decide, by decide, by decide, by decide, by decide, by decide,
    by decide, by decide, ?_⟩
  intro s hkeys hc hp
  have h1 := toLowerCase_ne_of_upper s "__defineGetter__" 'G' (by decide) (by decide)
  have h2 := toLowerCase_ne_of_upper s "__defineSetter__" 'S' (by decide) (by decide)
  have h3 := toLowerCase_ne_of_upper s "hasOwnProperty" 'O' (by decide) (by decide)
  have h4 := toLowerCase_ne_of_upper s "__lookupGetter__" 'G' (by decide) (by decide)
  have h5 := toLowerCase_ne_of_upper s "__lookupSetter__" 'S' (by decide) (by decide)
  have h6 := toLowerCase_ne_of_upper s "isPrototypeOf" 'P' (by decide) (by decide)
  have h7 := toLowerCase_ne_of_upper s "propertyIsEnumerable" 'I' (by decide) (by decide)
  have h8 := toLowerCase_ne_of_upper s "toString" 'S' (by decide) (by decide)
  have h9 := toLowerCase_ne_of_upper s "valueOf" 'O' (by decide) (by decide)
  have h10 := toLowerCase_ne_of_upper s "toLocaleString" 'L' (by decide) (by decide)
  simp only [List.mem_cons, List.mem_singleton, List.not_mem_nil, or_false, not_or] at hkeys
  obtain ⟨k1, k2, k3, k4, k5, k6⟩ := hkeys
  rw [statusIndex, or_str_empty, callToLowerCase]
  generalize toLowerCase s = k at *
  simp only [getProperty, statusMapping, objectPrototype, List.lookup,
    beq_eq_false_iff_ne.2 k1, beq_eq_false_iff_ne.2 k2, beq_eq_false_iff_ne.2 k3,
    beq_eq_false_iff_ne.2 k4, beq_eq_false_iff_ne.2 k5, beq_eq_false_iff_ne.2 k6,
    beq_eq_false_iff_ne.2 hc, beq_eq_false_iff_ne.2 hp, beq_eq_false_iff_ne.2 h1,
    beq_eq_false_iff_ne.2 h2, beq_eq_false_iff_ne.2 h3, beq_eq_false_iff_ne.2 h4,
    beq_eq_false_iff_ne.2 h5, beq_eq_false_iff_ne.2 h6, beq_eq_false_iff_ne.2 h7,
    beq_eq_false_iff_ne.2 h8, beq_eq_false_iff_ne.2 h9, beq_eq_false_iff_ne.2 h10,
    JSValue.nullish]

/-- C1: for an order whose status is `constructor` the status index is not `0`: the lookup in
`statusMapping` finds the property inherited from `Object.prototype`, so `?? 0` does not
apply and the index is the built-in `Object`. -/
theorem statusIndex_inherited_key :
    statusIndex (JSValue.str "constructor") = Except.ok (JSValue.host "Object") ∧
    statusIndex (JSValue.str "constructor") ≠ Except.ok (JSValue.num (JSNumber.fin 0)) := by
  decide

/-- C2, as stated, fails: the status `In Progress` (space separated) does not map to `2`. -/
theorem statusIndex_space_separated_ne :
    statusIndex (JSValue.str "In Progress") ≠ Except.ok (JSValue.num (JSNumber.fin 2)) := by
  decide

/-- C2, amended: every casing of `in_progress` maps to `2`, and every casing of the
space-separated `in progress` maps to `0`. -/
theorem statusIndex_case_insensitive (s : String) :
    (toLowerCase s = "in_progress" →
      statusIndex (JSValue.str s) = Except.ok (JSValue.num (JSNumber.fin 2))) ∧
    (toLowerCase s = "in progress" →
      statusIndex (JSValue.str s) = Except.ok (JSValue.num (JSNumber.fin 0))) := by
  constructor
  · intro h
    rw [statusIndex, or_str_empty, callToLowerCase, h]
    decide
  · intro h
    rw [statusIndex, or_str_empty, callToLowerCase, h]
    decide

/-- Witness for `statusIndex_case_insensitive`: the statuses `IN_Progress` and `In Progress`. -/
theorem statusIndex_case_insensitive_witness :
    toLowerCase "IN_Progress" = "in_progress" ∧
    statusIndex (JSValue.str "IN_Progress") = Except.ok (JSValue.num (JSNumber.fin 2)) ∧
    toLowerCase "In Progress" = "in progress" ∧
    statusIndex (JSValue.str "In Progress") = Except.ok (JSValue.num (JSNumber.fin 0)) :=
  ⟨by decide, (statusIndex_case_insensitive "IN_Progress").1 (by decide), by decide,
    (statusIndex_case_insensitive "In Progress").2 (by decide)⟩

/-! ### Paying the remaining balance -/

/-- A value whose numeric value is finite and which is falsy converts to `0`. -/
theorem toNumber_of_falsy (strToNum : String → JSNumber) (v : JSValue) (t : ℚ)
    (hv : v.truthy = false) (ht : v.toNumber strToNum = JSNumber.fin t) : t = 0 := by
  cases v with
  | undefined => simp [JSValue.toNumber] at ht
  | null => simpa [JSValue.toNumber, eq_comm] using ht
  | bool b =>
    simp only [JSValue.truthy] at hv
    subst hv
    simpa [JSValue.toNumber, eq_comm] using ht
  | num n =>
    cases n with
    | fin q =>
      simp only [JSValue.truthy, decide_eq_false_iff_not, not_not] at hv
      simp only [JSValue.toNumber, JSNumber.fin.injEq] at ht
      rw [← ht, hv]
    | nan => simp [JSValue.toNumber] at ht
  | str s =>
    simp only [JSValue.truthy, decide_eq_false_iff_not, not_not] at hv
    subst hv
    simpa [JSValue.toNumber, eq_comm] using ht
  | host n => simp [JSValue.truthy] at hv

/-- The numeric value of `v || 0` is the numeric value of `v` whenever the latter is finite. -/
theorem toNumber_or_zero (strToNum : String → JSNumber) (v : JSValue) (t : ℚ)
    (ht : v.toNumber strToNum = JSNumber.fin t) :
    (v.or (JSValue.num (JSNumber.fin 0))).toNumber strToNum = JSNumber.fin t := by
  unfold JSValue.or
  by_cases hv : v.truthy = true
  · rw [if_pos hv, ht]
  · rw [if_neg hv]
    have h0 := toNumber_of_falsy strToNum v t (by simpa using hv) ht
    subst h0
    rfl

/-- A finite remaining balance comes from a finite total. -/
theorem remainingBalance_fin (strToNum : String → JSNumber) (event : CateringEvent) (r : ℚ)
    (hr : remainingBalance strToNum event = JSNumber.fin r) :
    ∃ t, event.total_price.toNumber strToNum = JSNumber.fin t := by
  unfold remainingBalance at hr
  cases ht : event.total_price.toNumber strToNum with
  | fin t => exact ⟨t, rfl⟩
  | nan => rw [ht] at hr; simp [JSNumber.sub] at hr

/-- After `settle`, the remaining balance of an event with a finite total is `0`. -/
theorem remainingBalance_settle (strToNum : String → JSNumber) (event : CateringEvent) (t : ℚ)
    (ht : event.total_price.toNumber strToNum = JSNumber.fin t) :
    remainingBalance strToNum (settle event) = JSNumber.fin 0 := by
  have h := toNumber_or_zero strToNum event.total_price t ht
  simp only [remainingBalance, settle, ht, h, JSNumber.sub, sub_self]

/-- A value other than `NaN` is strictly equal to itself. -/
theorem strictEq_self (v : JSValue) (hv : v ≠ JSValue.num JSNumber.nan) : v.strictEq v = true := by
  cases v with
  | num n =>
    cases n with
    | fin q => simp [JSValue.strictEq]
    | nan => exact absurd rfl hv
  | _ => simp [JSValue.strictEq]

/-- The state update of `handlePayRemaining` is idempotent. -/
theorem applyPayment_idem (eventId : JSValue) (prev : List CateringEvent) :
    applyPayment eventId (applyPayment eventId prev) = applyPayment eventId prev := by
  unfold applyPayment
  rw [List.map_map]
  apply List.map_congr_left
  intro ev _
  simp only [Function.comp]
  by_cases h : ev.id.strictEq eventId = true
  · have h2 : (settle ev).id.strictEq eventId = true := h
    rw [if_pos h, if_pos h2]
    rfl
  · rw [if_neg h, if_neg h]

/-- C3: for an event of the list with `total_price - paid_amount > 0`, a confirmed
pay-remaining whose payment update succeeds sends the remaining amount once and maps the
list so that this event is replaced by one with `paid_amount = total_price` and status
`Confirmed`, whose remaining balance is `0`; every entry with another id is kept. -/
theorem handlePayRemaining_settles (strToNum : String → JSNumber) (event : CateringEvent)
    (prev : List CateringEvent) (r : ℚ)
    (hr : remainingBalance strToNum event = JSNumber.fin r) (hpos : 0 < r)
    (hid : event.id ≠ JSValue.num JSNumber.nan) (hmem : event ∈ prev) :
    (handlePayRemaining strToNum event true true prev).requests = [(event.id, JSNumber.fin r)] ∧
    (handlePayRemaining strToNum event true true prev).events =
      prev.map (fun ev =>
        if ev.id.strictEq event.id then
          { ev with paid_amount := ev.total_price, status := JSValue.str "Confirmed" }
        else ev) ∧
    { event with paid_amount := event.total_price, status := JSValue.str "Confirmed" } ∈
      (handlePayRemaining strToNum event true true prev).events ∧
    remainingBalance strToNum
      { event with paid_amount := event.total_price, status := JSValue.str "Confirmed" } =
        JSNumber.fin 0 := by
  have hle : (JSNumber.fin r).le (JSNumber.fin 0) = false := by
    simp [JSNumber.le, hpos]
  obtain ⟨t, ht⟩ := remainingBalance_fin strToNum event r hr
  have hev : (handlePayRemaining strToNum event true true prev).events =
      applyPayment event.id prev := by
    simp [handlePayRemaining, hr, hle]
  refine ⟨by simp [handlePayRemaining, hr, hle], hev, ?_, remainingBalance_settle strToNum event t ht⟩
  rw [hev]
  unfold applyPayment
  refine List.mem_map.2 ⟨event, hmem, ?_⟩
  rw [if_pos (strictEq_self event.id hid)]
  rfl

/-- Witness for `handlePayRemaining_settles`: the scenario event, alone in the list, ends
with `paid_amount` 2000 and status `Confirmed`. -/
theorem handlePayRemaining_settles_witness :
    remainingBalance noNumericStrings scenarioEvent = JSNumber.fin 1000 ∧
    (handlePayRemaining noNumericStrings scenarioEvent true true [scenarioEvent]).requests =
      [(JSValue.num (JSNumber.fin 1), JSNumber.fin 1000)] ∧
    (handlePayRemaining noNumericStrings scenarioEvent true true [scenarioEvent]).events =
      [{ scenarioEvent with
          paid_amount := JSValue.num (JSNumber.fin 2000), status := JSValue.str "Confirmed" }] ∧
    remainingBalance noNumericStrings
      { scenarioEvent with
          paid_amount := JSValue.num (JSNumber.fin 2000), status := JSValue.str "Confirmed" } =
        JSNumber.fin 0 := by
  have hr : remainingBalance noNumericStrings scenarioEvent = JSNumber.fin 1000 := by
    simp [remainingBalance, scenarioEvent, JSValue.or, JSValue.truthy, JSValue.toNumber,
      JSNumber.sub]
    norm_num
  obtain ⟨h1, h2, _, h4⟩ :=
    handlePayRemaining_settles noNumericStrings scenarioEvent [scenarioEvent] 1000 hr
      (by norm_num) (by simp [scenarioEvent]) (by simp)
  refine ⟨hr, h1, ?_, h4⟩
  rw [h2]
  simp [scenarioEvent, JSValue.strictEq]

/-- The list `handlePayRemaining` leaves is the list it was given or the updated one. -/
theorem handlePayRemaining_events (strToNum : String → JSNumber) (event : CateringEvent)
    (payNow apiOk : Bool) (prev : List CateringEvent) :
    (handlePayRemaining strToNum event payNow apiOk prev).events = prev ∨
    (handlePayRemaining strToNum event payNow apiOk prev).events =
      applyPayment event.id prev := by
  unfold handlePayRemaining
  simp only
  split
  · exact Or.inl rfl
  · split
    · exact Or.inl rfl
    · split
      · exact Or.inr rfl
      · exact Or.inl rfl

/-- C4: settling is idempotent. The record update and the state update applied twice equal
one application, and a second confirmed pay-remaining (for the event as it was, or as it is
after the first) leaves the list of the first one unchanged. -/
theorem settleRemaining_idempotent :
    (∀ ev : CateringEvent, settle (settle ev) = settle ev) ∧
    (∀ (eventId : JSValue) (prev : List CateringEvent),
      applyPayment eventId (applyPayment eventId prev) = applyPayment eventId prev) ∧
    (∀ (strToNum : String → JSNumber) (event : CateringEvent) (prev : List CateringEvent),
      (handlePayRemaining strToNum event true true
          (handlePayRemaining strToNum event true true prev).events).events =
        (handlePayRemaining strToNum event true true prev).events ∧
      (handlePayRemaining strToNum (settle event) true true
          (handlePayRemaining strToNum event true true prev).events).events =
        (handlePayRemaining strToNum event true true prev).events) := by
  refine ⟨fun ev => rfl, applyPayment_idem, ?_⟩
  intro strToNum event prev
  by_cases hle : (remainingBalance strToNum event).le (JSNumber.fin 0) = true
  · have hfirst : (handlePayRemaining strToNum event true true prev).events = prev := by
      simp [handlePayRemaining, hle]
    rw [hfirst]
    refine ⟨hfirst, ?_⟩
    have hfin : ∃ r, remainingBalance strToNum event = JSNumber.fin r := by
      cases h : remainingBalance strToNum event with
      | fin r => exact ⟨r, rfl⟩
      | nan => rw [h] at hle; simp [JSNumber.le] at hle
    obtain ⟨r, hr⟩ := hfin
    obtain ⟨t, ht⟩ := remainingBalance_fin strToNum event r hr
    have h0 := remainingBalance_settle strToNum event t ht
    simp [handlePayRemaining, h0, JSNumber.le]
  · have hfirst : (handlePayRemaining strToNum event true true prev).events =
        applyPayment event.id prev := by
      simp [handlePayRemaining, hle]
    rw [hfirst]
    constructor
    · rcases handlePayRemaining_events strToNum event true true (applyPayment event.id prev)
        with h | h
      · exact h
      · rw [h, applyPayment_idem]
    · rcases handlePayRemaining_events strToNum (settle event) true true
        (applyPayment event.id prev) with h | h
      · exact h
      · rw [h]
        exact applyPayment_idem event.id prev

/-- C5: when the remaining balance `total_price - paid_amount` is `<= 0`, pay-remaining does
nothing: no payment update is requested, no dialog is shown and the list is unchanged. -/
theorem handlePayRemaining_noop (strToNum : String → JSNumber) (event : CateringEvent)
    (payNow apiOk : Bool) (prev : List CateringEvent)
    (h : (remainingBalance strToNum event).le (JSNumber.fin 0) = true) :
    handlePayRemaining strToNum event payNow apiOk prev =
      { requests := [], alerts := [], events := prev } := by
  simp [handlePayRemaining, h]

/-- Witness for `handlePayRemaining_noop`: an event paid in full. -/
theorem handlePayRemaining_noop_witness :
    (remainingBalance noNumericStrings paidEvent).le (JSNumber.fin 0) = true ∧
    handlePayRemaining noNumericStrings paidEvent true true [scenarioEvent, paidEvent] =
      { requests := [], alerts := [], events := [scenarioEvent, paidEvent] } :=
  have h : (remainingBalance noNumericStrings paidEvent).le (JSNumber.fin 0) = true := by
    simp [remainingBalance, paidEvent, JSValue.or, JSValue.truthy, JSValue.toNumber,
      JSNumber.sub, JSNumber.le]
  ⟨h, handlePayRemaining_noop noNumericStrings paidEvent true true [scenarioEvent, paidEvent] h⟩

/-- C6, as stated, fails: for total 100 and paid 150 the remaining balance computed is
`-50`, not `max(0, 100 - 150)`. -/
theorem remainingBalance_negative :
    remainingBalance noNumericStrings overpaidEvent = JSNumber.fin (-50) ∧
    remainingBalance noNumericStrings overpaidEvent ≠ JSNumber.fin (max 0 (100 - 150)) := by
  have h : remainingBalance noNumericStrings overpaidEvent = JSNumber.fin (-50) := by
    simp [remainingBalance, overpaidEvent, JSValue.or, JSValue.truthy, JSValue.toNumber,
      JSNumber.sub]
    norm_num
  refine ⟨h, ?_⟩
  rw [h]
  norm_num

/-- C6, amended: for numeric `total_price` and `paid_amount` the remaining balance computed
is `total_price - paid_amount`, unclamped; an amount is sent for payment only when it is
positive, and then it equals `max(0, total_price - paid_amount)`. -/
theorem remainingBalance_unclamped (strToNum : String → JSNumber) (event : CateringEvent)
    (t p : ℚ) (ht : event.total_price = JSValue.num (JSNumber.fin t))
    (hp : event.paid_amount = JSValue.num (JSNumber.fin p)) :
    remainingBalance strToNum event = JSNumber.fin (t - p) ∧
    ∀ (payNow apiOk : Bool) (prev : List CateringEvent) (request : JSValue × JSNumber),
      request ∈ (handlePayRemaining strToNum event payNow apiOk prev).requests →
      0 < t - p ∧ request.2 = JSNumber.fin (max 0 (t - p)) := by
  have hr : remainingBalance strToNum event = JSNumber.fin (t - p) := by
    have h := toNumber_or_zero strToNum (JSValue.num (JSNumber.fin p)) p rfl
    unfold remainingBalance
    rw [ht, hp, h]
    rfl
  refine ⟨hr, ?_⟩
  intro payNow apiOk prev request hmem
  by_cases hpos : 0 < t - p
  · have hle : (JSNumber.fin (t - p)).le (JSNumber.fin 0) = false := by
      simp only [JSNumber.le, decide_eq_false_iff_not, not_le]
      exact hpos
    refine ⟨hpos, ?_⟩
    have hmax : max 0 (t - p) = t - p := max_eq_right (le_of_lt hpos)
    rw [hmax]
    cases payNow <;> cases apiOk <;>
      simp [handlePayRemaining, hr, hle] at hmem <;> rw [hmem]
  · have hle : (JSNumber.fin (t - p)).le (JSNumber.fin 0) = true := by
      simp only [JSNumber.le, decide_eq_true_eq]
      exact not_lt.1 hpos
    simp [handlePayRemaining, hr, hle] at hmem

/-- Witness for `remainingBalance_unclamped`: the scenario event, total 2000 and paid 1000. -/
theorem remainingBalance_unclamped_witness :
    remainingBalance noNumericStrings scenarioEvent = JSNumber.fin (2000 - 1000) ∧
    ∀ (payNow apiOk : Bool) (prev : List CateringEvent) (request : JSValue × JSNumber),
      request ∈ (handlePayRemaining noNumericStrings scenarioEvent payNow apiOk prev).requests →
      (0 : ℚ) < 2000 - 1000 ∧ request.2 = JSNumber.fin (max 0 (2000 - 1000)) :=
  remainingBalance_unclamped noNumericStrings scenarioEvent 2000 1000 rfl rfl

/-! ### The down payment -/

/-- Rounding half up to cents fixes exactly the amounts that are whole numbers of cents. -/
theorem roundHalfUpCents_eq_self_iff (q : ℚ) : roundHalfUpCents q = q ↔ ∃ n : ℤ, q * 100 = n := by
  unfold roundHalfUpCents
  constructor
  · intro h
    generalize ⌊q * 100 + 1 / 2⌋ = n at h
    refine ⟨n, ?_⟩
    rw [← h]
    field_simp
  · rintro ⟨n, hn⟩
    have hfloor : ⌊q * 100 + 1 / 2⌋ = n := by
      rw [hn, Int.floor_eq_iff]
      constructor <;> norm_num
    rw [hfloor, ← hn]
    field_simp

/-- C7, as stated, fails: for total 333.33 the down payment computed is 166.665, while
`total * 0.5` rounded half-up to two decimals is 166.67. -/
theorem downPayment_not_rounded :
    specDownPayment (33333 / 100) = 16667 / 100 ∧
    downPayment (JSNumber.fin (33333 / 100)) ≠ JSNumber.fin (specDownPayment (33333 / 100)) := by
  have hspec : specDownPayment (33333 / 100) = 16667 / 100 := by
    unfold specDownPayment roundHalfUpCents
    have hfloor : ⌊(33333 / 100 : ℚ) * (1 / 2) * 100 + 1 / 2⌋ = 16667 := by
      rw [Int.floor_eq_iff]
      constructor <;> norm_num
    rw [hfloor]
    norm_num
  refine ⟨hspec, ?_⟩
  rw [hspec]
  simp only [downPayment, JSNumber.mul, ne_eq, JSNumber.fin.injEq]
  norm_num

/-- C7, amended: the down payment is `total * 0.5` with no rounding (`NaN` for a `NaN`
total): 500 for total 1000, 166.665 for total 333.33; it equals the value rounded half-up to
two decimals exactly when `total * 0.5` is a whole number of cents. -/
theorem downPayment_half :
    (∀ t : ℚ, downPayment (JSNumber.fin t) = JSNumber.fin (t * (1 / 2))) ∧
    downPayment JSNumber.nan = JSNumber.nan ∧
    downPayment (JSNumber.fin 1000) = JSNumber.fin 500 ∧
    downPayment (JSNumber.fin (33333 / 100)) = JSNumber.fin (33333 / 200) ∧
    (∀ t : ℚ, downPayment (JSNumber.fin t) = JSNumber.fin (specDownPayment t) ↔
      ∃ n : ℤ, t * (1 / 2) * 100 = n) := by
  refine ⟨fun t => rfl, rfl, ?_, ?_, ?_⟩
  · simp only [downPayment, JSNumber.mul, JSNumber.fin.injEq]
    norm_num
  · simp only [downPayment, JSNumber.mul, JSNumber.fin.injEq]
    norm_num
  · intro t
    simp only [downPayment, JSNumber.mul, JSNumber.fin.injEq, specDownPayment]
    rw [eq_comm]
    exact roundHalfUpCents_eq_self_iff (t * (1 / 2))

/-! ### Totals -/

/-- The numeric value of `v || 0` for a field that is a finite number or missing. -/
theorem toNumber_or_zero_of_numberOrMissing (strToNum : String → JSNumber) (v : JSValue)
    (hv : v.isNumberOrMissing = true) :
    (v.or (JSValue.num (JSNumber.fin 0))).toNumber strToNum = JSNumber.fin v.numberOrZero := by
  cases v with
  | undefined => rfl
  | null => rfl
  | bool b => simp [JSValue.isNumberOrMissing] at hv
  | num n =>
    cases n with
    | fin q => exact toNumber_or_zero strToNum (JSValue.num (JSNumber.fin q)) q rfl
    | nan => simp [JSValue.isNumberOrMissing] at hv
  | str s => simp [JSValue.isNumberOrMissing] at hv
  | host n => simp [JSValue.isNumberOrMissing] at hv

/-- The `reduce` of `renderOrderItem` over objects with numeric or missing price and
quantity adds the specification's total to the accumulator. -/
theorem reduce_addItemAmount_obj (strToNum : String → JSNumber) (recs : List ItemRecord)
    (h : ∀ r ∈ recs, r.price.isNumberOrMissing = true ∧ r.quantity.isNumberOrMissing = true)
    (a : ℚ) :
    reduce (addItemAmount strToNum) (recs.map JSItem.obj) (JSNumber.fin a) =
      Except.ok (JSNumber.fin (a + specTotal recs)) := by
  induction recs generalizing a with
  | nil => simp [reduce, specTotal]
  | cons r rest ih =>
    have hr := h r (List.mem_cons_self r rest)
    have hrest : ∀ x ∈ rest, x.price.isNumberOrMissing = true ∧ x.quantity.isNumberOrMissing = true :=
      fun x hx => h x (List.mem_cons_of_mem r hx)
    have hstep : addItemAmount strToNum (JSNumber.fin a) (JSItem.obj r) =
        Except.ok (JSNumber.fin (a + r.price.numberOrZero * r.quantity.numberOrZero)) := by
      simp only [addItemAmount, JSItem.get,
        toNumber_or_zero_of_numberOrMissing strToNum r.price hr.1,
        toNumber_or_zero_of_numberOrMissing strToNum r.quantity hr.2, JSNumber.mul, JSNumber.add]
    simp only [List.map_cons, reduce, hstep]
    rw [ih hrest]
    simp [specTotal, add_assoc]

/-- The `reduce` of `renderOrderItem` returns a number when no entry is `null` or `undefined`. -/
theorem reduce_addItemAmount_ok (strToNum : String → JSNumber) (items : List JSItem)
    (h : ∀ it ∈ items, it ≠ JSItem.prim JSValue.null ∧ it ≠ JSItem.prim JSValue.undefined)
    (acc : JSNumber) : ∃ t, reduce (addItemAmount strToNum) items acc = Except.ok t := by
  induction items generalizing acc with
  | nil => exact ⟨acc, rfl⟩
  | cons it rest ih =>
    have hit := h it (List.mem_cons_self it rest)
    have hrest : ∀ x ∈ rest, x ≠ JSItem.prim JSValue.null ∧ x ≠ JSItem.prim JSValue.undefined :=
      fun x hx => h x (List.mem_cons_of_mem it hx)
    have hstep : ∃ t, addItemAmount strToNum acc it = Except.ok t := by
      cases it with
      | obj o => exact ⟨_, rfl⟩
      | prim v =>
        cases v with
        | undefined => exact absurd rfl hit.2
        | null => exact absurd rfl hit.1
        | bool b => exact ⟨_, rfl⟩
        | num n => exact ⟨_, rfl⟩
        | str s => exact ⟨_, rfl⟩
        | host n => exact ⟨_, rfl⟩
    obtain ⟨t, ht⟩ := hstep
    simp only [reduce, ht]
    exact ih hrest t

/-- C8, as stated, fails: on an order whose `items` array holds `null` the computation of
the total throws. -/
theorem orderTotal_null_item_fails :
    orderTotal noNumericStrings nullItemOrder =
      Except.error (JSError.typeError "Cannot read property of null") ∧
    ¬ ∃ t, orderTotal noNumericStrings nullItemOrder = Except.ok t := by
  have h : orderTotal noNumericStrings nullItemOrder =
      Except.error (JSError.typeError "Cannot read property of null") := rfl
  refine ⟨h, ?_⟩
  rintro ⟨t, ht⟩
  rw [h] at ht
  cases ht

/-- C8, amended: the order total is `0` when `items` is absent or not a list; it is computed
without failure whenever no entry of the list is `null` or `undefined`; and over items whose
price and quantity are numbers or missing it is the sum of `price * quantity`, a missing
price or quantity counting as `0`. -/
theorem orderTotal_spec (strToNum : String → JSNumber) (order : Order) :
    (order.items = none → orderTotal strToNum order = Except.ok (JSNumber.fin 0)) ∧
    (∀ items : List JSItem, order.items = some items →
      (∀ it ∈ items, it ≠ JSItem.prim JSValue.null ∧ it ≠ JSItem.prim JSValue.undefined) →
      ∃ t, orderTotal strToNum order = Except.ok t) ∧
    (∀ recs : List ItemRecord, order.items = some (recs.map JSItem.obj) →
      (∀ r ∈ recs, r.price.isNumberOrMissing = true ∧ r.quantity.isNumberOrMissing = true) →
      orderTotal strToNum order = Except.ok (JSNumber.fin (specTotal recs))) := by
  refine ⟨?_, ?_, ?_⟩
  · intro h
    simp [orderTotal, h, reduce]
  · intro items h hok
    simp only [orderTotal, h]
    exact reduce_addItemAmount_ok strToNum items hok (JSNumber.fin 0)
  · intro recs h htyped
    simp only [orderTotal, h]
    rw [reduce_addItemAmount_obj strToNum recs htyped 0, zero_add]

/-- Witness for `orderTotal_spec`: an order without `items` has total 0, and the order of 2
at 150 and 3 at 20 has total 360. -/
theorem orderTotal_spec_witness :
    orderTotal noNumericStrings { status := JSValue.str "pending" } =
      Except.ok (JSNumber.fin 0) ∧
    (∃ t, orderTotal noNumericStrings twoItemOrder = Except.ok t) ∧
    orderTotal noNumericStrings twoItemOrder = Except.ok (JSNumber.fin 360) := by
  refine ⟨(orderTotal_spec noNumericStrings { status := JSValue.str "pending" }).1 rfl,
    (orderTotal_spec noNumericStrings twoItemOrder).2.1 _ rfl (by simp), ?_⟩
  have h := (orderTotal_spec noNumericStrings twoItemOrder).2.2
    [{ price := JSValue.num (JSNumber.fin 150), quantity := JSValue.num (JSNumber.fin 2) },
     { price := JSValue.num (JSNumber.fin 20), quantity := JSValue.num (JSNumber.fin 3) }]
    rfl (by simp [JSValue.isNumberOrMissing])
  rw [h]
  simp only [specTotal, List.map, JSValue.numberOrZero, List.sum_cons, List.sum_nil]
  norm_num

/-- The `reduce` of the submit handlers over line items with numeric price and quantity
adds the sum of `unit_price * quantity` to the accumulator. -/
theorem foldl_totalPrice_numeric (strToNum : String → JSNumber) (data : List ItemRecord)
    (h : ∀ r ∈ data, r.unit_price.isFinite = true ∧ r.quantity.isFinite = true) (a : ℚ) :
    data.foldl
        (fun sum i =>
          sum.add ((i.unit_price.toNumber strToNum).mul (i.quantity.toNumber strToNum)))
        (JSNumber.fin a) =
      JSNumber.fin (a + specLineTotal data) := by
  induction data generalizing a with
  | nil => simp [specLineTotal]
  | cons r rest ih =>
    have hr := h r (List.mem_cons_self r rest)
    have hrest : ∀ x ∈ rest, x.unit_price.isFinite = true ∧ x.quantity.isFinite = true :=
      fun x hx => h x (List.mem_cons_of_mem r hx)
    have hu : r.unit_price.toNumber strToNum = JSNumber.fin r.unit_price.numberOrZero := by
      cases hv : r.unit_price with
      | num n =>
        cases n with
        | fin q => rfl
        | nan => rw [hv] at hr; simp [JSValue.isFinite] at hr
      | _ => rw [hv] at hr; simp [JSValue.isFinite] at hr
    have hq : r.quantity.toNumber strToNum = JSNumber.fin r.quantity.numberOrZero := by
      cases hv : r.quantity with
      | num n =>
        cases n with
        | fin q => rfl
        | nan => rw [hv] at hr; simp [JSValue.isFinite] at hr
      | _ => rw [hv] at hr; simp [JSValue.isFinite] at hr
    have hstep : (JSNumber.fin a).add
        ((JSNumber.fin r.unit_price.numberOrZero).mul (JSNumber.fin r.quantity.numberOrZero)) =
        JSNumber.fin (a + r.unit_price.numberOrZero * r.quantity.numberOrZero) := rfl
    simp only [List.foldl_cons]
    rw [hu, hq, hstep, ih hrest]
    simp [specLineTotal, add_assoc]

/-- The total of the submit handlers over line items with numeric price and quantity. -/
theorem totalPrice_numeric (strToNum : String → JSNumber) (data : List ItemRecord)
    (h : ∀ r ∈ data, r.unit_price.isFinite = true ∧ r.quantity.isFinite = true) :
    totalPrice strToNum data = JSNumber.fin (specLineTotal data) := by
  unfold totalPrice
  rw [foldl_totalPrice_numeric strToNum data h 0, zero_add]

/-- A sum of products of non-negative factors is non-negative and equals its clamped form. -/
theorem sum_mul_nonneg_clamped {α : Type} (f g : α → ℚ) (l : List α)
    (h : ∀ x ∈ l, 0 ≤ f x ∧ 0 ≤ g x) :
    0 ≤ (l.map (fun x => f x * g x)).sum ∧
    (l.map (fun x => f x * g x)).sum = (l.map (fun x => max (f x) 0 * max (g x) 0)).sum := by
  induction l with
  | nil => simp
  | cons x rest ih =>
    have hx := h x (List.mem_cons_self x rest)
    obtain ⟨ih1, ih2⟩ := ih (fun y hy => h y (List.mem_cons_of_mem x hy))
    simp only [List.map_cons, List.sum_cons]
    refine ⟨add_nonneg (mul_nonneg hx.1 hx.2) ih1, ?_⟩
    rw [ih2, max_eq_left hx.1, max_eq_left hx.2]

/-- C9, as stated, fails: for one item of price -5 and quantity 1 the total is -5, which is
negative and differs from the clamped sum `max(-5, 0) * max(1, 0) = 0`. -/
theorem orderTotal_negative :
    orderTotal noNumericStrings negativePriceOrder = Except.ok (JSNumber.fin (-5)) ∧
    specClampedTotal negativePriceItems = 0 ∧
    ¬ ∃ t : ℚ, orderTotal noNumericStrings negativePriceOrder = Except.ok (JSNumber.fin t) ∧
      0 ≤ t ∧ t = specClampedTotal negativePriceItems := by
  have h : orderTotal noNumericStrings negativePriceOrder = Except.ok (JSNumber.fin (-5)) := by
    have h0 : orderTotal noNumericStrings negativePriceOrder =
        Except.ok (JSNumber.fin (0 + specTotal negativePriceItems)) :=
      reduce_addItemAmount_obj noNumericStrings negativePriceItems
        (by simp [negativePriceItems, JSValue.isNumberOrMissing]) 0
    rw [h0]
    simp only [specTotal, negativePriceItems, List.map, JSValue.numberOrZero, List.sum_cons,
      List.sum_nil]
    norm_num
  refine ⟨h, ?_, ?_⟩
  · simp only [specClampedTotal, negativePriceItems, List.map, JSValue.numberOrZero,
      List.sum_cons, List.sum_nil]
    norm_num
  · rintro ⟨t, ht, hpos, _⟩
    rw [h] at ht
    simp only [Except.ok.injEq, JSNumber.fin.injEq] at ht
    rw [← ht] at hpos
    norm_num at hpos

/-- C9, amended: the totals are not clamped. Over items with numeric (or missing) price and
quantity the order total is the plain sum of `price * quantity`, and over line items with
numeric unit price and quantity the submission total is the plain sum of
`unit_price * quantity`; when every price and quantity is non-negative, the total is
non-negative and equals the sum of `max(price, 0) * max(quantity, 0)`. -/
theorem total_unclamped (strToNum : String → JSNumber) :
    (∀ (order : Order) (recs : List ItemRecord), order.items = some (recs.map JSItem.obj) →
      (∀ r ∈ recs, r.price.isNumberOrMissing = true ∧ r.quantity.isNumberOrMissing = true) →
      orderTotal strToNum order = Except.ok (JSNumber.fin (specTotal recs)) ∧
      ((∀ r ∈ recs, 0 ≤ r.price.numberOrZero ∧ 0 ≤ r.quantity.numberOrZero) →
        0 ≤ specTotal recs ∧ specTotal recs = specClampedTotal recs)) ∧
    (∀ data : List ItemRecord,
      (∀ r ∈ data, r.unit_price.isFinite = true ∧ r.quantity.isFinite = true) →
      totalPrice strToNum data = JSNumber.fin (specLineTotal data) ∧
      ((∀ r ∈ data, 0 ≤ r.unit_price.numberOrZero ∧ 0 ≤ r.quantity.numberOrZero) →
        0 ≤ specLineTotal data ∧ specLineTotal data = specClampedLineTotal data)) := by
  constructor
  · intro order recs hitems htyped
    refine ⟨?_, fun hpos => ?_⟩
    · simp only [orderTotal, hitems]
      rw [reduce_addItemAmount_obj strToNum recs htyped 0, zero_add]
    · exact sum_mul_nonneg_clamped (fun r : ItemRecord => r.price.numberOrZero)
        (fun r => r.quantity.numberOrZero) recs hpos
  · intro data htyped
    refine ⟨totalPrice_numeric strToNum data htyped, fun hpos => ?_⟩
    exact sum_mul_nonneg_clamped (fun r : ItemRecord => r.unit_price.numberOrZero)
      (fun r => r.quantity.numberOrZero) data hpos

/-- Witness for `total_unclamped`: the order of 2 at 150 and 3 at 20, and the line items of
2 at 1000. -/
theorem total_unclamped_witness :
    (orderTotal noNumericStrings twoItemOrder = Except.ok (JSNumber.fin 360) ∧
      specClampedTotal
        [{ price := JSValue.num (JSNumber.fin 150), quantity := JSValue.num (JSNumber.fin 2) },
         { price := JSValue.num (JSNumber.fin 20), quantity := JSValue.num (JSNumber.fin 3) }] =
        360) ∧
    (totalPrice noNumericStrings scenarioLineItems = JSNumber.fin 2000 ∧
      specClampedLineTotal scenarioLineItems = 2000) := by
  have h1 := (total_unclamped noNumericStrings).1 twoItemOrder
    [{ price := JSValue.num (JSNumber.fin 150), quantity := JSValue.num (JSNumber.fin 2) },
     { price := JSValue.num (JSNumber.fin 20), quantity := JSValue.num (JSNumber.fin 3) }]
    rfl (by simp [JSValue.isNumberOrMissing])
  have h2 := (total_unclamped noNumericStrings).2 scenarioLineItems
    (by simp [scenarioLineItems, JSValue.isFinite])
  have e1 : specTotal
      [{ price := JSValue.num (JSNumber.fin 150), quantity := JSValue.num (JSNumber.fin 2) },
       { price := JSValue.num (JSNumber.fin 20), quantity := JSValue.num (JSNumber.fin 3) }] =
      360 := by
    simp only [specTotal, List.map, JSValue.numberOrZero, List.sum_cons, List.sum_nil]
    norm_num
  have e2 : specLineTotal scenarioLineItems = 2000 := by
    simp only [specLineTotal, scenarioLineItems, List.map, JSValue.numberOrZero, List.sum_cons,
      List.sum_nil]
    norm_num
  have p1 := h1.2 (by simp [JSValue.numberOrZero])
  have p2 := h2.2 (by simp [scenarioLineItems, JSValue.numberOrZero])
  refine ⟨⟨?_, ?_⟩, ?_, ?_⟩
  · rw [h1.1, e1]
  · rw [← p1.2, e1]
  · rw [h2.1, e2]
  · rw [← p2.2, e2]

/-! ### Scheduling an event -/

/-- A form without missing required field passes the first check of `handleScheduleSubmit`. -/
theorem filter_isMissing_length (fields : List JSValue)
    (h : ∀ v ∈ fields, isMissing v = false) : (fields.filter isMissing).length = 0 := by
  rw [List.length_eq_zero, List.filter_eq_nil_iff]
  intro v hv
  rw [h v hv]
  simp

/-- C10: a schedule submission that passes the checks and is confirmed with "Pay Now"
appends one event whose `total_price` is the total of its line items, whose `paid_amount` is
`0.5 * total_price` and whose status is `Pending Payment`; the payload the modal sends for
creation carries the same `total_price` and `paid_amount`; and over line items with numeric
unit price and quantity that total is the sum of `unit_price * quantity`. -/
theorem handleScheduleSubmit_down_payment (strToNum : String → JSNumber) (form : ScheduleForm)
    (menuItems : List MenuItem) (hsel : form.selectedItems ≠ []) :
    (∀ (now : JSValue) (st : CateringState) (data : List ItemRecord),
      (∀ v ∈ requiredFields form, isMissing v = false) →
      mapItems (lineItem menuItems) form.selectedItems = Except.ok data →
      ∃ ev : CateringEvent,
        handleScheduleSubmit strToNum form menuItems now true st =
          Except.ok
            { alerts :=
                [Alert.downPaymentRequired ((totalPrice strToNum data).mul (JSNumber.fin (1 / 2))),
                  Alert.success "Event scheduled successfully!"]
              state := { cateringEvents := st.cateringEvents ++ [ev], modalVisible := false } } ∧
        ev.items = some (data.map JSItem.obj) ∧
        ev.total_price = JSValue.num (totalPrice strToNum data) ∧
        ev.paid_amount = JSValue.num ((totalPrice strToNum data).mul (JSNumber.fin (1 / 2))) ∧
        ev.status = JSValue.str "Pending Payment") ∧
    (∀ (response : CreateResponse) (st : ModalState) (data : List ItemRecord),
      st.scheduleForm = form →
      (∀ v ∈ requiredFieldsModal form, isMissing v = false) →
      mapItems (lineItemModal menuItems) form.selectedItems = Except.ok data →
      ∃ (result : ModalResult) (payload : CateringPayload),
        handleSubmit strToNum menuItems true response st = Except.ok result ∧
        result.requests = [payload] ∧
        payload.items = data ∧
        payload.total_price = JSValue.num (totalPrice strToNum data) ∧
        payload.paid_amount =
          JSValue.num ((totalPrice strToNum data).mul (JSNumber.fin (1 / 2)))) ∧
    (∀ data : List ItemRecord,
      (∀ r ∈ data, r.unit_price.isFinite = true ∧ r.quantity.isFinite = true) →
      totalPrice strToNum data = JSNumber.fin (specLineTotal data) ∧
      (totalPrice strToNum data).mul (JSNumber.fin (1 / 2)) =
        JSNumber.fin (1 / 2 * specLineTotal data)) := by
  have hlen : form.selectedItems.length ≠ 0 := by
    intro h
    exact hsel (List.length_eq_zero.1 h)
  refine ⟨?_, ?_, ?_⟩
  · intro now st data hreq hitems
    refine ⟨newEvent strToNum form data now, ?_, rfl, rfl, rfl, rfl⟩
    simp [handleScheduleSubmit, filter_isMissing_length _ hreq, hlen, hitems, downPayment]
  · intro response st data hform hreq hitems
    subst hform
    cases response with
    | resolved success d message =>
      by_cases hs : success.truthy = true
      · have h : handleSubmit strToNum menuItems true
            (CreateResponse.resolved success d message) st =
            Except.ok
              { alerts := [Alert.downPaymentRequired (downPayment (totalPrice strToNum data)),
                  Alert.success "Event scheduled successfully!"]
                serverMessage := none
                requests := [buildPayload strToNum st.scheduleForm data]
                state :=
                  { cateringEvents := st.cateringEvents ++ [d]
                    scheduleForm := resetForm st.scheduleForm
                    loading := false
                    modalVisible := false } } := by
          simp [handleSubmit, filter_isMissing_length _ hreq, hlen, hitems, hs]
        exact ⟨_, _, h, rfl, rfl, rfl, rfl⟩
      · have h : handleSubmit strToNum menuItems true
            (CreateResponse.resolved success d message) st =
            Except.ok
              { alerts := [Alert.downPaymentRequired (downPayment (totalPrice strToNum data))]
                serverMessage := some message
                requests := [buildPayload strToNum st.scheduleForm data]
                state := { st with loading := false } } := by
          simp [handleSubmit, filter_isMissing_length _ hreq, hlen, hitems, hs]
        exact ⟨_, _, h, rfl, rfl, rfl, rfl⟩
    | rejected =>
      have h : handleSubmit strToNum menuItems true CreateResponse.rejected st =
          Except.ok
            { alerts := [Alert.downPaymentRequired (downPayment (totalPrice strToNum data)),
                Alert.error "Something went wrong."]
              serverMessage := none
              requests := [buildPayload strToNum st.scheduleForm data]
              state := { st with loading := false } } := by
        simp [handleSubmit, filter_isMissing_length _ hreq, hlen, hitems]
      exact ⟨_, _, h, rfl, rfl, rfl, rfl⟩
  · intro data htyped
    have h := totalPrice_numeric strToNum data htyped
    refine ⟨h, ?_⟩
    rw [h]
    simp only [JSNumber.mul, JSNumber.fin.injEq]
    ring

/-- Witness for `handleScheduleSubmit_down_payment`: for the menu entry of price 1000 taken
twice the total is 2000; the event created has `paid_amount` 1000, and so has the payload
the modal sends. -/
theorem handleScheduleSubmit_down_payment_witness :
    (∃ ev : CateringEvent,
      handleScheduleSubmit noNumericStrings scenarioForm scenarioMenu
          (JSValue.num (JSNumber.fin 1700000000000)) true
          { cateringEvents := [], modalVisible := true } =
        Except.ok
          { alerts := [Alert.downPaymentRequired (JSNumber.fin 1000),
              Alert.success "Event scheduled successfully!"]
            state := { cateringEvents := [ev], modalVisible := false } } ∧
      ev.total_price = JSValue.num (JSNumber.fin 2000) ∧
      ev.paid_amount = JSValue.num (JSNumber.fin 1000) ∧
      ev.status = JSValue.str "Pending Payment") ∧
    (∃ (result : ModalResult) (payload : CateringPayload),
      handleSubmit noNumericStrings scenarioMenu true CreateResponse.rejected
          scenarioModalState = Except.ok result ∧
      result.requests = [payload] ∧
      payload.total_price = JSValue.num (JSNumber.fin 2000) ∧
      payload.paid_amount = JSValue.num (JSNumber.fin 1000)) := by
  have hthm := handleScheduleSubmit_down_payment noNumericStrings scenarioForm scenarioMenu
    (by simp [scenarioForm])
  have hitems : mapItems (lineItem scenarioMenu) scenarioForm.selectedItems =
      Except.ok scenarioLineItems := by
    simp [mapItems, lineItem, scenarioMenu, scenarioForm, scenarioLineItems, JSValue.strictEq,
      JSValue.or, JSValue.truthy]
  have hitemsModal : mapItems (lineItemModal scenarioMenu) scenarioForm.selectedItems =
      Except.ok scenarioLineItems := by
    simp [mapItems, lineItemModal, scenarioMenu, scenarioForm, scenarioLineItems,
      JSValue.strictEq, JSValue.or, JSValue.truthy]
  obtain ⟨ev, h1, _, h3, h4, h5⟩ := hthm.1 (JSValue.num (JSNumber.fin 1700000000000))
    { cateringEvents := [], modalVisible := true } scenarioLineItems (by decide) hitems
  obtain ⟨result, payload, m1, m2, _, m4, m5⟩ := hthm.2.1 CreateResponse.rejected
    scenarioModalState scenarioLineItems rfl (by decide) hitemsModal
  obtain ⟨t1, t2⟩ := hthm.2.2 scenarioLineItems (by simp [scenarioLineItems, JSValue.isFinite])
  have e : specLineTotal scenarioLineItems = 2000 := by
    simp only [specLineTotal, scenarioLineItems, List.map, JSValue.numberOrZero, List.sum_cons,
      List.sum_nil]
    norm_num
  have e2 : (totalPrice noNumericStrings scenarioLineItems).mul (JSNumber.fin (1 / 2)) =
      JSNumber.fin 1000 := by
    rw [t2, e]
    norm_num
  have e1 : totalPrice noNumericStrings scenarioLineItems = JSNumber.fin 2000 := by
    rw [t1, e]
  rw [e2] at h1 h4 m5
  rw [e1] at h3 m4
  exact ⟨⟨ev, by simpa using h1, h3, h4, h5⟩, ⟨result, payload, m1, m2, m4, m5⟩⟩

/-! ### The invariants of an event -/

/-- A submission that passes the checks and is confirmed appends the event `newEvent`. -/
theorem handleScheduleSubmit_ok (strToNum : String → JSNumber) (form : ScheduleForm)
    (menuItems : List MenuItem) (now : JSValue) (st : CateringState) (data : List ItemRecord)
    (hreq : ∀ v ∈ requiredFields form, isMissing v = false) (hsel : form.selectedItems ≠ [])
    (hitems : mapItems (lineItem menuItems) form.selectedItems = Except.ok data) :
    handleScheduleSubmit strToNum form menuItems now true st =
      Except.ok
        { alerts := [Alert.downPaymentRequired (downPayment (totalPrice strToNum data)),
            Alert.success "Event scheduled successfully!"]
          state :=
            { cateringEvents := st.cateringEvents ++ [newEvent strToNum form data now]
              modalVisible := false } } := by
  have hlen : form.selectedItems.length ≠ 0 := by
    intro h
    exact hsel (List.length_eq_zero.1 h)
  simp [handleScheduleSubmit, filter_isMissing_length _ hreq, hlen, hitems]

/-- The invariant `0 <= paid_amount <= total_price` on an event whose two amounts are numbers. -/
theorem paidWithinTotal_num (strToNum : String → JSNumber) (ev : CateringEvent) (p t : ℚ)
    (hp : ev.paid_amount = JSValue.num (JSNumber.fin p))
    (ht : ev.total_price = JSValue.num (JSNumber.fin t)) :
    paidWithinTotal strToNum ev = true ↔ 0 ≤ p ∧ p ≤ t := by
  simp [paidWithinTotal, hp, ht, JSValue.toNumber, JSNumber.le]

/-- The update of `handlePayRemaining` keeps `0 <= paid_amount <= total_price`. -/
theorem paidWithinTotal_settle (strToNum : String → JSNumber) (ev : CateringEvent)
    (h : paidWithinTotal strToNum ev = true) : paidWithinTotal strToNum (settle ev) = true := by
  simp only [paidWithinTotal, Bool.and_eq_true] at h
  obtain ⟨h0, h1⟩ := h
  cases hp : ev.paid_amount.toNumber strToNum with
  | nan => rw [hp] at h0; simp [JSNumber.le] at h0
  | fin p =>
    cases ht : ev.total_price.toNumber strToNum with
    | nan => rw [hp, ht] at h1; simp [JSNumber.le] at h1
    | fin t =>
      rw [hp] at h0 h1
      rw [ht] at h1
      simp only [JSNumber.le, decide_eq_true_eq] at h0 h1
      have h0t : (0 : ℚ) ≤ t := le_trans h0 h1
      simp only [paidWithinTotal, settle, ht, JSNumber.le, Bool.and_eq_true, decide_eq_true_eq]
      exact ⟨h0t, le_refl t⟩

/-- The state update of `handlePayRemaining`, entry by entry. -/
theorem applyPayment_forall₂ (R : CateringEvent → CateringEvent → Prop)
    (hrefl : ∀ ev, R ev ev) (hsettle : ∀ ev, R ev (settle ev)) (eventId : JSValue)
    (prev : List CateringEvent) : List.Forall₂ R prev (applyPayment eventId prev) := by
  unfold applyPayment
  induction prev with
  | nil => exact List.Forall₂.nil
  | cons ev rest ih =>
    refine List.Forall₂.cons ?_ ih
    show R ev (if ev.id.strictEq eventId = true then settle ev else ev)
    by_cases h : ev.id.strictEq eventId = true
    · rw [if_pos h]
      exact hsettle ev
    · rw [if_neg h]
      exact hrefl ev

/-- A relation that holds from an event to itself holds entry by entry on a list. -/
theorem forall₂_self (R : CateringEvent → CateringEvent → Prop) (hrefl : ∀ ev, R ev ev)
    (l : List CateringEvent) : List.Forall₂ R l l := by
  induction l with
  | nil => exact List.Forall₂.nil
  | cons ev rest ih => exact List.Forall₂.cons (hrefl ev) ih

/-- C11, as stated, fails: the submission of a menu entry of price -100 creates an event
with `total_price` -100 and `paid_amount` -50, for which `0 <= paid_amount <= total_price`
is false. -/
theorem handleScheduleSubmit_negative_total :
    ∃ ev : CateringEvent,
      handleScheduleSubmit noNumericStrings scenarioForm negativePriceMenu
          (JSValue.num (JSNumber.fin 1700000000000)) true
          { cateringEvents := [], modalVisible := true } =
        Except.ok
          { alerts := [Alert.downPaymentRequired (JSNumber.fin (-50)),
              Alert.success "Event scheduled successfully!"]
            state := { cateringEvents := [ev], modalVisible := false } } ∧
      ev.total_price = JSValue.num (JSNumber.fin (-100)) ∧
      ev.paid_amount = JSValue.num (JSNumber.fin (-50)) ∧
      paidWithinTotal noNumericStrings ev = false := by
  have hitems : mapItems (lineItem negativePriceMenu) scenarioForm.selectedItems =
      Except.ok negativePriceLineItems := by
    simp [mapItems, lineItem, negativePriceMenu, negativePriceLineItems, scenarioForm,
      JSValue.strictEq, JSValue.or, JSValue.truthy]
  have h := handleScheduleSubmit_ok noNumericStrings scenarioForm negativePriceMenu
    (JSValue.num (JSNumber.fin 1700000000000)) { cateringEvents := [], modalVisible := true }
    negativePriceLineItems (by decide) (by simp [scenarioForm]) hitems
  have htotal : totalPrice noNumericStrings negativePriceLineItems = JSNumber.fin (-100) := by
    simp [totalPrice, negativePriceLineItems, JSValue.toNumber, JSNumber.mul, JSNumber.add]
  have hdown : downPayment (JSNumber.fin (-100)) = JSNumber.fin (-50) := by
    simp only [downPayment, JSNumber.mul, JSNumber.fin.injEq]
    norm_num
  refine ⟨newEvent noNumericStrings scenarioForm negativePriceLineItems
    (JSValue.num (JSNumber.fin 1700000000000)), ?_, ?_, ?_, ?_⟩
  · rw [h, htotal, hdown]
    simp
  · simp only [newEvent, htotal]
  · simp only [newEvent, htotal, hdown]
  · rw [Bool.eq_false_iff, Ne, paidWithinTotal_num noNumericStrings _ (-50) (-100)
      (by simp only [newEvent, htotal, hdown]) (by simp only [newEvent, htotal])]
    norm_num

/-- C11, amended: an event produced by a schedule submission satisfies
`0 <= paid_amount <= total_price` when its total is a non-negative number, as it is when
every line item has a non-negative numeric unit price and quantity; and pay-remaining
preserves the invariant, entry by entry of the list. -/
theorem paidWithinTotal_invariant (strToNum : String → JSNumber) :
    (∀ (form : ScheduleForm) (data : List ItemRecord) (now : JSValue) (total : ℚ),
      totalPrice strToNum data = JSNumber.fin total → 0 ≤ total →
      paidWithinTotal strToNum (newEvent strToNum form data now) = true) ∧
    (∀ data : List ItemRecord,
      (∀ r ∈ data, r.unit_price.isFinite = true ∧ r.quantity.isFinite = true) →
      (∀ r ∈ data, 0 ≤ r.unit_price.numberOrZero ∧ 0 ≤ r.quantity.numberOrZero) →
      ∃ total : ℚ, totalPrice strToNum data = JSNumber.fin total ∧ 0 ≤ total) ∧
    (∀ ev : CateringEvent, paidWithinTotal strToNum ev = true →
      paidWithinTotal strToNum (settle ev) = true) ∧
    (∀ (event : CateringEvent) (payNow apiOk : Bool) (prev : List CateringEvent),
      List.Forall₂
        (fun before after =>
          paidWithinTotal strToNum before = true → paidWithinTotal strToNum after = true)
        prev (handlePayRemaining strToNum event payNow apiOk prev).events) := by
  refine ⟨?_, ?_, paidWithinTotal_settle strToNum, ?_⟩
  · intro form data now total htotal hpos
    have hdown : downPayment (JSNumber.fin total) = JSNumber.fin (total * (1 / 2)) := rfl
    rw [paidWithinTotal_num strToNum _ (total * (1 / 2)) total
      (by simp only [newEvent, htotal, hdown]) (by simp only [newEvent, htotal])]
    constructor <;> linarith
  · intro data htyped hpos
    refine ⟨specLineTotal data, totalPrice_numeric strToNum data htyped, ?_⟩
    exact (sum_mul_nonneg_clamped (fun r : ItemRecord => r.unit_price.numberOrZero)
      (fun r => r.quantity.numberOrZero) data hpos).1
  · intro event payNow apiOk prev
    rcases handlePayRemaining_events strToNum event payNow apiOk prev with h | h
    · rw [h]
      exact forall₂_self _ (fun ev h => h) prev
    · rw [h]
      exact applyPayment_forall₂ _ (fun ev h => h) (paidWithinTotal_settle strToNum) event.id prev

/-- Witness for `paidWithinTotal_invariant`: the event created from the line items of 2 at
1000 has total 2000 and paid 1000, and after settlement paid 2000. -/
theorem paidWithinTotal_invariant_witness :
    paidWithinTotal noNumericStrings
      (newEvent noNumericStrings scenarioForm scenarioLineItems
        (JSValue.num (JSNumber.fin 1700000000000))) = true ∧
    (∃ total : ℚ, totalPrice noNumericStrings scenarioLineItems = JSNumber.fin total ∧
      0 ≤ total) ∧
    paidWithinTotal noNumericStrings (settle scenarioEvent) = true := by
  have h := paidWithinTotal_invariant noNumericStrings
  have htotal := h.2.1 scenarioLineItems (by simp [scenarioLineItems, JSValue.isFinite])
    (by simp [scenarioLineItems, JSValue.numberOrZero])
  obtain ⟨total, ht, hpos⟩ := htotal
  refine ⟨h.1 scenarioForm scenarioLineItems _ total ht hpos, ⟨total, ht, hpos⟩, ?_⟩
  refine h.2.2.1 scenarioEvent ?_
  rw [paidWithinTotal_num noNumericStrings scenarioEvent 1000 2000 rfl rfl]
  norm_num


/-- Every entry of a list reachable by payments is an entry of the start list, as it was or
settled. -/
theorem reachableByPayments_mem (strToNum : String → JSNumber) (start : List CateringEvent)
    (events : List CateringEvent) (h : ReachableByPayments strToNum start events) :
    ∀ ev ∈ events, ∃ e ∈ start, ev = e ∨ ev = settle e := by
  induction h with
  | start => exact fun ev hev => ⟨ev, hev, Or.inl rfl⟩
  | press event payNow apiOk _ _ ih =>
    intro ev hev
    have hcases : ∀ l : List CateringEvent,
        (pressPayRemaining strToNum event payNow apiOk l).events = l ∨
        (pressPayRemaining strToNum event payNow apiOk l).events = applyPayment event.id l := by
      intro l
      unfold pressPayRemaining
      split
      · exact handlePayRemaining_events strToNum event payNow apiOk l
      · exact Or.inl rfl
    rcases hcases _ with h | h
    · rw [h] at hev
      exact ih ev hev
    · rw [h] at hev
      unfold applyPayment at hev
      obtain ⟨x, hx, hxe⟩ := List.mem_map.1 hev
      obtain ⟨e, he, hcase⟩ := ih x hx
      refine ⟨e, he, ?_⟩
      by_cases hid : x.id.strictEq event.id = true
      · rw [if_pos hid] at hxe
        rcases hcase with hc | hc
        · exact Or.inr (by rw [← hxe, hc])
        · exact Or.inr (by rw [← hxe, hc]; rfl)
      · rw [if_neg hid] at hxe
        rw [← hxe]
        exact hcase

/-- C12, as stated, fails: the submission of a menu entry without price creates an event
with `total_price` 0 and `paid_amount` 0, so `paid_amount` equals `total_price`, but its
status is `Pending Payment`; and a press on its pay button changes nothing. -/
theorem handleScheduleSubmit_zero_total :
    ∃ ev : CateringEvent,
      handleScheduleSubmit noNumericStrings scenarioForm freeMenu
          (JSValue.num (JSNumber.fin 1700000000000)) true
          { cateringEvents := [], modalVisible := true } =
        Except.ok
          { alerts := [Alert.downPaymentRequired (JSNumber.fin 0),
              Alert.success "Event scheduled successfully!"]
            state := { cateringEvents := [ev], modalVisible := false } } ∧
      ev.total_price = JSValue.num (JSNumber.fin 0) ∧
      ev.paid_amount = JSValue.num (JSNumber.fin 0) ∧
      ev.status = JSValue.str "Pending Payment" ∧
      ¬ confirmedIffPaid ev ∧
      (pressPayRemaining noNumericStrings ev true true [ev]).events = [ev] := by
  have hitems : mapItems (lineItem freeMenu) scenarioForm.selectedItems =
      Except.ok freeLineItems := by
    simp [mapItems, lineItem, freeMenu, freeLineItems, scenarioForm, JSValue.strictEq,
      JSValue.or, JSValue.truthy]
  have h := handleScheduleSubmit_ok noNumericStrings scenarioForm freeMenu
    (JSValue.num (JSNumber.fin 1700000000000)) { cateringEvents := [], modalVisible := true }
    freeLineItems (by decide) (by simp [scenarioForm]) hitems
  have htotal : totalPrice noNumericStrings freeLineItems = JSNumber.fin 0 := by
    simp [totalPrice, freeLineItems, JSValue.toNumber, JSNumber.mul, JSNumber.add]
  have hdown : downPayment (JSNumber.fin 0) = JSNumber.fin 0 := by
    simp only [downPayment, JSNumber.mul, JSNumber.fin.injEq]
    norm_num
  have htp : (newEvent noNumericStrings scenarioForm freeLineItems
      (JSValue.num (JSNumber.fin 1700000000000))).total_price = JSValue.num (JSNumber.fin 0) := by
    simp only [newEvent, htotal]
  have hpa : (newEvent noNumericStrings scenarioForm freeLineItems
      (JSValue.num (JSNumber.fin 1700000000000))).paid_amount = JSValue.num (JSNumber.fin 0) := by
    simp only [newEvent, htotal, hdown]
  refine ⟨newEvent noNumericStrings scenarioForm freeLineItems
    (JSValue.num (JSNumber.fin 1700000000000)), ?_, htp, hpa, rfl, ?_, ?_⟩
  · rw [h, htotal, hdown]
    simp
  · unfold confirmedIffPaid
    rw [htp, hpa]
    intro hiff
    have h2 := hiff.2 (by simp [JSValue.strictEq])
    simp [newEvent, JSValue.strictEq] at h2
  · have hrem : remainingBalance noNumericStrings
        (newEvent noNumericStrings scenarioForm freeLineItems
          (JSValue.num (JSNumber.fin 1700000000000))) = JSNumber.fin 0 := by
      simp [remainingBalance, htp, hpa, JSValue.or, JSValue.truthy, JSValue.toNumber,
        JSNumber.sub]
    simp [pressPayRemaining, handlePayRemaining, hrem, JSNumber.le]

/-- C12, amended: in every state reachable from a created event by pay-remaining presses,
an event whose total is a number and whose status is `Confirmed` has `paid_amount` equal to
`total_price`; and when the total is a number other than 0, status is `Confirmed` if and
only if `paid_amount` equals `total_price`. -/
theorem confirmedIffPaid_reachable (strToNum : String → JSNumber) (form : ScheduleForm)
    (data : List ItemRecord) (now : JSValue) (total : ℚ)
    (htotal : totalPrice strToNum data = JSNumber.fin total) (events : List CateringEvent)
    (hreach : ReachableByPayments strToNum [newEvent strToNum form data now] events)
    (ev : CateringEvent) (hev : ev ∈ events) :
    (ev.status.strictEq (JSValue.str "Confirmed") = true →
      ev.paid_amount.strictEq ev.total_price = true) ∧
    (total ≠ 0 → confirmedIffPaid ev) := by
  obtain ⟨e, he, hcase⟩ := reachableByPayments_mem strToNum _ events hreach ev hev
  rw [List.mem_singleton] at he
  subst he
  have hdown : downPayment (JSNumber.fin total) = JSNumber.fin (total * (1 / 2)) := rfl
  rcases hcase with hc | hc
  · subst hc
    have hstatus : (newEvent strToNum form data now).status.strictEq
        (JSValue.str "Confirmed") = false := by
      simp [newEvent, JSValue.strictEq]
    refine ⟨fun h => ?_, fun hne => ?_⟩
    · rw [hstatus] at h
      cases h
    · unfold confirmedIffPaid
      rw [hstatus]
      have hpaid : (newEvent strToNum form data now).paid_amount.strictEq
          (newEvent strToNum form data now).total_price = false := by
        simp only [newEvent, htotal, hdown, JSValue.strictEq, decide_eq_false_iff_not,
          JSValue.num.injEq, JSNumber.fin.injEq]
        intro h
        apply hne
        linarith
      rw [hpaid]
  · subst hc
    have hstatus : (settle (newEvent strToNum form data now)).status.strictEq
        (JSValue.str "Confirmed") = true := by
      simp [settle, JSValue.strictEq]
    have hpaid : (settle (newEvent strToNum form data now)).paid_amount.strictEq
        (settle (newEvent strToNum form data now)).total_price = true := by
      simp [settle, newEvent, htotal, JSValue.strictEq]
    refine ⟨fun _ => hpaid, fun _ => ?_⟩
    unfold confirmedIffPaid
    rw [hstatus, hpaid]

/-- Witness for `confirmedIffPaid_reachable`: the event created from the line items of 2 at
1000, after one confirmed and successful pay-remaining. -/
theorem confirmedIffPaid_reachable_witness :
    totalPrice noNumericStrings scenarioLineItems = JSNumber.fin 2000 ∧
    ∀ ev ∈ (pressPayRemaining noNumericStrings
        (newEvent noNumericStrings scenarioForm scenarioLineItems (JSValue.num (JSNumber.fin 9)))
        true true
        [newEvent noNumericStrings scenarioForm scenarioLineItems
          (JSValue.num (JSNumber.fin 9))]).events,
      (ev.status.strictEq (JSValue.str "Confirmed") = true →
        ev.paid_amount.strictEq ev.total_price = true) ∧
      ((2000 : ℚ) ≠ 0 → confirmedIffPaid ev) := by
  have htotal : totalPrice noNumericStrings scenarioLineItems = JSNumber.fin 2000 := by
    rw [totalPrice_numeric noNumericStrings scenarioLineItems
      (by simp [scenarioLineItems, JSValue.isFinite])]
    simp only [specLineTotal, scenarioLineItems, List.map, JSValue.numberOrZero, List.sum_cons,
      List.sum_nil]
    norm_num
  refine ⟨htotal, fun ev hev => ?_⟩
  exact confirmedIffPaid_reachable noNumericStrings scenarioForm scenarioLineItems
    (JSValue.num (JSNumber.fin 9)) 2000 htotal _
    (ReachableByPayments.press _ true true ReachableByPayments.start
      (List.mem_singleton.2 rfl)) ev hev

/-- The handler `handlePayRemaining` itself does not look at the status: called on the
cancelled event with half of its total paid, it would confirm it. -/
theorem handlePayRemaining_not_gated :
    (handlePayRemaining noNumericStrings cancelledEvent true true [cancelledEvent]).events =
      [{ cancelledEvent with
          paid_amount := JSValue.num (JSNumber.fin 2000), status := JSValue.str "Confirmed" }] := by
  have hr : remainingBalance noNumericStrings cancelledEvent = JSNumber.fin 1000 := by
    simp [remainingBalance, cancelledEvent, JSValue.or, JSValue.truthy, JSValue.toNumber,
      JSNumber.sub]
    norm_num
  have hev : (handlePayRemaining noNumericStrings cancelledEvent true true
      [cancelledEvent]).events = applyPayment cancelledEvent.id [cancelledEvent] := by
    have hle : (JSNumber.fin 1000).le (JSNumber.fin 0) = false := by
      simp only [JSNumber.le, decide_eq_false_iff_not]
      norm_num
    simp [handlePayRemaining, hr, hle]
  rw [hev]
  simp [applyPayment, settle, cancelledEvent, JSValue.strictEq]

/-- C13: for an event whose status is `Confirmed` or `Cancelled` the card shows no pay
button, so the pay-remaining operation on it requests nothing and leaves the whole list
(hence its status and `paid_amount`) unchanged; and a pay-remaining on an event with another
id keeps it in the list as it is. -/
theorem pressPayRemaining_terminal (strToNum : String → JSNumber) (event : CateringEvent)
    (h : event.status = JSValue.str "Confirmed" ∨ event.status = JSValue.str "Cancelled") :
    (∀ (payNow apiOk : Bool) (prev : List CateringEvent),
      pressPayRemaining strToNum event payNow apiOk prev =
        { requests := [], alerts := [], events := prev }) ∧
    (∀ (other : CateringEvent) (payNow apiOk : Bool) (prev : List CateringEvent),
      event ∈ prev → event.id.strictEq other.id = false →
      event ∈ (pressPayRemaining strToNum other payNow apiOk prev).events) := by
  constructor
  · intro payNow apiOk prev
    have hshown : payButtonShown event = false := by
      rcases h with h | h <;> simp [payButtonShown, h, JSValue.strictEq]
    simp [pressPayRemaining, hshown]
  · intro other payNow apiOk prev hmem hid
    unfold pressPayRemaining
    split
    · rcases handlePayRemaining_events strToNum other payNow apiOk prev with h2 | h2
      · rw [h2]
        exact hmem
      · rw [h2]
        unfold applyPayment
        refine List.mem_map.2 ⟨event, hmem, ?_⟩
        rw [hid]
        rfl
    · exact hmem

/-- Witness for `pressPayRemaining_terminal`: the cancelled event with half of its total
paid, and a payment of the scenario event in a list holding both. -/
theorem pressPayRemaining_terminal_witness :
    pressPayRemaining noNumericStrings cancelledEvent true true [scenarioEvent, cancelledEvent] =
      { requests := [], alerts := [], events := [scenarioEvent, cancelledEvent] } ∧
    cancelledEvent ∈
      (pressPayRemaining noNumericStrings scenarioEvent true true
        [scenarioEvent, cancelledEvent]).events :=
  ⟨(pressPayRemaining_terminal noNumericStrings cancelledEvent (Or.inr rfl)).1 true true _,
    (pressPayRemaining_terminal noNumericStrings cancelledEvent (Or.inr rfl)).2 scenarioEvent
      true true _ (by simp) (by simp [cancelledEvent, scenarioEvent, JSValue.strictEq])⟩

/-! ### Classifying the events -/

/-- A filter whose callback never throws is the plain filter. -/
theorem filterItems_ok {α : Type} (p : α → Except JSError Bool) (q : α → Bool) (l : List α)
    (h : ∀ x ∈ l, p x = Except.ok (q x)) : filterItems p l = Except.ok (l.filter q) := by
  induction l with
  | nil => rfl
  | cons x rest ih =>
    have hx := h x (List.mem_cons_self x rest)
    have hrest := ih (fun y hy => h y (List.mem_cons_of_mem x hy))
    simp only [filterItems, hx, hrest, List.filter_cons]

/-- The result of a filter is a subsequence of the list. -/
theorem filterItems_sublist {α : Type} (p : α → Except JSError Bool) (l u : List α)
    (h : filterItems p l = Except.ok u) : u.Sublist l := by
  induction l generalizing u with
  | nil =>
    simp only [filterItems, Except.ok.injEq] at h
    rw [← h]
  | cons x rest ih =>
    unfold filterItems at h
    cases hp : p x with
    | error e => rw [hp] at h; cases h
    | ok b =>
      rw [hp] at h
      cases hr : filterItems p rest with
      | error e => rw [hr] at h; cases h
      | ok ys =>
        rw [hr] at h
        simp only [Except.ok.injEq] at h
        rw [← h]
        cases b
        · exact List.Sublist.cons x (ih ys hr)
        · exact List.Sublist.cons₂ x (ih ys hr)

/-- The filter callback of `userEvents` on an event whose client name is a string. -/
theorem isUserEvent_str (lower : String → String) (c : String) (ev : CateringEvent)
    (h : ∃ n, ev.client_name = JSValue.str n) :
    isUserEvent lower (JSValue.str c) ev =
      Except.ok (clientMatches lower c ev && !(ev.status.strictEq (JSValue.str "cancelled"))) := by
  obtain ⟨n, hn⟩ := h
  simp [isUserEvent, clientMatches, hn, callLower, callTrim]

/-- The list `userEvents` when the current client and every event's client name are strings. -/
theorem userEvents_str (lower : String → String) (c : String) (events : List CateringEvent)
    (h : ∀ ev ∈ events, ∃ n, ev.client_name = JSValue.str n) :
    userEvents lower (JSValue.str c) events =
      Except.ok (events.filter (fun ev =>
        clientMatches lower c ev && !(ev.status.strictEq (JSValue.str "cancelled")))) :=
  filterItems_ok _ _ events (fun ev hev => isUserEvent_str lower c ev (h ev hev))

/-- Membership in the two buckets for an event with a valid date. -/
theorem mem_buckets_fin (timeValue : JSValue → JSNumber) (now : ℚ) (u : List CateringEvent)
    (ev : CateringEvent) (t : ℚ) (ht : timeValue ev.event_date = JSNumber.fin t) :
    (ev ∈ upcomingEvents timeValue now u ↔ ev ∈ u ∧ now ≤ t) ∧
    (ev ∈ pastEvents timeValue now u ↔ ev ∈ u ∧ t < now) := by
  simp [upcomingEvents, pastEvents, List.mem_filter, ht, JSNumber.le, JSNumber.lt]

/-- An event without a valid date is in neither bucket. -/
theorem not_mem_buckets_nan (timeValue : JSValue → JSNumber) (now : ℚ) (u : List CateringEvent)
    (ev : CateringEvent) (ht : timeValue ev.event_date = JSNumber.nan) :
    ev ∉ upcomingEvents timeValue now u ∧ ev ∉ pastEvents timeValue now u := by
  simp [upcomingEvents, pastEvents, List.mem_filter, ht, JSNumber.le, JSNumber.lt]

/-- C14, as stated, fails: for the client `Ana Cruz`, the event with status `Cancelled` passes
the filter and is shown in the upcoming bucket, and the event without `event_date` passes the
filter and is shown in neither bucket. -/
theorem userEvents_not_exact :
    userEvents toLowerCase (JSValue.str "Ana Cruz") [cancelledEvent, undatedEvent] =
      Except.ok [cancelledEvent, undatedEvent] ∧
    cancelledEvent ∈
      upcomingEvents scenarioTimeValue noon2025 [cancelledEvent, undatedEvent] ∧
    undatedEvent ∉ upcomingEvents scenarioTimeValue noon2025 [cancelledEvent, undatedEvent] ∧
    undatedEvent ∉ pastEvents scenarioTimeValue noon2025 [cancelledEvent, undatedEvent] := by
  have h1 : userEvents toLowerCase (JSValue.str "Ana Cruz") [cancelledEvent, undatedEvent] =
      Except.ok [cancelledEvent, undatedEvent] := by decide
  have hc : scenarioTimeValue cancelledEvent.event_date = JSNumber.fin 4070908800000 := rfl
  have hu : scenarioTimeValue undatedEvent.event_date = JSNumber.nan := rfl
  refine ⟨h1, ?_, not_mem_buckets_nan _ _ _ _ hu⟩
  rw [(mem_buckets_fin scenarioTimeValue noon2025 _ cancelledEvent _ hc).1]
  refine ⟨List.mem_cons_self _ _, ?_⟩
  unfold noon2025
  norm_num

/-- C14, amended: when the names are strings, the list of user events is computed, an event
with status `cancelled` is in neither bucket, and an event whose status is no casing of
`cancelled` is in one of the two buckets exactly when it is in the list, its client name
lower-cased equals the current client's name trimmed and lower-cased, and its `event_date`
is a valid date; the client name of a loaded event is the fetched one trimmed. -/
theorem userEvents_shown (lower : String → String) (hlower : lower "cancelled" = "cancelled")
    (timeValue : JSValue → JSNumber) (now : ℚ) (c : String) (events : List CateringEvent)
    (hnames : ∀ ev ∈ events, ∃ n, ev.client_name = JSValue.str n) :
    (∃ u, userEvents lower (JSValue.str c) events = Except.ok u ∧
      (∀ ev : CateringEvent, ev.status = JSValue.str "cancelled" →
        ev ∉ upcomingEvents timeValue now u ∧ ev ∉ pastEvents timeValue now u) ∧
      (∀ ev : CateringEvent, (∀ s, ev.status = JSValue.str s → lower s ≠ "cancelled") →
        ((ev ∈ upcomingEvents timeValue now u ∨ ev ∈ pastEvents timeValue now u) ↔
          (ev ∈ events ∧ clientMatches lower c ev = true ∧ hasValidDate timeValue ev = true)))) ∧
    (∀ (strToNum : String → JSNumber) (raw ev : CateringEvent) (n : String),
      normalizeEvent strToNum raw = Except.ok ev → raw.client_name = JSValue.str n →
      ev.client_name = JSValue.str (trim n)) := by
  constructor
  · refine ⟨_, userEvents_str lower c events hnames, ?_, ?_⟩
    · intro ev hst
      have hnot : ev ∉ events.filter (fun ev =>
          clientMatches lower c ev && !(ev.status.strictEq (JSValue.str "cancelled"))) := by
        simp [List.mem_filter, hst, JSValue.strictEq]
      constructor
      · intro h
        exact hnot (List.mem_filter.1 h).1
      · intro h
        exact hnot (List.mem_filter.1 h).1
    · intro ev hst
      have hne : ev.status.strictEq (JSValue.str "cancelled") = false := by
        have hneq : ev.status ≠ JSValue.str "cancelled" := by
          intro h
          exact hst "cancelled" h hlower
        cases hs : ev.status with
        | num n =>
          cases n with
          | fin q => simp [JSValue.strictEq]
          | nan => simp [JSValue.strictEq]
        | str s =>
          rw [hs] at hneq
          simp only [JSValue.strictEq, decide_eq_false_iff_not]
          exact hneq
        | _ => simp [JSValue.strictEq]
      cases ht : timeValue ev.event_date with
      | nan =>
        have hn := not_mem_buckets_nan timeValue now
          (events.filter (fun ev =>
            clientMatches lower c ev && !(ev.status.strictEq (JSValue.str "cancelled")))) ev ht
        simp [hn.1, hn.2, hasValidDate, ht]
      | fin t =>
        have hm := mem_buckets_fin timeValue now
          (events.filter (fun ev =>
            clientMatches lower c ev && !(ev.status.strictEq (JSValue.str "cancelled")))) ev t ht
        rw [hm.1, hm.2]
        simp only [List.mem_filter, hne, Bool.not_false, Bool.and_true, hasValidDate, ht]
        constructor
        · rintro (⟨⟨h1, h2⟩, _⟩ | ⟨⟨h1, h2⟩, _⟩) <;> exact ⟨h1, h2, trivial⟩
        · rintro ⟨h1, h2, _⟩
          rcases le_or_lt now t with h | h
          · exact Or.inl ⟨⟨h1, h2⟩, h⟩
          · exact Or.inr ⟨⟨h1, h2⟩, h⟩
  · intro strToNum raw ev n hnorm hn
    unfold normalizeEvent at hnorm
    simp only [hn] at hnorm
    split at hnorm
    · cases hnorm
    · rename_i t ht
      simp only [Except.ok.injEq] at hnorm
      rw [← hnorm]
      show (JSValue.str (trim n)).or (JSValue.str "") = JSValue.str (trim n)
      exact or_str_empty (trim n)

/-- Witness for `userEvents_shown`: for the client name ` Ana Cruz ` (with blanks around it)
the event dated 2099-01-01 of `Ana Cruz` is shown. -/
theorem userEvents_shown_witness :
    toLowerCase "cancelled" = "cancelled" ∧
    (∀ ev ∈ [event2024, event2099], ∃ n, ev.client_name = JSValue.str n) ∧
    ∃ u, userEvents toLowerCase (JSValue.str " Ana Cruz ") [event2024, event2099] = Except.ok u ∧
      (event2099 ∈ upcomingEvents scenarioTimeValue noon2025 u ∨
        event2099 ∈ pastEvents scenarioTimeValue noon2025 u) := by
  have hnames : ∀ ev ∈ [event2024, event2099], ∃ n, ev.client_name = JSValue.str n := by
    intro ev hev
    simp only [List.mem_cons, List.mem_singleton, List.not_mem_nil, or_false] at hev
    rcases hev with h | h <;> exact ⟨"Ana Cruz", by rw [h]; rfl⟩
  obtain ⟨⟨u, hu, _, hshown⟩, _⟩ := userEvents_shown toLowerCase (by decide) scenarioTimeValue
    noon2025 " Ana Cruz " [event2024, event2099] hnames
  refine ⟨by decide, hnames, u, hu, ?_⟩
  refine (hshown event2099 ?_).2 ⟨by simp, by decide, rfl⟩
  intro s hs
  have hs2 : s = "Pending Payment" := by
    have : JSValue.str "Pending Payment" = JSValue.str s := hs
    exact (JSValue.str.inj this).symm
  rw [hs2]
  decide

/-- C15, as stated, fails: at noon of 2025-01-01 the event dated 2025-01-01, which passes
the filter, is in the past bucket and not in the upcoming one. -/
theorem event_dated_today_is_past :
    userEvents toLowerCase (JSValue.str "Ana Cruz") [event2025] = Except.ok [event2025] ∧
    event2025 ∈ pastEvents scenarioTimeValue noon2025 [event2025] ∧
    event2025 ∉ upcomingEvents scenarioTimeValue noon2025 [event2025] := by
  have ht : scenarioTimeValue event2025.event_date = JSNumber.fin 1735689600000 := rfl
  have hm := mem_buckets_fin scenarioTimeValue noon2025 [event2025] event2025 _ ht
  refine ⟨by decide, ?_, ?_⟩
  · rw [hm.2]
    refine ⟨List.mem_cons_self _ _, ?_⟩
    unfold noon2025
    norm_num
  · rw [hm.1]
    rintro ⟨_, h⟩
    unfold noon2025 at h
    norm_num at h

/-- C15, amended: an event of the filtered list whose `event_date` is a valid date is
in exactly one bucket, upcoming when the instant of its date is at or after the current
instant and past when it is before; an event without a valid date is in neither. -/
theorem buckets_partition (timeValue : JSValue → JSNumber) (now : ℚ) (u : List CateringEvent)
    (ev : CateringEvent) (hev : ev ∈ u) :
    (∀ t : ℚ, timeValue ev.event_date = JSNumber.fin t →
      (ev ∈ upcomingEvents timeValue now u ↔ now ≤ t) ∧
      (ev ∈ pastEvents timeValue now u ↔ t < now) ∧
      (ev ∈ upcomingEvents timeValue now u ↔ ev ∉ pastEvents timeValue now u)) ∧
    (timeValue ev.event_date = JSNumber.nan →
      ev ∉ upcomingEvents timeValue now u ∧ ev ∉ pastEvents timeValue now u) := by
  refine ⟨fun t ht => ?_, not_mem_buckets_nan timeValue now u ev⟩
  have hm := mem_buckets_fin timeValue now u ev t ht
  refine ⟨?_, ?_, ?_⟩
  · rw [hm.1]
    exact ⟨fun h => h.2, fun h => ⟨hev, h⟩⟩
  · rw [hm.2]
    exact ⟨fun h => h.2, fun h => ⟨hev, h⟩⟩
  · rw [hm.1, hm.2]
    constructor
    · rintro ⟨_, h⟩ ⟨_, h2⟩
      exact absurd h (not_le.2 h2)
    · intro h
      exact ⟨hev, not_lt.1 (fun h2 => h ⟨hev, h2⟩)⟩

/-- Witness for `buckets_partition`: with the events dated 2024-01-01 and 2099-01-01 and the
current instant on 2025-01-01, the first is past and the second upcoming, one event each. -/
theorem buckets_partition_witness :
    event2024 ∈ pastEvents scenarioTimeValue noon2025 [event2024, event2099] ∧
    event2099 ∈ upcomingEvents scenarioTimeValue noon2025 [event2024, event2099] ∧
    event2024 ∉ upcomingEvents scenarioTimeValue noon2025 [event2024, event2099] ∧
    event2099 ∉ pastEvents scenarioTimeValue noon2025 [event2024, event2099] := by
  have h24 := (buckets_partition scenarioTimeValue noon2025 [event2024, event2099] event2024
    (by simp)).1 1704067200000 rfl
  have h99 := (buckets_partition scenarioTimeValue noon2025 [event2024, event2099] event2099
    (by simp)).1 4070908800000 rfl
  have p24 : event2024 ∈ pastEvents scenarioTimeValue noon2025 [event2024, event2099] :=
    h24.2.1.2 (by unfold noon2025; norm_num)
  have u99 : event2099 ∈ upcomingEvents scenarioTimeValue noon2025 [event2024, event2099] :=
    h99.1.2 (by unfold noon2025; norm_num)
  exact ⟨p24, u99, fun h => (h24.2.2.1 h) p24, h99.2.2.1 u99⟩

/-- C16: each bucket is a subsequence of the list of events, so the events keep their
fetch order within a bucket; and the buckets are computed whenever the names are strings. -/
theorem buckets_sublist (lower : String → String) (client : JSValue)
    (events : List CateringEvent) (timeValue : JSValue → JSNumber) (now : ℚ) :
    (∀ u, userEvents lower client events = Except.ok u →
      (upcomingEvents timeValue now u).Sublist events ∧
      (pastEvents timeValue now u).Sublist events) ∧
    (∀ c : String, client = JSValue.str c →
      (∀ ev ∈ events, ∃ n, ev.client_name = JSValue.str n) →
      ∃ u, userEvents lower client events = Except.ok u) := by
  constructor
  · intro u hu
    have hsub := filterItems_sublist _ events u hu
    exact ⟨(List.filter_sublist _).trans hsub, (List.filter_sublist _).trans hsub⟩
  · intro c hc hnames
    subst hc
    exact ⟨_, userEvents_str lower c events hnames⟩

/-- Witness for `buckets_sublist`: the three dated events of `Ana Cruz`. -/
theorem buckets_sublist_witness :
    userEvents toLowerCase (JSValue.str "Ana Cruz") [event2024, event2025, event2099] =
      Except.ok [event2024, event2025, event2099] ∧
    (∃ u, userEvents toLowerCase (JSValue.str "Ana Cruz") [event2024, event2025, event2099] =
      Except.ok u) ∧
    (upcomingEvents scenarioTimeValue noon2025 [event2024, event2025, event2099]).Sublist
      [event2024, event2025, event2099] ∧
    (pastEvents scenarioTimeValue noon2025 [event2024, event2025, event2099]).Sublist
      [event2024, event2025, event2099] :=
  have hu : userEvents toLowerCase (JSValue.str "Ana Cruz") [event2024, event2025, event2099] =
      Except.ok [event2024, event2025, event2099] := by decide
  have hex := (buckets_sublist toLowerCase (JSValue.str "Ana Cruz")
    [event2024, event2025, event2099] scenarioTimeValue noon2025).2 "Ana Cruz" rfl
    (by
      intro ev hev
      simp only [List.mem_cons, List.mem_singleton, List.not_mem_nil, or_false] at hev
      rcases hev with h | h | h <;> exact ⟨"Ana Cruz", by rw [h]; rfl⟩)
  ⟨hu, hex, (buckets_sublist toLowerCase (JSValue.str "Ana Cruz")
    [event2024, event2025, event2099] scenarioTimeValue noon2025).1 _ hu⟩

/-! ### Building the line items -/

/-- The expression `(a || b) || b` is `a || b`. -/
theorem or_or_self (a b : JSValue) : (a.or b).or b = a.or b := by
  unfold JSValue.or
  by_cases ha : a.truthy = true
  · simp [ha]
  · simp [ha]

/-- The expression `a || b` is truthy when `b` is. -/
theorem truthy_or (a b : JSValue) (hb : b.truthy = true) : (a.or b).truthy = true := by
  unfold JSValue.or
  by_cases ha : a.truthy = true
  · simp [ha]
  · simp [ha, hb]

/-- The expression `a || b` is `a` when `a` is truthy. -/
theorem or_of_truthy (a b : JSValue) (ha : a.truthy = true) : a.or b = a := by
  simp [JSValue.or, ha]

/-- Strictly equal values are equal. -/
theorem eq_of_strictEq (a b : JSValue) (h : a.strictEq b = true) : a = b := by
  unfold JSValue.strictEq at h
  split at h
  · cases h
  · exact of_decide_eq_true h

/-- A `map` whose callback succeeds on every entry returns the list of the results, entry by
entry. -/
theorem mapItems_forall₂ {α β : Type} (f : α → Except JSError β) (R : α → β → Prop) (l : List α)
    (h : ∀ x ∈ l, ∃ y, f x = Except.ok y ∧ R x y) :
    ∃ ys, mapItems f l = Except.ok ys ∧ List.Forall₂ R l ys := by
  induction l with
  | nil => exact ⟨[], rfl, List.Forall₂.nil⟩
  | cons x rest ih =>
    obtain ⟨y, hy, hR⟩ := h x (List.mem_cons_self x rest)
    obtain ⟨ys, hys, hall⟩ := ih (fun z hz => h z (List.mem_cons_of_mem x hz))
    refine ⟨y :: ys, ?_, List.Forall₂.cons hR hall⟩
    simp only [mapItems, hy, hys]

/-- Every entry of the result of a `map` is the result of the callback on an entry. -/
theorem mapItems_mem {α β : Type} (f : α → Except JSError β) (l : List α) (ys : List β)
    (h : mapItems f l = Except.ok ys) : ∀ y ∈ ys, ∃ x ∈ l, f x = Except.ok y := by
  induction l generalizing ys with
  | nil =>
    simp only [mapItems, Except.ok.injEq] at h
    subst h
    intro y hy
    cases hy
  | cons x rest ih =>
    unfold mapItems at h
    cases hf : f x with
    | error e => rw [hf] at h; cases h
    | ok y0 =>
      rw [hf] at h
      cases hr : mapItems f rest with
      | error e => rw [hr] at h; cases h
      | ok ys0 =>
        rw [hr] at h
        simp only [Except.ok.injEq] at h
        subst h
        intro y hy
        rcases List.mem_cons.1 hy with h1 | h1
        · subst h1
          exact ⟨x, List.mem_cons_self x rest, hf⟩
        · obtain ⟨x1, hx1, hfx1⟩ := ih ys0 hr y h1
          exact ⟨x1, List.mem_cons_of_mem x hx1, hfx1⟩

/-- A `map` fails as soon as the callback fails on an entry. -/
theorem mapItems_error {α β : Type} (f : α → Except JSError β) (l : List α)
    (h : ∃ x ∈ l, ∃ e, f x = Except.error e) : ∃ e, mapItems f l = Except.error e := by
  induction l with
  | nil =>
    obtain ⟨x, hx, _⟩ := h
    cases hx
  | cons x rest ih =>
    unfold mapItems
    cases hf : f x with
    | error e => exact ⟨e, rfl⟩
    | ok y =>
      have hrest : ∃ z ∈ rest, ∃ e, f z = Except.error e := by
        obtain ⟨z, hz, e, he⟩ := h
        rcases List.mem_cons.1 hz with h1 | h1
        · subst h1
          rw [hf] at he
          cases he
        · exact ⟨z, h1, e, he⟩
      obtain ⟨e, he⟩ := ih hrest
      exact ⟨e, by simp only [he]⟩

/-- On a menu whose entries have a truthy `selectedQuantity`, the modal builds the same line
item as `catering.jsx`. -/
theorem lineItemModal_eq (menuItems : List MenuItem)
    (h : ∀ i ∈ menuItems, i.selectedQuantity.truthy = true) (itemId : JSValue) :
    lineItemModal menuItems itemId = lineItem menuItems itemId := by
  unfold lineItemModal lineItem
  cases hf : menuItems.find? (fun i => i.id.strictEq itemId) with
  | none => rfl
  | some item =>
    have hmem : item ∈ menuItems := List.mem_of_find?_eq_some hf
    simp only [or_of_truthy _ _ (h item hmem)]

/-- The modal and `catering.jsx` build the same list of line items on such a menu. -/
theorem mapItems_lineItemModal_eq (menuItems : List MenuItem)
    (h : ∀ i ∈ menuItems, i.selectedQuantity.truthy = true) (selected : List JSValue) :
    mapItems (lineItemModal menuItems) selected = mapItems (lineItem menuItems) selected := by
  have hfun : lineItemModal menuItems = lineItem menuItems :=
    funext (lineItemModal_eq menuItems h)
  rw [hfun]

/-- C17: when every selected id is the id of a menu entry, the line items are built, one per
selected id and in selection order, from the first menu entry with that id: `menu_item` is
the id, `name` is the entry's name, `image` is `item.image || null`, `unit_price` is
`item.price || 0` and `quantity` is `item.selectedQuantity || 1`. The modal builds the same
list on a menu whose entries have a truthy `selectedQuantity`, which is what loading the
menu and the quantity input leave. -/
theorem lineItems_built (menuItems : List MenuItem) (selected : List JSValue)
    (hpresent : ∀ id ∈ selected, ∃ item ∈ menuItems, item.id.strictEq id = true) :
    (∃ data, mapItems (lineItem menuItems) selected = Except.ok data ∧
      List.Forall₂
        (fun id r => ∃ item ∈ menuItems,
          menuItems.find? (fun i => i.id.strictEq id) = some item ∧
          r.menu_item = id ∧ r.name = item.name ∧
          r.image = item.image.or JSValue.null ∧
          r.unit_price = item.price.or (JSValue.num (JSNumber.fin 0)) ∧
          r.quantity = item.selectedQuantity.or (JSValue.num (JSNumber.fin 1)))
        selected data) ∧
    ((∀ i ∈ menuItems, i.selectedQuantity.truthy = true) →
      mapItems (lineItemModal menuItems) selected = mapItems (lineItem menuItems) selected) ∧
    (∀ raw : List MenuItem, ∀ i ∈ loadedMenuItems raw, i.selectedQuantity.truthy = true) ∧
    (∀ (parsed : JSNumber) (item : MenuItem),
      (blurQuantity parsed item).selectedQuantity.truthy = true) := by
  refine ⟨?_, fun h => mapItems_lineItemModal_eq menuItems h selected, ?_, ?_⟩
  · apply mapItems_forall₂
    intro id hid
    obtain ⟨item0, hmem0, heq0⟩ := hpresent id hid
    cases hf : menuItems.find? (fun i => i.id.strictEq id) with
    | none =>
      have := List.find?_eq_none.1 hf item0 hmem0
      exact absurd heq0 this
    | some item =>
      have hmem : item ∈ menuItems := List.mem_of_find?_eq_some hf
      have hid2 := List.find?_some hf
      have hline : lineItem menuItems id =
          Except.ok
            { menu_item := item.id
              name := item.name
              quantity := item.selectedQuantity.or (JSValue.num (JSNumber.fin 1))
              unit_price := item.price.or (JSValue.num (JSNumber.fin 0))
              image := item.image.or JSValue.null } := by
        simp only [lineItem, hf]
      exact ⟨_, hline, item, hmem, rfl, eq_of_strictEq _ _ hid2, rfl, rfl, rfl, rfl⟩
  · intro raw i hi
    unfold loadedMenuItems at hi
    obtain ⟨x, _, hx⟩ := List.mem_map.1 hi
    rw [← hx]
    simp [JSValue.truthy]
  · intro parsed item
    exact truthy_or _ _ (by simp [JSValue.truthy])

/-- Witness for `lineItems_built`: the menu entry 7 of the scenario, selected once. -/
theorem lineItems_built_witness :
    (∀ id ∈ scenarioForm.selectedItems, ∃ item ∈ scenarioMenu, item.id.strictEq id = true) ∧
    mapItems (lineItem scenarioMenu) scenarioForm.selectedItems = Except.ok scenarioLineItems ∧
    mapItems (lineItemModal scenarioMenu) scenarioForm.selectedItems =
      Except.ok scenarioLineItems := by
  have hpresent : ∀ id ∈ scenarioForm.selectedItems,
      ∃ item ∈ scenarioMenu, item.id.strictEq id = true := by
    intro id hid
    simp only [scenarioForm, List.mem_singleton] at hid
    subst hid
    exact ⟨_, List.mem_cons_self _ _, by simp [JSValue.strictEq]⟩
  have h := lineItems_built scenarioMenu scenarioForm.selectedItems hpresent
  have hdata : mapItems (lineItem scenarioMenu) scenarioForm.selectedItems =
      Except.ok scenarioLineItems := by
    simp [mapItems, lineItem, scenarioMenu, scenarioForm, scenarioLineItems, JSValue.strictEq,
      JSValue.or, JSValue.truthy]
  refine ⟨hpresent, hdata, ?_⟩
  rw [h.2.1 (by simp [scenarioMenu, JSValue.truthy]), hdata]

/-- Both submit handlers throw, whatever the user and the server answer, when the form
passes the checks and a selected id is the id of no menu entry: no dialog is shown and the
state is not written. -/
theorem submit_absent_id (strToNum : String → JSNumber) (menuItems : List MenuItem)
    (form : ScheduleForm)
    (habsent : ∃ id ∈ form.selectedItems, menuItems.find? (fun i => i.id.strictEq id) = none) :
    ((∀ v ∈ requiredFields form, isMissing v = false) →
      ∀ (now : JSValue) (payNow : Bool) (st : CateringState),
        ∃ e, handleScheduleSubmit strToNum form menuItems now payNow st = Except.error e) ∧
    ((∀ v ∈ requiredFieldsModal form, isMissing v = false) →
      ∀ (payNow : Bool) (response : CreateResponse) (st : ModalState), st.scheduleForm = form →
        ∃ e, handleSubmit strToNum menuItems payNow response st = Except.error e) := by
  obtain ⟨id, hid, hfind⟩ := habsent
  have hlen : form.selectedItems.length ≠ 0 := by
    intro h
    rw [List.length_eq_zero.1 h] at hid
    cases hid
  constructor
  · intro hreq now payNow st
    obtain ⟨e, he⟩ := mapItems_error (lineItem menuItems) form.selectedItems
      ⟨id, hid, JSError.typeError "Cannot read property of undefined",
        by simp only [lineItem, hfind]⟩
    exact ⟨e, by simp [handleScheduleSubmit, filter_isMissing_length _ hreq, hlen, he]⟩
  · intro hreq payNow response st hst
    subst hst
    obtain ⟨e, he⟩ := mapItems_error (lineItemModal menuItems) st.scheduleForm.selectedItems
      ⟨id, hid, JSError.typeError "Cannot read property of undefined",
        by simp only [lineItemModal, hfind]⟩
    exact ⟨e, by simp [handleSubmit, filter_isMissing_length _ hreq, hlen, he]⟩

/-- C18, as stated, fails: on a form with the ids 7 and 99 selected and only the entry 7 on
the menu, both submit handlers end in a `TypeError` (the read of `item.id` on `undefined`),
not in a validation message: the handlers have no check for an id that is not on the menu. -/
theorem submit_absent_id_throws :
    handleScheduleSubmit noNumericStrings staleSelectionForm scenarioMenu
        (JSValue.num (JSNumber.fin 1700000000000)) true
        { cateringEvents := [], modalVisible := true } =
      Except.error (JSError.typeError "Cannot read property of undefined") ∧
    handleSubmit noNumericStrings scenarioMenu true CreateResponse.rejected
        staleSelectionModalState =
      Except.error (JSError.typeError "Cannot read property of undefined") := by
  have hreq : ((requiredFields staleSelectionForm).filter isMissing).length = 0 :=
    filter_isMissing_length _ (by decide)
  have hreqM : ((requiredFieldsModal staleSelectionForm).filter isMissing).length = 0 :=
    filter_isMissing_length _ (by decide)
  have h1 : mapItems (lineItem scenarioMenu) staleSelectionForm.selectedItems =
      Except.error (JSError.typeError "Cannot read property of undefined") := by
    simp [mapItems, lineItem, scenarioMenu, staleSelectionForm, scenarioForm, JSValue.strictEq,
      JSValue.or, JSValue.truthy]
  have h2 : mapItems (lineItemModal scenarioMenu) staleSelectionForm.selectedItems =
      Except.error (JSError.typeError "Cannot read property of undefined") := by
    simp [mapItems, lineItemModal, scenarioMenu, staleSelectionForm, scenarioForm,
      JSValue.strictEq, JSValue.or, JSValue.truthy]
  have hlen : staleSelectionForm.selectedItems.length ≠ 0 := by
    simp [staleSelectionForm]
  constructor
  · simp [handleScheduleSubmit, hreq, hlen, h1]
  · simp [handleSubmit, staleSelectionModalState, hreqM, hlen, h2]

/-! ### The total on the event card -/

/-- The `reduce` of the event card over line items whose unit price and quantity are fixed
by `|| 0` and `|| 1` is the `reduce` of the submit handlers. -/
theorem reduce_addCardAmount (strToNum : String → JSNumber) (data : List ItemRecord)
    (h : ∀ r ∈ data,
      r.unit_price.or (JSValue.num (JSNumber.fin 0)) = r.unit_price ∧
      r.quantity.or (JSValue.num (JSNumber.fin 1)) = r.quantity)
    (acc : JSNumber) :
    reduce (addCardAmount strToNum) (data.map JSItem.obj) acc =
      Except.ok (data.foldl
        (fun sum i =>
          sum.add ((i.unit_price.toNumber strToNum).mul (i.quantity.toNumber strToNum)))
        acc) := by
  induction data generalizing acc with
  | nil => rfl
  | cons r rest ih =>
    have hr := h r (List.mem_cons_self r rest)
    have hstep : addCardAmount strToNum acc (JSItem.obj r) =
        Except.ok (acc.add
          ((r.unit_price.toNumber strToNum).mul (r.quantity.toNumber strToNum))) := by
      simp only [addCardAmount, JSItem.get, hr.1, hr.2]
    simp only [List.map_cons, reduce, hstep, List.foldl_cons]
    exact ih (fun x hx => h x (List.mem_cons_of_mem r hx)) _

/-- The line items built by `catering.jsx` are fixed by the defaults of the event card. -/
theorem lineItem_fixed (menuItems : List MenuItem) (selected : List JSValue)
    (data : List ItemRecord) (hitems : mapItems (lineItem menuItems) selected = Except.ok data) :
    ∀ r ∈ data,
      r.unit_price.or (JSValue.num (JSNumber.fin 0)) = r.unit_price ∧
      r.quantity.or (JSValue.num (JSNumber.fin 1)) = r.quantity := by
  intro r hr
  obtain ⟨id, _, hline⟩ := mapItems_mem _ selected data hitems r hr
  unfold lineItem at hline
  cases hf : menuItems.find? (fun i => i.id.strictEq id) with
  | none => rw [hf] at hline; cases hline
  | some item =>
    rw [hf] at hline
    simp only [Except.ok.injEq] at hline
    rw [← hline]
    exact ⟨or_or_self _ _, or_or_self _ _⟩

/-- C19: for the line items built at submission, the total recomputed on the event card
over the items of the created event is the `total_price` of that event, half of which is its
down payment; and on a menu whose entries have a truthy `selectedQuantity` the same holds for
the line items and the `total_price` of the payload the modal sends. -/
theorem dynamicTotal_round_trip (strToNum : String → JSNumber) (menuItems : List MenuItem)
    (selected : List JSValue) (data : List ItemRecord)
    (hitems : mapItems (lineItem menuItems) selected = Except.ok data) :
    (∀ (form : ScheduleForm) (now : JSValue),
      dynamicTotal strToNum (newEvent strToNum form data now) =
        Except.ok (totalPrice strToNum data) ∧
      (newEvent strToNum form data now).total_price = JSValue.num (totalPrice strToNum data) ∧
      (newEvent strToNum form data now).paid_amount =
        JSValue.num (downPayment (totalPrice strToNum data))) ∧
    ((∀ i ∈ menuItems, i.selectedQuantity.truthy = true) →
      mapItems (lineItemModal menuItems) selected = Except.ok data ∧
      ∀ form : ScheduleForm,
        reduce (addCardAmount strToNum) ((buildPayload strToNum form data).items.map JSItem.obj)
            (JSNumber.fin 0) = Except.ok (totalPrice strToNum data) ∧
        (buildPayload strToNum form data).total_price =
          JSValue.num (totalPrice strToNum data) ∧
        (buildPayload strToNum form data).paid_amount =
          JSValue.num (downPayment (totalPrice strToNum data))) := by
  have hfixed := lineItem_fixed menuItems selected data hitems
  have hreduce := reduce_addCardAmount strToNum data hfixed (JSNumber.fin 0)
  constructor
  · intro form now
    exact ⟨hreduce, rfl, rfl⟩
  · intro hq
    refine ⟨?_, fun form => ⟨hreduce, rfl, rfl⟩⟩
    rw [mapItems_lineItemModal_eq menuItems hq selected, hitems]

/-- Witness for `dynamicTotal_round_trip`: for the scenario menu and selection, the card of
the created event shows the total 2000. -/
theorem dynamicTotal_round_trip_witness :
    mapItems (lineItem scenarioMenu) scenarioForm.selectedItems = Except.ok scenarioLineItems ∧
    dynamicTotal noNumericStrings
        (newEvent noNumericStrings scenarioForm scenarioLineItems
          (JSValue.num (JSNumber.fin 1700000000000))) =
      Except.ok (JSNumber.fin 2000) ∧
    mapItems (lineItemModal scenarioMenu) scenarioForm.selectedItems =
      Except.ok scenarioLineItems := by
  have hdata : mapItems (lineItem scenarioMenu) scenarioForm.selectedItems =
      Except.ok scenarioLineItems := by
    simp [mapItems, lineItem, scenarioMenu, scenarioForm, scenarioLineItems, JSValue.strictEq,
      JSValue.or, JSValue.truthy]
  have h := dynamicTotal_round_trip noNumericStrings scenarioMenu scenarioForm.selectedItems
    scenarioLineItems hdata
  have htotal : totalPrice noNumericStrings scenarioLineItems = JSNumber.fin 2000 := by
    rw [totalPrice_numeric noNumericStrings scenarioLineItems
      (by simp [scenarioLineItems, JSValue.isFinite])]
    simp only [specLineTotal, scenarioLineItems, List.map, JSValue.numberOrZero, List.sum_cons,
      List.sum_nil]
    norm_num
  refine ⟨hdata, ?_, (h.2 (by simp [scenarioMenu, JSValue.truthy])).1⟩
  rw [(h.1 scenarioForm _).1, htotal]

/-! ### Redeeming an offer -/

/-- C20: when the available points are below `offer.points`, `redeemOffer` only shows the
"Not enough points" dialog: no request is sent and the state (credit points, cart, credit
modal) is unchanged, whatever the server would answer. -/
theorem redeemOffer_insufficient (strToNum : String → JSNumber) (offer : Offer)
    (response : RedeemResponse) (st : ProfileState)
    (h : (availablePoints strToNum st.creditPoints).lt (offer.points.toNumber strToNum) = true) :
    redeemOffer strToNum offer response st =
      { requests := []
        alerts := [ProfileAlert.notEnoughPoints offer.points
          (availablePoints strToNum st.creditPoints)]
        state := st } := by
  simp [redeemOffer, h]

/-- Witness for `redeemOffer_insufficient`: the offer of 500 points with 300 available. -/
theorem redeemOffer_insufficient_witness :
    availablePoints noNumericStrings profile300.creditPoints = JSNumber.fin 300 ∧
    (availablePoints noNumericStrings profile300.creditPoints).lt
      (offer500.points.toNumber noNumericStrings) = true ∧
    redeemOffer noNumericStrings offer500
        (RedeemResponse.resolved (some (JSValue.num (JSNumber.fin 0))) JSValue.undefined)
        profile300 =
      { requests := []
        alerts := [ProfileAlert.notEnoughPoints (JSValue.num (JSNumber.fin 500))
          (JSNumber.fin 300)]
        state := profile300 } := by
  have hp : availablePoints noNumericStrings profile300.creditPoints = JSNumber.fin 300 := by
    simp [availablePoints, profile300, JSValue.toNumber, JSValue.or, JSValue.truthy]
  have hlt : (availablePoints noNumericStrings profile300.creditPoints).lt
      (offer500.points.toNumber noNumericStrings) = true := by
    rw [hp]
    simp only [offer500, JSValue.toNumber, JSNumber.lt, decide_eq_true_eq]
    norm_num
  have h := redeemOffer_insufficient noNumericStrings offer500
    (RedeemResponse.resolved (some (JSValue.num (JSNumber.fin 0))) JSValue.undefined)
    profile300 hlt
  rw [hp] at h
  exact ⟨hp, hlt, h⟩

/-- The comparison `a < b` is false when `b <= a` is true. -/
theorem lt_eq_false_of_le (a b : JSNumber) (h : b.le a = true) : a.lt b = false := by
  cases a with
  | nan => cases b <;> simp [JSNumber.le] at h
  | fin x =>
    cases b with
    | nan => rfl
    | fin y =>
      simp only [JSNumber.le, decide_eq_true_eq] at h
      simp only [JSNumber.lt, decide_eq_false_iff_not, not_lt]
      exact h

/-- C21, as stated, fails: redeeming the offer of 300 points with 300 available, when the
response carries no `remaining_points`, leaves the balance at 300, not at 300 - 300. -/
theorem redeemOffer_keeps_balance :
    (redeemOffer noNumericStrings offer300
        (RedeemResponse.resolved (some JSValue.undefined) JSValue.undefined)
        profile300).state =
      { creditPoints := JSValue.num (JSNumber.fin 300), cart := [], creditModal := false } ∧
    (redeemOffer noNumericStrings offer300
        (RedeemResponse.resolved (some JSValue.undefined) JSValue.undefined)
        profile300).state.creditPoints ≠ JSValue.num (JSNumber.fin (300 - 300)) := by
  have hp : availablePoints noNumericStrings profile300.creditPoints = JSNumber.fin 300 := by
    simp [availablePoints, profile300, JSValue.toNumber, JSValue.or, JSValue.truthy]
  have hlt : (JSNumber.fin 300).lt (offer300.points.toNumber noNumericStrings) = false := by
    simp [offer300, JSValue.toNumber, JSNumber.lt]
  have hstate : (redeemOffer noNumericStrings offer300
      (RedeemResponse.resolved (some JSValue.undefined) JSValue.undefined) profile300).state =
      { creditPoints := JSValue.num (JSNumber.fin 300), cart := [], creditModal := false } := by
    simp [redeemOffer, hp, hlt, JSValue.nullish]
  refine ⟨hstate, ?_⟩
  rw [hstate]
  simp only [ne_eq, JSValue.num.injEq, JSNumber.fin.injEq]
  norm_num

/-- C21, amended: when the available points are at least `offer.points`, a successful
redemption sends one request, sets the balance to the `remaining_points` of the response, or
leaves it at the available points when the response carries none, clears the cart and
closes the credit modal; the balance is `availablePoints - offer.points` when that is what
the response reports. -/
theorem redeemOffer_success (strToNum : String → JSNumber) (offer : Offer) (st : ProfileState)
    (remaining message : JSValue)
    (h : (offer.points.toNumber strToNum).le (availablePoints strToNum st.creditPoints) = true) :
    redeemOffer strToNum offer (RedeemResponse.resolved (some remaining) message) st =
      { requests := [(offer.id, offer.points)]
        alerts := [ProfileAlert.redeemed offer.name offer.points]
        state :=
          { creditPoints :=
              remaining.nullish (JSValue.num (availablePoints strToNum st.creditPoints))
            cart := []
            creditModal := false } } ∧
    (∀ r : JSNumber, remaining = JSValue.num r →
      (redeemOffer strToNum offer (RedeemResponse.resolved (some remaining) message)
        st).state.creditPoints = JSValue.num r) ∧
    ((remaining = JSValue.undefined ∨ remaining = JSValue.null) →
      (redeemOffer strToNum offer (RedeemResponse.resolved (some remaining) message)
        st).state.creditPoints = JSValue.num (availablePoints strToNum st.creditPoints)) := by
  have hlt := lt_eq_false_of_le _ _ h
  have hres : redeemOffer strToNum offer (RedeemResponse.resolved (some remaining) message) st =
      { requests := [(offer.id, offer.points)]
        alerts := [ProfileAlert.redeemed offer.name offer.points]
        state :=
          { creditPoints :=
              remaining.nullish (JSValue.num (availablePoints strToNum st.creditPoints))
            cart := []
            creditModal := false } } := by
    simp [redeemOffer, hlt]
  refine ⟨hres, ?_, ?_⟩
  · intro r hr
    rw [hres, hr]
    rfl
  · intro hr
    rw [hres]
    rcases hr with hr | hr <;> rw [hr] <;> rfl

/-- Witness for `redeemOffer_success`: the offer of 300 points with 300 available, the
response reporting 0 remaining points. -/
theorem redeemOffer_success_witness :
    (offer300.points.toNumber noNumericStrings).le
      (availablePoints noNumericStrings profile300.creditPoints) = true ∧
    (redeemOffer noNumericStrings offer300
        (RedeemResponse.resolved (some (JSValue.num (JSNumber.fin 0))) JSValue.undefined)
        profile300).state =
      { creditPoints := JSValue.num (JSNumber.fin 0), cart := [], creditModal := false } := by
  have hp : availablePoints noNumericStrings profile300.creditPoints = JSNumber.fin 300 := by
    simp [availablePoints, profile300, JSValue.toNumber, JSValue.or, JSValue.truthy]
  have hle : (offer300.points.toNumber noNumericStrings).le
      (availablePoints noNumericStrings profile300.creditPoints) = true := by
    rw [hp]
    simp [offer300, JSValue.toNumber, JSNumber.le]
  refine ⟨hle, ?_⟩
  rw [(redeemOffer_success noNumericStrings offer300 profile300 (JSValue.num (JSNumber.fin 0))
    JSValue.undefined hle).1]
  rfl

/-- C22: when the payment-update request of pay-remaining fails the list of events is the
one before, and when the `try` block of `redeemOffer` fails (no token, a rejected request, a
response without data) the credit points, the cart and the credit modal are the ones
before. -/
theorem collaborator_failure_unchanged (strToNum : String → JSNumber) :
    (∀ (event : CateringEvent) (payNow : Bool) (prev : List CateringEvent),
      (handlePayRemaining strToNum event payNow false prev).events = prev) ∧
    (∀ (offer : Offer) (st : ProfileState) (detail message : JSValue),
      (redeemOffer strToNum offer (RedeemResponse.tokenFailed detail message) st).state = st ∧
      (redeemOffer strToNum offer (RedeemResponse.rejected detail message) st).state = st ∧
      (redeemOffer strToNum offer (RedeemResponse.resolved none message) st).state = st) := by
  constructor
  · intro event payNow prev
    unfold handlePayRemaining
    simp only
    split
    · rfl
    · split
      · rfl
      · rfl
  · intro offer st detail message
    refine ⟨?_, ?_, ?_⟩ <;>
    · unfold redeemOffer
      simp only
      split <;> rfl

/-! ### Validation of a submission -/

/-- A form with a missing required field fails the first check of the submit handlers. -/
theorem filter_isMissing_length_ne (fields : List JSValue)
    (h : ∃ v ∈ fields, isMissing v = true) : (fields.filter isMissing).length ≠ 0 := by
  obtain ⟨v, hv, hm⟩ := h
  intro hlen
  have hnil := List.length_eq_zero.1 hlen
  have hmem : v ∈ fields.filter isMissing := List.mem_filter.2 ⟨hv, hm⟩
  rw [hnil] at hmem
  cases hmem

/-- The required-field test on a string: the string is blank after trimming. -/
theorem isMissing_str (s : String) : isMissing (JSValue.str s) = true ↔ trim s = "" := by
  by_cases hs : s = ""
  · subst hs
    simp only [isMissing, JSValue.truthy]
    decide
  · simp [isMissing, JSValue.truthy, hs]

/-- Either every required value is present or one is missing. -/
theorem isMissing_cases (fields : List JSValue) :
    (∀ v ∈ fields, isMissing v = false) ∨ (∃ v ∈ fields, isMissing v = true) := by
  by_cases h : ∃ v ∈ fields, isMissing v = true
  · exact Or.inr h
  · refine Or.inl (fun v hv => ?_)
    cases hm : isMissing v with
    | false => rfl
    | true => exact absurd ⟨v, hv, hm⟩ h

/-- C23: in both submit handlers, a form with a required field that is missing or blank after
trimming, or without a selected menu item, is rejected with the validation message and the
state is not changed (in the modal no request is sent either); hence a run that shows the
down-payment prompt had every required field non-blank and at least one item selected. -/
theorem submit_validation (strToNum : String → JSNumber) (menuItems : List MenuItem) :
    (∀ (form : ScheduleForm) (now : JSValue) (payNow : Bool) (st : CateringState),
      ((∃ v ∈ requiredFields form, isMissing v = true) →
        handleScheduleSubmit strToNum form menuItems now payNow st =
          Except.ok { alerts := [Alert.error "Please fill all required fields."], state := st }) ∧
      ((∀ v ∈ requiredFields form, isMissing v = false) → form.selectedItems = [] →
        handleScheduleSubmit strToNum form menuItems now payNow st =
          Except.ok
            { alerts := [Alert.error "Please select at least one menu item."], state := st }) ∧
      (∀ (result : SubmitResult) (d : JSNumber),
        handleScheduleSubmit strToNum form menuItems now payNow st = Except.ok result →
        Alert.downPaymentRequired d ∈ result.alerts →
        (∀ v ∈ requiredFields form, isMissing v = false) ∧ form.selectedItems ≠ [])) ∧
    (∀ (payNow : Bool) (response : CreateResponse) (st : ModalState),
      ((∃ v ∈ requiredFieldsModal st.scheduleForm, isMissing v = true) →
        handleSubmit strToNum menuItems payNow response st =
          Except.ok
            { alerts := [Alert.error "Please fill all required fields."], serverMessage := none,
              requests := [], state := st }) ∧
      ((∀ v ∈ requiredFieldsModal st.scheduleForm, isMissing v = false) →
        st.scheduleForm.selectedItems = [] →
        handleSubmit strToNum menuItems payNow response st =
          Except.ok
            { alerts := [Alert.error "Please select at least one menu item."],
              serverMessage := none, requests := [], state := st }) ∧
      (∀ (result : ModalResult) (d : JSNumber),
        handleSubmit strToNum menuItems payNow response st = Except.ok result →
        Alert.downPaymentRequired d ∈ result.alerts →
        (∀ v ∈ requiredFieldsModal st.scheduleForm, isMissing v = false) ∧
        st.scheduleForm.selectedItems ≠ [])) ∧
    (∀ s : String, isMissing (JSValue.str s) = true ↔ trim s = "") ∧
    isMissing JSValue.undefined = true ∧ isMissing JSValue.null = true := by
  refine ⟨?_, ?_, isMissing_str, rfl, rfl⟩
  · intro form now payNow st
    have h1 : (∃ v ∈ requiredFields form, isMissing v = true) →
        handleScheduleSubmit strToNum form menuItems now payNow st =
          Except.ok { alerts := [Alert.error "Please fill all required fields."], state := st } := by
      intro h
      simp [handleScheduleSubmit, filter_isMissing_length_ne _ h]
    have h2 : (∀ v ∈ requiredFields form, isMissing v = false) → form.selectedItems = [] →
        handleScheduleSubmit strToNum form menuItems now payNow st =
          Except.ok
            { alerts := [Alert.error "Please select at least one menu item."], state := st } := by
      intro h hsel
      simp [handleScheduleSubmit, filter_isMissing_length _ h, hsel]
    refine ⟨h1, h2, ?_⟩
    intro result d hres hmem
    rcases isMissing_cases (requiredFields form) with hall | hex
    · refine ⟨hall, fun hsel => ?_⟩
      rw [h2 hall hsel] at hres
      simp only [Except.ok.injEq] at hres
      rw [← hres] at hmem
      simp at hmem
    · rw [h1 hex] at hres
      simp only [Except.ok.injEq] at hres
      rw [← hres] at hmem
      simp at hmem
  · intro payNow response st
    have h1 : (∃ v ∈ requiredFieldsModal st.scheduleForm, isMissing v = true) →
        handleSubmit strToNum menuItems payNow response st =
          Except.ok
            { alerts := [Alert.error "Please fill all required fields."], serverMessage := none,
              requests := [], state := st } := by
      intro h
      simp [handleSubmit, filter_isMissing_length_ne _ h]
    have h2 : (∀ v ∈ requiredFieldsModal st.scheduleForm, isMissing v = false) →
        st.scheduleForm.selectedItems = [] →
        handleSubmit strToNum menuItems payNow response st =
          Except.ok
            { alerts := [Alert.error "Please select at least one menu item."],
              serverMessage := none, requests := [], state := st } := by
      intro h hsel
      simp [handleSubmit, filter_isMissing_length _ h, hsel]
    refine ⟨h1, h2, ?_⟩
    intro result d hres hmem
    rcases isMissing_cases (requiredFieldsModal st.scheduleForm) with hall | hex
    · refine ⟨hall, fun hsel => ?_⟩
      rw [h2 hall hsel] at hres
      simp only [Except.ok.injEq] at hres
      rw [← hres] at hmem
      simp at hmem
    · rw [h1 hex] at hres
      simp only [Except.ok.injEq] at hres
      rw [← hres] at hmem
      simp at hmem

/-- Witness for `submit_validation`: the form with a blank location and the form without
selection are rejected, in `catering.jsx` and in the modal. -/
theorem submit_validation_witness :
    (∃ v ∈ requiredFields blankLocationForm, isMissing v = true) ∧
    handleScheduleSubmit noNumericStrings blankLocationForm scenarioMenu JSValue.undefined true
        { cateringEvents := [], modalVisible := true } =
      Except.ok
        { alerts := [Alert.error "Please fill all required fields."],
          state := { cateringEvents := [], modalVisible := true } } ∧
    handleScheduleSubmit noNumericStrings emptySelectionForm scenarioMenu JSValue.undefined true
        { cateringEvents := [], modalVisible := true } =
      Except.ok
        { alerts := [Alert.error "Please select at least one menu item."],
          state := { cateringEvents := [], modalVisible := true } } ∧
    handleSubmit noNumericStrings scenarioMenu true CreateResponse.rejected
        { scenarioModalState with scheduleForm := blankLocationForm } =
      Except.ok
        { alerts := [Alert.error "Please fill all required fields."], serverMessage := none,
          requests := [], state := { scenarioModalState with scheduleForm := blankLocationForm } } ∧
    handleSubmit noNumericStrings scenarioMenu true CreateResponse.rejected
        { scenarioModalState with scheduleForm := emptySelectionForm } =
      Except.ok
        { alerts := [Alert.error "Please select at least one menu item."], serverMessage := none,
          requests := [],
          state := { scenarioModalState with scheduleForm := emptySelectionForm } } ∧
    ((∀ v ∈ requiredFields scenarioForm, isMissing v = false) ∧
      scenarioForm.selectedItems ≠ []) := by
  have h := submit_validation noNumericStrings scenarioMenu
  have hitems : mapItems (lineItem scenarioMenu) scenarioForm.selectedItems =
      Except.ok scenarioLineItems := by
    simp [mapItems, lineItem, scenarioMenu, scenarioForm, scenarioLineItems, JSValue.strictEq,
      JSValue.or, JSValue.truthy]
  have hok := handleScheduleSubmit_ok noNumericStrings scenarioForm scenarioMenu
    JSValue.undefined { cateringEvents := [], modalVisible := true } scenarioLineItems
    (by decide) (by simp [scenarioForm]) hitems
  have hprompt := (h.1 scenarioForm JSValue.undefined true
    { cateringEvents := [], modalVisible := true }).2.2 _
    (downPayment (totalPrice noNumericStrings scenarioLineItems)) hok (by simp)
  have hblank : ∃ v ∈ requiredFields blankLocationForm, isMissing v = true :=
    ⟨JSValue.str "   ", by decide, by decide⟩
  have hblankM : ∃ v ∈ requiredFieldsModal blankLocationForm, isMissing v = true :=
    ⟨JSValue.str "   ", by decide, by decide⟩
  exact ⟨hblank,
    (h.1 blankLocationForm JSValue.undefined true _).1 hblank,
    (h.1 emptySelectionForm JSValue.undefined true _).2.1 (by decide) rfl,
    (h.2.1 true CreateResponse.rejected
      { scenarioModalState with scheduleForm := blankLocationForm }).1 hblankM,
    (h.2.1 true CreateResponse.rejected
      { scenarioModalState with scheduleForm := emptySelectionForm }).2.1 (by decide) rfl,
    hprompt⟩


/-! ### The quantity of a menu item -/

/-- The quantity written when the quantity input loses focus, for digits that write a number
of at most `2 ^ 53`: that number, or 1 when it is zero or there is no digit. -/
theorem blurQuantity_parseIntDigits (s : String) (item : MenuItem)
    (h : decimalValue s ≤ 2 ^ 53) :
    (parseIntDigits s).map (fun parsed => blurQuantity parsed item) =
      some { item with
        selectedQuantity :=
          JSValue.num (JSNumber.fin
            ((if decimalValue s = 0 then 1 else decimalValue s : ℕ) : ℚ)) } := by
  unfold parseIntDigits
  by_cases hs : s.data = []
  · have hv : decimalValue s = 0 := by simp [decimalValue, hs]
    simp [hs, hv, blurQuantity, JSValue.or, JSValue.truthy]
  · rw [if_neg hs, if_pos h]
    by_cases hn : decimalValue s = 0
    · simp [hn, blurQuantity, JSValue.or, JSValue.truthy]
    · simp [hn, blurQuantity, JSValue.or, JSValue.truthy]

/-- A submission of the modal that passes the checks and is confirmed shows the down-payment
prompt first and sends the payload. -/
theorem handleSubmit_prompted (strToNum : String → JSNumber) (menuItems : List MenuItem)
    (response : CreateResponse) (st : ModalState) (data : List ItemRecord)
    (hreq : ∀ v ∈ requiredFieldsModal st.scheduleForm, isMissing v = false)
    (hsel : st.scheduleForm.selectedItems ≠ [])
    (hitems : mapItems (lineItemModal menuItems) st.scheduleForm.selectedItems = Except.ok data) :
    ∃ result : ModalResult,
      handleSubmit strToNum menuItems true response st = Except.ok result ∧
      result.alerts.head? =
        some (Alert.downPaymentRequired (downPayment (totalPrice strToNum data))) ∧
      result.requests = [buildPayload strToNum st.scheduleForm data] := by
  have hlen : st.scheduleForm.selectedItems.length ≠ 0 := by
    intro h
    exact hsel (List.length_eq_zero.1 h)
  cases response with
  | resolved success d message =>
    by_cases hs : success.truthy = true
    · have h : handleSubmit strToNum menuItems true
          (CreateResponse.resolved success d message) st =
          Except.ok
            { alerts := [Alert.downPaymentRequired (downPayment (totalPrice strToNum data)),
                Alert.success "Event scheduled successfully!"]
              serverMessage := none
              requests := [buildPayload strToNum st.scheduleForm data]
              state :=
                { cateringEvents := st.cateringEvents ++ [d]
                  scheduleForm := resetForm st.scheduleForm
                  loading := false
                  modalVisible := false } } := by
        simp [handleSubmit, filter_isMissing_length _ hreq, hlen, hitems, hs]
      exact ⟨_, h, rfl, rfl⟩
    · have h : handleSubmit strToNum menuItems true
          (CreateResponse.resolved success d message) st =
          Except.ok
            { alerts := [Alert.downPaymentRequired (downPayment (totalPrice strToNum data))]
              serverMessage := some message
              requests := [buildPayload strToNum st.scheduleForm data]
              state := { st with loading := false } } := by
        simp [handleSubmit, filter_isMissing_length _ hreq, hlen, hitems, hs]
      exact ⟨_, h, rfl, rfl⟩
  | rejected =>
    have h : handleSubmit strToNum menuItems true CreateResponse.rejected st =
        Except.ok
          { alerts := [Alert.downPaymentRequired (downPayment (totalPrice strToNum data)),
              Alert.error "Something went wrong."]
            serverMessage := none
            requests := [buildPayload strToNum st.scheduleForm data]
            state := { st with loading := false } } := by
      simp [handleSubmit, filter_isMissing_length _ hreq, hlen, hitems]
    exact ⟨_, h, rfl, rfl⟩

/-- The line items built by the modal after `0` is typed as the quantity of the entry 7. -/
theorem mapItems_zeroQuantityMenu :
    mapItems (lineItemModal zeroQuantityMenu) scenarioForm.selectedItems =
      Except.ok
        [{ menu_item := JSValue.num (JSNumber.fin 7)
           name := JSValue.str "Buffet"
           quantity := JSValue.num (JSNumber.fin 1)
           unit_price := JSValue.num (JSNumber.fin 1000)
           image := JSValue.null }] := by
  have hq : parseIntDigits (quantityInput "0") = some (JSNumber.fin 0) := by
    have h0 : quantityInput "0" = "0" := by decide
    have hv : decimalValue "0" = 0 := by decide
    rw [h0]
    simp [parseIntDigits, hv]
  simp [mapItems, lineItemModal, zeroQuantityMenu, typeQuantity, blurQuantity, hq, scenarioMenu,
    scenarioForm, JSValue.strictEq, JSValue.or, JSValue.truthy]

/-- C24, as stated, fails: after `0` is typed as the quantity of the selected entry, the
submission of the modal is not rejected: it shows the down-payment prompt, no error dialog,
sends the payload with the quantity 1 and appends the created event. -/
theorem zero_quantity_not_rejected :
    handleSubmit noNumericStrings zeroQuantityMenu true
        (CreateResponse.resolved (JSValue.bool true) scenarioEvent JSValue.undefined)
        scenarioModalState =
      Except.ok
        { alerts := [Alert.downPaymentRequired (JSNumber.fin 500),
            Alert.success "Event scheduled successfully!"]
          serverMessage := none
          requests :=
            [buildPayload noNumericStrings scenarioForm
              [{ menu_item := JSValue.num (JSNumber.fin 7)
                 name := JSValue.str "Buffet"
                 quantity := JSValue.num (JSNumber.fin 1)
                 unit_price := JSValue.num (JSNumber.fin 1000)
                 image := JSValue.null }]]
          state :=
            { cateringEvents := [scenarioEvent]
              scheduleForm := resetForm scenarioForm
              loading := false
              modalVisible := false } } := by
  have hreq : ((requiredFieldsModal scenarioModalState.scheduleForm).filter isMissing).length = 0 :=
    filter_isMissing_length _ (by decide)
  have hlen : scenarioModalState.scheduleForm.selectedItems.length ≠ 0 := by
    simp [scenarioModalState, scenarioForm]
  have hitems : mapItems (lineItemModal zeroQuantityMenu)
      scenarioModalState.scheduleForm.selectedItems = _ := mapItems_zeroQuantityMenu
  have htotal : totalPrice noNumericStrings
      [{ menu_item := JSValue.num (JSNumber.fin 7)
         name := JSValue.str "Buffet"
         quantity := JSValue.num (JSNumber.fin 1)
         unit_price := JSValue.num (JSNumber.fin 1000)
         image := JSValue.null }] = JSNumber.fin 1000 := by
    simp [totalPrice, JSValue.toNumber, JSNumber.mul, JSNumber.add]
  have hdown : downPayment (JSNumber.fin 1000) = JSNumber.fin 500 := by
    simp only [downPayment, JSNumber.mul, JSNumber.fin.injEq]
    norm_num
  simp only [handleSubmit, hreq, hlen, hitems, htotal, hdown]
  simp [JSValue.truthy, scenarioModalState]

/-- C24, amended: a quantity typed for a menu entry is never rejected. The input keeps the
digits only, so a minus sign is dropped, and when the input loses focus an empty or zero
quantity is replaced by 1: for digits that write a number of at most `2 ^ 53` the quantity
written is that number, or 1 when it is zero or there is no digit, hence a positive whole
number (1 for `0`, 1 for the empty text, 5 for `-5`); it is the quantity of the line item the
modal builds, and a form that passes the checks is submitted with it. -/
theorem typeQuantity_positive (val : String) (item : MenuItem)
    (hval : decimalValue (quantityInput val) ≤ 2 ^ 53) :
    (∃ n : ℕ, 1 ≤ n ∧
      n = (if decimalValue (quantityInput val) = 0 then 1
        else decimalValue (quantityInput val)) ∧
      typeQuantity val item =
        some { item with selectedQuantity := JSValue.num (JSNumber.fin n) }) ∧
    typeQuantity "0" item =
      some { item with selectedQuantity := JSValue.num (JSNumber.fin 1) } ∧
    typeQuantity "" item =
      some { item with selectedQuantity := JSValue.num (JSNumber.fin 1) } ∧
    typeQuantity "-5" item =
      some { item with selectedQuantity := JSValue.num (JSNumber.fin 5) } ∧
    (∀ (typed : MenuItem) (menuItems : List MenuItem) (itemId : JSValue),
      typeQuantity val item = some typed →
      menuItems.find? (fun i => i.id.strictEq itemId) = some typed →
      ∃ (r : ItemRecord) (n : ℕ), lineItemModal menuItems itemId = Except.ok r ∧
        r.quantity = JSValue.num (JSNumber.fin n) ∧ 1 ≤ n) ∧
    (∀ (strToNum : String → JSNumber) (menuItems : List MenuItem) (response : CreateResponse)
      (st : ModalState) (data : List ItemRecord),
      (∀ v ∈ requiredFieldsModal st.scheduleForm, isMissing v = false) →
      st.scheduleForm.selectedItems ≠ [] →
      mapItems (lineItemModal menuItems) st.scheduleForm.selectedItems = Except.ok data →
      ∃ result : ModalResult,
        handleSubmit strToNum menuItems true response st = Except.ok result ∧
        result.alerts.head? =
          some (Alert.downPaymentRequired (downPayment (totalPrice strToNum data))) ∧
        result.requests = [buildPayload strToNum st.scheduleForm data]) := by
  have h0 : quantityInput "0" = "0" := by decide
  have he : quantityInput "" = "" := by decide
  have h5 : quantityInput "-5" = "5" := by decide
  have hv0 : decimalValue "0" = 0 := by decide
  have hve : decimalValue "" = 0 := by decide
  have hv5 : decimalValue "5" = 5 := by decide
  have hmain := blurQuantity_parseIntDigits (quantityInput val) item hval
  have hpos : 1 ≤ (if decimalValue (quantityInput val) = 0 then 1
      else decimalValue (quantityInput val)) := by
    split
    · exact le_refl 1
    · omega
  refine ⟨⟨_, hpos, rfl, hmain⟩, ?_, ?_, ?_, ?_, ?_⟩
  · have h := blurQuantity_parseIntDigits "0" item (by rw [hv0]; exact Nat.zero_le _)
    simpa [typeQuantity, h0, hv0] using h
  · have h := blurQuantity_parseIntDigits "" item (by rw [hve]; exact Nat.zero_le _)
    simpa [typeQuantity, he, hve] using h
  · have h := blurQuantity_parseIntDigits "5" item (by rw [hv5]; norm_num)
    simpa [typeQuantity, h5, hv5] using h
  · intro typed menuItems itemId htyped hfind
    have hq : typed.selectedQuantity =
        JSValue.num (JSNumber.fin
          ((if decimalValue (quantityInput val) = 0 then 1
            else decimalValue (quantityInput val) : ℕ) : ℚ)) := by
      have h : typeQuantity val item = _ := hmain
      rw [htyped] at h
      rw [Option.some.inj h]
    have hline : lineItemModal menuItems itemId =
        Except.ok
          { menu_item := typed.id
            name := typed.name
            quantity := typed.selectedQuantity
            unit_price := typed.price.or (JSValue.num (JSNumber.fin 0))
            image := typed.image.or JSValue.null } := by
      simp only [lineItemModal, hfind]
    exact ⟨_, _, hline, hq, hpos⟩
  · intro strToNum menuItems response st data hreq hsel hitems
    exact handleSubmit_prompted strToNum menuItems response st data hreq hsel hitems

/-- Witness for `typeQuantity_positive`: the scenario menu after `0` is typed as the quantity
of its entry, submitted with the scenario form. -/
theorem typeQuantity_positive_witness :
    decimalValue (quantityInput "0") ≤ 2 ^ 53 ∧
    (∃ (r : ItemRecord) (n : ℕ),
      lineItemModal zeroQuantityMenu (JSValue.num (JSNumber.fin 7)) = Except.ok r ∧
      r.quantity = JSValue.num (JSNumber.fin n) ∧ 1 ≤ n) ∧
    ∃ result : ModalResult,
      handleSubmit noNumericStrings zeroQuantityMenu true CreateResponse.rejected
        scenarioModalState = Except.ok result ∧
      result.alerts.head? = some (Alert.downPaymentRequired (JSNumber.fin 500)) := by
  have hval : decimalValue (quantityInput "0") ≤ 2 ^ 53 := by decide
  have h := typeQuantity_positive "0"
    { id := JSValue.num (JSNumber.fin 7)
      name := JSValue.str "Buffet"
      price := JSValue.num (JSNumber.fin 1000)
      selectedQuantity := JSValue.num (JSNumber.fin 2) } hval
  have hmenu : zeroQuantityMenu =
      [{ id := JSValue.num (JSNumber.fin 7)
         name := JSValue.str "Buffet"
         price := JSValue.num (JSNumber.fin 1000)
         selectedQuantity := JSValue.num (JSNumber.fin 1) }] := by
    simp only [zeroQuantityMenu, scenarioMenu, List.filterMap_cons, h.2.1, List.filterMap_nil]
  have hfind : zeroQuantityMenu.find? (fun i => i.id.strictEq (JSValue.num (JSNumber.fin 7))) =
      some
        { id := JSValue.num (JSNumber.fin 7)
          name := JSValue.str "Buffet"
          price := JSValue.num (JSNumber.fin 1000)
          selectedQuantity := JSValue.num (JSNumber.fin 1) } := by
    rw [hmenu]
    simp [JSValue.strictEq]
  obtain ⟨result, hres, hhead, _⟩ := h.2.2.2.2.2 noNumericStrings zeroQuantityMenu
    CreateResponse.rejected scenarioModalState _ (by decide)
    (by simp [scenarioModalState, scenarioForm]) mapItems_zeroQuantityMenu
  refine ⟨hval, h.2.2.2.2.1 _ zeroQuantityMenu _ h.2.1 hfind, result, hres, ?_⟩
  rw [hhead]
  have htotal : totalPrice noNumericStrings
      [{ menu_item := JSValue.num (JSNumber.fin 7)
         name := JSValue.str "Buffet"
         quantity := JSValue.num (JSNumber.fin 1)
         unit_price := JSValue.num (JSNumber.fin 1000)
         image := JSValue.null }] = JSNumber.fin 1000 := by
    simp [totalPrice, JSValue.toNumber, JSNumber.mul, JSNumber.add]
  rw [htotal]
  simp only [downPayment, JSNumber.mul, Option.some.injEq, Alert.downPaymentRequired.injEq,
    JSNumber.fin.injEq]
  norm_num

/-! ### Loading the orders -/

/-- The status key of an order whose status is a string or is missing. -/
theorem statusKey_ok (o : Order)
    (h : o.status = JSValue.undefined ∨ o.status = JSValue.null ∨ ∃ s, o.status = JSValue.str s) :
    ∃ k, statusKey o = Except.ok k := by
  rcases h with h | h | ⟨s, h⟩
  · exact ⟨toLowerCase "", by simp [statusKey, h, JSValue.nullish, callToLowerCase]⟩
  · exact ⟨toLowerCase "", by simp [statusKey, h, JSValue.nullish, callToLowerCase]⟩
  · exact ⟨toLowerCase s, by simp [statusKey, h, JSValue.nullish, callToLowerCase]⟩

/-- The three lists of `loadOrders` when every status key is computed. -/
theorem loadOrders_filter (list : List Order) (key : Order → String)
    (hkey : ∀ o ∈ list, statusKey o = Except.ok (key o)) :
    loadOrders (OrdersResponse.resolved (some list)) =
      { orders := list.filter
          (fun o => decide (key o ≠ "completed") && decide (key o ≠ "cancelled"))
        completedOrders := list.filter (fun o => decide (key o = "completed"))
        cancelledOrders := list.filter (fun o => decide (key o = "cancelled")) } := by
  have h1 := filterItems_ok isActiveOrder
    (fun o => decide (key o ≠ "completed") && decide (key o ≠ "cancelled")) list
    (fun o ho => by simp only [isActiveOrder, hkey o ho])
  have h2 := filterItems_ok isCompletedOrder (fun o => decide (key o = "completed")) list
    (fun o ho => by simp only [isCompletedOrder, hkey o ho])
  have h3 := filterItems_ok isCancelledOrder (fun o => decide (key o = "cancelled")) list
    (fun o ho => by simp only [isCancelledOrder, hkey o ho])
  simp only [loadOrders, h1, h2, h3]

/-- Three filters whose predicates exclude each other and cover the list split its length. -/
theorem length_three_filters {α : Type} (l : List α) (p q r : α → Bool)
    (h : ∀ x ∈ l, (p x = true ∧ q x = false ∧ r x = false) ∨
      (p x = false ∧ q x = true ∧ r x = false) ∨ (p x = false ∧ q x = false ∧ r x = true)) :
    (l.filter p).length + (l.filter q).length + (l.filter r).length = l.length := by
  induction l with
  | nil => rfl
  | cons x rest ih =>
    have ih2 := ih (fun y hy => h y (List.mem_cons_of_mem x hy))
    rcases h x (List.mem_cons_self x rest) with ⟨hp, hq, hr⟩ | ⟨hp, hq, hr⟩ | ⟨hp, hq, hr⟩ <;>
    · simp only [List.filter_cons, hp, hq, hr, List.length_cons, if_true, if_false,
        Bool.false_eq_true]
      omega

/-- An order whose status is neither a string nor missing makes the filter throw. -/
theorem filterItems_error {α : Type} (p : α → Except JSError Bool) (l : List α)
    (h : ∃ x ∈ l, ∃ e, p x = Except.error e) : ∃ e, filterItems p l = Except.error e := by
  induction l with
  | nil =>
    obtain ⟨x, hx, _⟩ := h
    cases hx
  | cons x rest ih =>
    unfold filterItems
    cases hp : p x with
    | error e => exact ⟨e, rfl⟩
    | ok b =>
      have hrest : ∃ z ∈ rest, ∃ e, p z = Except.error e := by
        obtain ⟨z, hz, e, he⟩ := h
        rcases List.mem_cons.mp hz with hz | hz
        · subst hz
          rw [hp] at he
          cases he
        · exact ⟨z, hz, e, he⟩
      obtain ⟨e, he⟩ := ih hrest
      exact ⟨e, by simp only [he]⟩

/-- When the status of one fetched order is neither a string nor missing, the first filter of
`loadOrders` throws and the `catch` empties the three lists. -/
theorem loadOrders_untyped (list : List Order)
    (h : ∃ o ∈ list, o.status ≠ JSValue.undefined ∧ o.status ≠ JSValue.null ∧
      ∀ s, o.status ≠ JSValue.str s) :
    (loadOrders (OrdersResponse.resolved (some list))).orders = [] ∧
    (loadOrders (OrdersResponse.resolved (some list))).completedOrders = [] ∧
    (loadOrders (OrdersResponse.resolved (some list))).cancelledOrders = [] := by
  obtain ⟨o, ho, h1, h2, h3⟩ := h
  have hkey : ∃ e, statusKey o = Except.error e := by
    unfold statusKey
    cases hs : o.status with
    | undefined => exact absurd hs h1
    | null => exact absurd hs h2
    | str s => exact absurd hs (h3 s)
    | bool b => exact ⟨_, rfl⟩
    | num n => exact ⟨_, rfl⟩
    | host n => exact ⟨_, rfl⟩
  obtain ⟨e, he⟩ := hkey
  obtain ⟨e2, he2⟩ := filterItems_error isActiveOrder list
    ⟨o, ho, e, by simp only [isActiveOrder, he]⟩
  simp only [loadOrders, he2, and_self]

/-- C25, as stated, fails: of the two fetched orders, one with the status `Pending` and one
whose status is the number 5, none is in any of the three lists. -/
theorem loadOrders_drops_orders :
    numericStatusOrders.length = 2 ∧
    (loadOrders (OrdersResponse.resolved (some numericStatusOrders))).orders = [] ∧
    (loadOrders (OrdersResponse.resolved (some numericStatusOrders))).completedOrders = [] ∧
    (loadOrders (OrdersResponse.resolved (some numericStatusOrders))).cancelledOrders = [] := by
  have h1 : isActiveOrder { id := JSValue.num (JSNumber.fin 1), status := JSValue.str "Pending" } =
      Except.ok true := by decide
  have h2 : isActiveOrder
      { id := JSValue.num (JSNumber.fin 2), status := JSValue.num (JSNumber.fin 5) } =
      Except.error (JSError.typeError "toLowerCase is not a function") := rfl
  refine ⟨rfl, ?_⟩
  simp only [loadOrders, numericStatusOrders, filterItems, h1, h2, and_self]

/-- C25, amended: for a fetched list whose statuses are strings or missing, `loadOrders` puts
every order in exactly one of the three lists (completed or cancelled by its lower-cased
status, active otherwise, a missing status included), the three lengths add up to the length
of the fetched list, and each list is a subsequence of it; when the status of some fetched
order is neither a string nor missing, and when the fetch fails or does not give an array,
the three lists are empty. -/
theorem loadOrders_partition (list : List Order) :
    ((∀ o ∈ list,
        o.status = JSValue.undefined ∨ o.status = JSValue.null ∨
          ∃ s, o.status = JSValue.str s) →
      ((∀ o ∈ list, ∃ k, statusKey o = Except.ok k ∧
        ((k ≠ "completed" ∧ k ≠ "cancelled" ∧
            o ∈ (loadOrders (OrdersResponse.resolved (some list))).orders ∧
            o ∉ (loadOrders (OrdersResponse.resolved (some list))).completedOrders ∧
            o ∉ (loadOrders (OrdersResponse.resolved (some list))).cancelledOrders) ∨
          (k = "completed" ∧
            o ∉ (loadOrders (OrdersResponse.resolved (some list))).orders ∧
            o ∈ (loadOrders (OrdersResponse.resolved (some list))).completedOrders ∧
            o ∉ (loadOrders (OrdersResponse.resolved (some list))).cancelledOrders) ∨
          (k = "cancelled" ∧
            o ∉ (loadOrders (OrdersResponse.resolved (some list))).orders ∧
            o ∉ (loadOrders (OrdersResponse.resolved (some list))).completedOrders ∧
            o ∈ (loadOrders (OrdersResponse.resolved (some list))).cancelledOrders))) ∧
      (∀ o ∈ list, (o.status = JSValue.undefined ∨ o.status = JSValue.null) →
        o ∈ (loadOrders (OrdersResponse.resolved (some list))).orders) ∧
      (loadOrders (OrdersResponse.resolved (some list))).orders.length +
          (loadOrders (OrdersResponse.resolved (some list))).completedOrders.length +
          (loadOrders (OrdersResponse.resolved (some list))).cancelledOrders.length =
        list.length ∧
      (loadOrders (OrdersResponse.resolved (some list))).orders.Sublist list ∧
      (loadOrders (OrdersResponse.resolved (some list))).completedOrders.Sublist list ∧
      (loadOrders (OrdersResponse.resolved (some list))).cancelledOrders.Sublist list)) ∧
    ((∃ o ∈ list, o.status ≠ JSValue.undefined ∧ o.status ≠ JSValue.null ∧
        ∀ s, o.status ≠ JSValue.str s) →
      (loadOrders (OrdersResponse.resolved (some list))).orders = [] ∧
      (loadOrders (OrdersResponse.resolved (some list))).completedOrders = [] ∧
      (loadOrders (OrdersResponse.resolved (some list))).cancelledOrders = []) ∧
    (loadOrders OrdersResponse.rejected).orders = [] ∧
    (loadOrders OrdersResponse.rejected).completedOrders = [] ∧
    (loadOrders OrdersResponse.rejected).cancelledOrders = [] ∧
    (loadOrders (OrdersResponse.resolved none)).orders = [] ∧
    (loadOrders (OrdersResponse.resolved none)).completedOrders = [] ∧
    (loadOrders (OrdersResponse.resolved none)).cancelledOrders = [] := by
  refine ⟨?_, loadOrders_untyped list, rfl, rfl, rfl, rfl, rfl, rfl⟩
  · intro htyped
    obtain ⟨key, hkeyFun⟩ : ∃ key : Order → String, ∀ o ∈ list, statusKey o = Except.ok (key o) := by
      refine ⟨fun o => toLowerCase (match o.status with
          | JSValue.str s => s
          | _ => ""), ?_⟩
      intro o ho
      rcases htyped o ho with h | h | ⟨s, h⟩ <;>
        simp [statusKey, h, JSValue.nullish, callToLowerCase]
    rw [loadOrders_filter list key hkeyFun]
    refine ⟨?_, ?_, ?_, List.filter_sublist _, List.filter_sublist _, List.filter_sublist _⟩
    rotate_left
    · intro o ho hmiss
      have hk : statusKey o = Except.ok (toLowerCase "") := by
        rcases hmiss with h | h <;> simp [statusKey, h, JSValue.nullish, callToLowerCase]
      have hko : key o = toLowerCase "" := by
        have h := hkeyFun o ho
        rw [hk] at h
        exact (Except.ok.inj h).symm
      have h1 : key o ≠ "completed" := by rw [hko]; decide
      have h2 : key o ≠ "cancelled" := by rw [hko]; decide
      simp [List.mem_filter, ho, h1, h2]
    rotate_left
    · intro o ho
      refine ⟨key o, hkeyFun o ho, ?_⟩
      by_cases h1 : key o = "completed"
      · have h2 : key o ≠ "cancelled" := by rw [h1]; decide
        exact Or.inr (Or.inl ⟨h1, by simp [List.mem_filter, h1], by simp [List.mem_filter, ho, h1],
          by simp [List.mem_filter, h2]⟩)
      · by_cases h2 : key o = "cancelled"
        · exact Or.inr (Or.inr ⟨h2, by simp [List.mem_filter, h2], by simp [List.mem_filter, h1],
            by simp [List.mem_filter, ho, h2]⟩)
        · exact Or.inl ⟨h1, h2, by simp [List.mem_filter, ho, h1, h2], by simp [List.mem_filter, h1],
            by simp [List.mem_filter, h2]⟩
    · apply length_three_filters
      intro o _
      by_cases h1 : key o = "completed"
      · have h2 : key o ≠ "cancelled" := by rw [h1]; decide
        exact Or.inr (Or.inl ⟨by simp [h1], by simp [h1], by simp [h2]⟩)
      · by_cases h2 : key o = "cancelled"
        · exact Or.inr (Or.inr ⟨by simp [h2], by simp [h1], by simp [h2]⟩)
        · exact Or.inl ⟨by simp [h1, h2], by simp [h1], by simp [h2]⟩

/-- Witness for `loadOrders_partition`: the four fetched orders are split 2, 1, 1. -/
theorem loadOrders_partition_witness :
    (∀ o ∈ fetchedOrders,
      o.status = JSValue.undefined ∨ o.status = JSValue.null ∨ ∃ s, o.status = JSValue.str s) ∧
    (loadOrders (OrdersResponse.resolved (some fetchedOrders))).orders.length +
        (loadOrders (OrdersResponse.resolved (some fetchedOrders))).completedOrders.length +
        (loadOrders (OrdersResponse.resolved (some fetchedOrders))).cancelledOrders.length = 4 ∧
    (loadOrders (OrdersResponse.resolved (some fetchedOrders))).orders.length = 2 ∧
    (loadOrders (OrdersResponse.resolved (some fetchedOrders))).completedOrders.length = 1 ∧
    (loadOrders (OrdersResponse.resolved (some fetchedOrders))).cancelledOrders.length = 1 := by
  have htyped : ∀ o ∈ fetchedOrders,
      o.status = JSValue.undefined ∨ o.status = JSValue.null ∨ ∃ s, o.status = JSValue.str s := by
    intro o ho
    simp only [fetchedOrders, List.mem_cons, List.mem_singleton, List.not_mem_nil, or_false] at ho
    rcases ho with h | h | h | h <;> subst h
    · exact Or.inr (Or.inr ⟨_, rfl⟩)
    · exact Or.inr (Or.inr ⟨_, rfl⟩)
    · exact Or.inr (Or.inr ⟨_, rfl⟩)
    · exact Or.inl rfl
  exact ⟨htyped, ((loadOrders_partition fetchedOrders).1 htyped).2.2.1, by decide, by decide,
    by decide⟩

/-! ### The totals of the order card and of the order-details modal -/

/-- Two callbacks that agree on the elements of a list give the same `reduce`. -/
theorem reduce_congr {α β : Type} (f g : β → α → Except JSError β) (xs : List α)
    (h : ∀ x ∈ xs, ∀ acc, f acc x = g acc x) (acc : β) : reduce f xs acc = reduce g xs acc := by
  induction xs generalizing acc with
  | nil => rfl
  | cons x rest ih =>
    simp only [reduce]
    rw [h x (List.mem_cons_self x rest) acc]
    cases g acc x with
    | error e => rfl
    | ok acc1 => exact ih (fun y hy => h y (List.mem_cons_of_mem x hy)) acc1

/-- The part of C27 that holds: the card and the modal show the same total for an order
whose items all carry a truthy quantity (the two callbacks differ in the default of the
quantity only). -/
theorem modalTotal_eq_orderTotal (strToNum : String → JSNumber) (order : Order)
    (hq : ∀ xs, order.items = some xs →
      ∀ x ∈ xs, ∀ q, x.get ItemRecord.quantity = Except.ok q → q.truthy = true) :
    modalTotal strToNum order = orderTotal strToNum order := by
  unfold modalTotal orderTotal
  cases hitems : order.items with
  | none => rfl
  | some xs =>
    apply reduce_congr
    intro x hx acc
    simp only [addModalAmount, addItemAmount]
    cases hp : x.get ItemRecord.price with
    | error e => rfl
    | ok p =>
      cases hg : x.get ItemRecord.quantity with
      | error e => rfl
      | ok q =>
        have ht := hq xs hitems x hx q hg
        simp only [JSValue.or, ht, if_true]

/-- C27 fails on an order with an item of price 100 and no quantity: the order card totals
it to 0 (the quantity defaults to 0), the order-details modal to 100 (the quantity defaults
to 1). -/
theorem card_modal_totals_differ :
    orderTotal noNumericStrings noQuantityOrder = Except.ok (JSNumber.fin 0) ∧
    modalTotal noNumericStrings noQuantityOrder = Except.ok (JSNumber.fin 100) ∧
    orderTotal noNumericStrings noQuantityOrder ≠ modalTotal noNumericStrings noQuantityOrder := by
  have h1 : orderTotal noNumericStrings noQuantityOrder = Except.ok (JSNumber.fin 0) := by
    simp only [orderTotal, noQuantityOrder, reduce, addItemAmount, JSItem.get, JSValue.or,
      JSValue.truthy, JSValue.toNumber, JSNumber.add, JSNumber.mul]
    norm_num
  have h2 : modalTotal noNumericStrings noQuantityOrder = Except.ok (JSNumber.fin 100) := by
    simp only [modalTotal, noQuantityOrder, reduce, addModalAmount, JSItem.get, JSValue.or,
      JSValue.truthy, JSValue.toNumber, JSNumber.add, JSNumber.mul]
    norm_num
  refine ⟨h1, h2, ?_⟩
  rw [h1, h2]
  intro h
  have h3 := JSNumber.fin.inj (Except.ok.inj h)
  norm_num at h3

/-! ### The time picker -/

/-- Padding the decimal numeral of a number below 100 to two places gives its two digits. -/
theorem padStart_twoDigits (n : Nat) (h : n < 100) : padStart (toString n) 2 '0' = twoDigits n := by
  interval_cases n <;> rfl

/-- C30: for an hour `h` in 0..23 and a minute `m` in 0..59 the display time is the display
hour (in 1..12, equal to 12 exactly when `h mod 12 = 0`, else to `h mod 12`), a colon, the two
digits of the minute and the suffix AM exactly when `h < 12`; the backend time is the two
digits of `h`, a colon and the two digits of `m`; the display hour and the suffix give `h`
back; and the picker writes the two strings to the field and to its `24` companion. -/
theorem timePicker_format (h m : Nat) (hh : h < 24) (hm : m < 60) (form : ScheduleForm) :
    (∃ dh : Nat, 1 ≤ dh ∧ dh ≤ 12 ∧ (dh = 12 ↔ h % 12 = 0) ∧ (dh ≠ 12 → dh = h % 12) ∧
      dh % 12 + (if h < 12 then 0 else 12) = h ∧
      displayTime h m =
        toString dh ++ ":" ++ twoDigits m ++ " " ++ (if h < 12 then "AM" else "PM")) ∧
    backendTime h m = twoDigits h ++ ":" ++ twoDigits m ∧
    (pickTime TimeField.startTime (some (h, m)) form).startTime =
      JSValue.str (displayTime h m) ∧
    (pickTime TimeField.startTime (some (h, m)) form).startTime24 =
      JSValue.str (backendTime h m) ∧
    (pickTime TimeField.endTime (some (h, m)) form).endTime = JSValue.str (displayTime h m) ∧
    (pickTime TimeField.endTime (some (h, m)) form).endTime24 =
      JSValue.str (backendTime h m) := by
  refine ⟨⟨if h % 12 = 0 then 12 else h % 12, ?_, ?_, ?_, ?_, ?_, ?_⟩, ?_, rfl, rfl, rfl, rfl⟩
  · split <;> omega
  · split <;> omega
  · split <;> omega
  · split <;> omega
  · split <;> split <;> omega
  · simp only [displayTime, padStart_twoDigits m (by omega)]
    by_cases h12 : h < 12
    · have h2 : ¬ h ≥ 12 := by omega
      simp only [h12, h2, if_true, if_false]
    · have h2 : h ≥ 12 := by omega
      simp only [h12, h2, if_true, if_false]
  · simp only [backendTime, padStart_twoDigits m (by omega), padStart_twoDigits h (by omega)]

/-- Witness for `timePicker_format`: 13:05 is shown as `1:05 PM` and sent as `13:05`. -/
theorem timePicker_format_witness :
    13 < 24 ∧ 5 < 60 ∧ displayTime 13 5 = "1:05 PM" ∧ backendTime 13 5 = "13:05" ∧
    (pickTime TimeField.startTime (some (13, 5)) scenarioForm).startTime24 =
      JSValue.str "13:05" := by
  obtain ⟨⟨dh, h1, h2, _, _, h5, h6⟩, h7, _, h8, _, _⟩ :=
    timePicker_format 13 5 (by decide) (by decide) scenarioForm
  have hdh : dh = 1 := by
    simp only [show ¬ (13 < 12) by decide, if_false] at h5
    omega
  subst hdh
  refine ⟨by decide, by decide, ?_, ?_, ?_⟩
  · rw [h6]; decide
  · rw [h7]; decide
  · rw [h8, h7]; decide

/-! ### The key of the params -/

/-- An assignment to a property the object does not have appends it. -/
theorem assign_fresh {α : Type} (obj : List (String × α)) (k : String) (v : α)
    (h : ∀ e ∈ obj, e.1 ≠ k) : assign obj k v = obj ++ [(k, v)] := by
  induction obj with
  | nil => rfl
  | cons e rest ih =>
    have he : (e.1 == k) = false := by simpa using h e (List.mem_cons_self e rest)
    simp only [assign, he, Bool.false_eq_true, if_false, List.cons_append]
    rw [ih (fun x hx => h x (List.mem_cons_of_mem e hx))]

/-- The loop of `paramKey` over distinct keys that the object does not have yet appends the
kept keys with their values, in the order of the keys. -/
theorem foldl_assign_filter {α : Type} (q : String → Bool) (g : String → α) (ks : List String) :
    ∀ obj : List (String × α), ks.Nodup → (∀ k ∈ ks, ∀ e ∈ obj, e.1 ≠ k) →
      ks.foldl (fun obj k => if q k then assign obj k (g k) else obj) obj =
        obj ++ (ks.filter q).map (fun k => (k, g k)) := by
  induction ks with
  | nil => intro obj _ _; simp
  | cons k rest ih =>
    intro obj hnd hfresh
    have hk : k ∉ rest := (List.nodup_cons.mp hnd).1
    have hrest : rest.Nodup := (List.nodup_cons.mp hnd).2
    simp only [List.foldl_cons]
    cases hq : q k with
    | false =>
      simp only [Bool.false_eq_true, if_false]
      rw [ih obj hrest (fun k2 hk2 => hfresh k2 (List.mem_cons_of_mem k hk2))]
      simp [List.filter_cons, hq]
    | true =>
      simp only [if_true]
      rw [assign_fresh obj k (g k) (hfresh k (List.mem_cons_self k rest))]
      rw [ih (obj ++ [(k, g k)]) hrest]
      · simp [List.filter_cons, hq]
      · intro k2 hk2 e he
        rcases List.mem_append.mp he with he | he
        · exact hfresh k2 (List.mem_cons_of_mem k hk2) e he
        · simp only [List.mem_singleton] at he
          subst he
          intro h
          have h2 : k = k2 := h
          subst h2
          exact hk hk2

/-- In an object with distinct keys, reading the key of a property gives its value. -/
theorem readParam_of_mem (p : List (String × JSValue)) (hnd : (p.map Prod.fst).Nodup)
    (k : String) (v : JSValue) (h : (k, v) ∈ p) : readParam p k = v := by
  induction p with
  | nil => cases h
  | cons e rest ih =>
    obtain ⟨k1, v1⟩ := e
    simp only [List.map_cons, List.nodup_cons] at hnd
    rcases List.mem_cons.mp h with h1 | h1
    · cases h1
      simp [readParam, List.lookup]
    · have hne : k ≠ k1 := by
        intro hk
        subst hk
        exact hnd.1 (List.mem_map.mpr ⟨(k, v), h1, rfl⟩)
      have hbeq : (k == k1) = false := by simpa using hne
      have h2 := ih hnd.2 h1
      simp only [readParam, List.lookup, hbeq] at h2 ⊢
      exact h2

/-- The test of `paramKey` keeps the values other than `undefined`, `null` and `''`. -/
theorem keepsParam_eq (v : JSValue) :
    keepsParam v =
      decide (v ≠ JSValue.undefined ∧ v ≠ JSValue.null ∧ v ≠ JSValue.str "") := by
  cases v with
  | num n => cases n <;> simp [keepsParam, JSValue.strictEq]
  | str s => by_cases h : s = "" <;> simp [keepsParam, JSValue.strictEq, h]
  | _ => simp [keepsParam, JSValue.strictEq]

/-- The kept keys of an object with distinct keys, with the values read, are its kept
properties. -/
theorem kept_keys_map (p : List (String × JSValue)) (l : List (String × JSValue))
    (h : ∀ e ∈ l, readParam p e.1 = e.2) :
    ((l.map Prod.fst).filter (fun k => keepsParam (readParam p k))).map
        (fun k => (k, readParam p k)) =
      l.filter (fun e => keepsParam e.2) := by
  induction l with
  | nil => rfl
  | cons e rest ih =>
    have he := h e (List.mem_cons_self e rest)
    have ih2 := ih (fun x hx => h x (List.mem_cons_of_mem e hx))
    simp only [List.map_cons, List.filter_cons, he]
    cases hk : keepsParam e.2 with
    | false => simpa using ih2
    | true =>
      simp only [if_true, List.map_cons, he, ih2]

/-- The object that `paramKey` hands to `JSON.stringify`: the kept properties of the params,
a permutation of them sorted by key. -/
theorem paramKey_object (le : String → String → Bool)
    (stringify : List (String × JSValue) → String)
    (htotal : ∀ a b, le a b = true ∨ le b a = true)
    (htrans : ∀ a b c, le a b = true → le b c = true → le a c = true)
    (p : List (String × JSValue)) (hnd : (p.map Prod.fst).Nodup) :
    ∃ obj : List (String × JSValue), paramKey le stringify (some p) = stringify obj ∧
      obj.Perm (p.filter (fun e => keepsParam e.2)) ∧
      (obj.map Prod.fst).Sorted (fun a b => le a b = true) ∧
      ∀ e ∈ obj, readParam p e.1 = e.2 := by
  haveI : IsTotal String (fun a b => le a b = true) := ⟨htotal⟩
  haveI : IsTrans String (fun a b => le a b = true) := ⟨htrans⟩
  have hperm := List.perm_insertionSort (fun a b => le a b = true) (p.map Prod.fst)
  have hsorted := List.sorted_insertionSort (fun a b => le a b = true) (p.map Prod.fst)
  have hnd2 : ((p.map Prod.fst).insertionSort (fun a b => le a b = true)).Nodup :=
    hperm.nodup_iff.mpr hnd
  refine ⟨(((p.map Prod.fst).insertionSort (fun a b => le a b = true)).filter
      (fun k => keepsParam (readParam p k))).map (fun k => (k, readParam p k)), ?_, ?_, ?_, ?_⟩
  · simp only [paramKey, Option.getD_some]
    rw [foldl_assign_filter (fun k => keepsParam (readParam p k)) (fun k => readParam p k) _ []
      hnd2 (fun _ _ e he => by cases he)]
    simp
  · have h1 := (hperm.filter (fun k => keepsParam (readParam p k))).map
      (fun k => (k, readParam p k))
    rw [kept_keys_map p p (fun e he => readParam_of_mem p hnd e.1 e.2 he)] at h1
    exact h1
  · have hmap : ((((p.map Prod.fst).insertionSort (fun a b => le a b = true)).filter
        (fun k => keepsParam (readParam p k))).map (fun k => (k, readParam p k))).map Prod.fst =
        ((p.map Prod.fst).insertionSort (fun a b => le a b = true)).filter
          (fun k => keepsParam (readParam p k)) := by
      simp [List.map_map, Function.comp_def]
    rw [hmap]
    exact hsorted.filter _
  · intro e he
    obtain ⟨k, _, hk⟩ := List.mem_map.mp he
    subst hk
    rfl

/-- Two lists of properties that are permutations of each other, have the same keys in the
same order and come from objects with distinct keys are equal. -/
theorem eq_of_perm_of_keys (a b : List (String × JSValue))
    (hkeys : a.map Prod.fst = b.map Prod.fst) (hnd : (b.map Prod.fst).Nodup)
    (hmem : ∀ e ∈ a, e ∈ b) : a = b := by
  induction a generalizing b with
  | nil =>
    cases b with
    | nil => rfl
    | cons y ys => simp at hkeys
  | cons x xs ih =>
    cases b with
    | nil => simp at hkeys
    | cons y ys =>
      simp only [List.map_cons, List.cons.injEq] at hkeys
      simp only [List.map_cons, List.nodup_cons] at hnd
      have hxy : x = y := by
        rcases List.mem_cons.mp (hmem x (List.mem_cons_self x xs)) with h | h
        · exact h
        · exact absurd (List.mem_map.mpr ⟨x, h, hkeys.1⟩) hnd.1
      subst hxy
      have hndx : (xs.map Prod.fst).Nodup := hkeys.2 ▸ hnd.2
      congr 1
      apply ih ys hkeys.2 hnd.2
      intro e he
      rcases List.mem_cons.mp (hmem e (List.mem_cons_of_mem x he)) with h | h
      · subst h
        exact absurd (List.mem_map.mpr ⟨e, he, rfl⟩) (hkeys.2 ▸ hnd.1)
      · exact h

/-- C26: two params objects with the same properties, once the properties whose value is
`undefined`, `null` or the empty string are dropped, give the same `paramKey`, whatever the
order of their keys (for `sort()` comparing by a total order of the keys). -/
theorem paramKey_stable (le : String → String → Bool)
    (stringify : List (String × JSValue) → String)
    (htotal : ∀ a b, le a b = true ∨ le b a = true)
    (htrans : ∀ a b c, le a b = true → le b c = true → le a c = true)
    (hantisymm : ∀ a b, le a b = true → le b a = true → a = b)
    (p1 p2 : List (String × JSValue))
    (hnd1 : (p1.map Prod.fst).Nodup) (hnd2 : (p2.map Prod.fst).Nodup)
    (hsame : (p1.filter (fun e =>
        decide (e.2 ≠ JSValue.undefined ∧ e.2 ≠ JSValue.null ∧ e.2 ≠ JSValue.str ""))).Perm
      (p2.filter (fun e =>
        decide (e.2 ≠ JSValue.undefined ∧ e.2 ≠ JSValue.null ∧ e.2 ≠ JSValue.str "")))) :
    paramKey le stringify (some p1) = paramKey le stringify (some p2) := by
  haveI : IsAntisymm String (fun a b => le a b = true) := ⟨hantisymm⟩
  have hsame2 : (p1.filter (fun e => keepsParam e.2)).Perm
      (p2.filter (fun e => keepsParam e.2)) := by
    simpa only [keepsParam_eq] using hsame
  obtain ⟨o1, hk1, hp1, hs1, _⟩ := paramKey_object le stringify htotal htrans p1 hnd1
  obtain ⟨o2, hk2, hp2, hs2, _⟩ := paramKey_object le stringify htotal htrans p2 hnd2
  have hperm : o1.Perm o2 := (hp1.trans hsame2).trans hp2.symm
  have hkeys : o1.map Prod.fst = o2.map Prod.fst :=
    List.eq_of_perm_of_sorted (hperm.map Prod.fst) hs1 hs2
  have hndo2 : (o2.map Prod.fst).Nodup := by
    have h1 : ((p2.filter (fun e => keepsParam e.2)).map Prod.fst).Nodup :=
      (List.Sublist.map Prod.fst (List.filter_sublist p2)).nodup hnd2
    exact ((hp2.map Prod.fst).nodup_iff).mpr h1
  rw [hk1, hk2, eq_of_perm_of_keys o1 o2 hkeys hndo2 (fun e he => hperm.subset he)]

/-- Witness for `paramKey_stable`: `{ search: 'tea', page: 2, category: '' }` and
`{ archived: undefined, page: 2, search: 'tea' }` have the same key. -/
theorem paramKey_stable_witness :
    (paramsSearchFirst.map Prod.fst).Nodup ∧ (paramsPageFirst.map Prod.fst).Nodup ∧
    paramKey keyLe scenarioStringify (some paramsSearchFirst) =
      paramKey keyLe scenarioStringify (some paramsPageFirst) :=
  ⟨by decide, by decide,
    paramKey_stable keyLe scenarioStringify
      (fun a b => by
        simp only [keyLe, decide_eq_true_eq]
        exact le_total a b)
      (fun a b c => by
        simp only [keyLe, decide_eq_true_eq]
        exact le_trans)
      (fun a b => by
        simp only [keyLe, decide_eq_true_eq]
        exact le_antisymm)
      paramsSearchFirst paramsPageFirst (by decide) (by decide)
      (by
        simp only [paramsSearchFirst, paramsPageFirst]
        decide)⟩

/-! ### The items of the menu state -/

/-- Reading a property after an assignment. -/
theorem lookup_assign {α : Type} (obj : List (String × α)) (k : String) (v : α) (k2 : String) :
    List.lookup k2 (assign obj k v) = if k2 = k then some v else List.lookup k2 obj := by
  induction obj with
  | nil =>
    by_cases h : k2 = k
    · simp [assign, List.lookup, h]
    · have hb : (k2 == k) = false := by simpa using h
      simp [assign, List.lookup, h, hb]
  | cons e rest ih =>
    obtain ⟨k1, v1⟩ := e
    by_cases h1 : k1 = k
    · subst h1
      by_cases h : k2 = k1
      · simp [assign, List.lookup, h]
      · have hb : (k2 == k1) = false := by simpa using h
        simp [assign, List.lookup, h, hb]
    · have hb1 : (k1 == k) = false := by simpa using h1
      simp only [assign, hb1, Bool.false_eq_true, if_false]
      by_cases h : k2 = k1
      · subst h
        simp [List.lookup, h1]
      · have hb : (k2 == k1) = false := by simpa using h
        simp only [List.lookup, hb, ih]

/-- The keys after an assignment: the same keys, with the assigned key last when it is new. -/
theorem keys_assign {α : Type} (obj : List (String × α)) (k : String) (v : α) :
    (assign obj k v).map Prod.fst =
      if k ∈ obj.map Prod.fst then obj.map Prod.fst else obj.map Prod.fst ++ [k] := by
  induction obj with
  | nil => simp [assign]
  | cons e rest ih =>
    obtain ⟨k1, v1⟩ := e
    by_cases h1 : k1 = k
    · subst h1
      simp [assign]
    · have hb1 : (k1 == k) = false := by simpa using h1
      have h2 : ¬ k = k1 := fun h => h1 h.symm
      simp only [assign, hb1, Bool.false_eq_true, if_false, List.map_cons, ih, List.mem_cons, h2,
        false_or]
      split <;> simp

/-- An assignment keeps the keys distinct. -/
theorem nodup_keys_assign {α : Type} (obj : List (String × α)) (k : String) (v : α)
    (h : (obj.map Prod.fst).Nodup) : ((assign obj k v).map Prod.fst).Nodup := by
  rw [keys_assign]
  split
  · exact h
  · rename_i hk
    exact List.Nodup.append h (List.nodup_singleton k)
      (by
        intro x hx hx2
        simp only [List.mem_singleton] at hx2
        subst hx2
        exact hk hx)

/-- Reading a property of an object spread: the property of the second object when it has
one, else the property of the first. -/
theorem lookup_spread {α : Type} (b : List (String × α)) :
    ∀ a : List (String × α), (b.map Prod.fst).Nodup → ∀ k : String,
      List.lookup k (spread a b) =
        if (List.lookup k b).isSome then List.lookup k b else List.lookup k a := by
  induction b with
  | nil => intro a _ k; rfl
  | cons e rest ih =>
    intro a hnd k
    obtain ⟨k1, v1⟩ := e
    simp only [List.map_cons, List.nodup_cons] at hnd
    have hstep : spread a ((k1, v1) :: rest) = spread (assign a k1 v1) rest := rfl
    rw [hstep, ih (assign a k1 v1) hnd.2 k, lookup_assign]
    by_cases h : k = k1
    · subst h
      have hnone : List.lookup k rest = none := by
        cases hl : List.lookup k rest with
        | none => rfl
        | some v =>
          exfalso
          apply hnd.1
          clear ih hstep hnd
          induction rest with
          | nil => simp [List.lookup] at hl
          | cons x xs ihx =>
            obtain ⟨kx, vx⟩ := x
            by_cases hx : k = kx
            · simp [hx]
            · have hbx : (k == kx) = false := by simpa using hx
              simp only [List.lookup, hbx] at hl
              exact List.mem_cons_of_mem _ (ihx hl)
      simp [hnone, List.lookup]
    · have hb : (k == k1) = false := by simpa using h
      simp only [List.lookup, hb, h, if_false]

/-- The index found by `findIndex` holds an element that passes the test. -/
theorem findIndex_some {α : Type} (p : α → Bool) (l : List α) :
    ∀ i, findIndex p l = some i → ∃ x, l.get? i = some x ∧ p x = true := by
  induction l with
  | nil => intro i h; cases h
  | cons x xs ih =>
    intro i h
    simp only [findIndex] at h
    by_cases hp : p x = true
    · simp only [hp, if_true, Option.some.injEq] at h
      subst h
      exact ⟨x, rfl, hp⟩
    · simp only [hp, Bool.false_eq_true, if_false, Option.map_eq_some'] at h
      obtain ⟨j, hj, hij⟩ := h
      subst hij
      obtain ⟨y, hy, hpy⟩ := ih j hj
      exact ⟨y, by simpa using hy, hpy⟩

/-- When `findIndex` finds nothing, no element passes the test. -/
theorem findIndex_none {α : Type} (p : α → Bool) (l : List α) (h : findIndex p l = none) :
    ∀ x ∈ l, p x = false := by
  induction l with
  | nil => intro x hx; cases hx
  | cons y ys ih =>
    simp only [findIndex] at h
    by_cases hp : p y = true
    · simp [hp] at h
    · simp only [hp, Bool.false_eq_true, if_false, Option.map_eq_none'] at h
      intro x hx
      rcases List.mem_cons.mp hx with hx | hx
      · subst hx
        simpa using hp
      · exact ih h x hx

/-- Replacing an entry by one with the same image under `f` keeps the images. -/
theorem map_set_same {α β : Type} (f : α → β) (l : List α) :
    ∀ (i : Nat) (x old : α), l.get? i = some old → f x = f old →
      (l.set i x).map f = l.map f := by
  induction l with
  | nil => intro i x old h; cases h
  | cons y ys ih =>
    intro i x old h hf
    cases i with
    | zero =>
      simp only [List.get?_cons_zero, Option.some.injEq] at h
      subst h
      simp [List.set, hf]
    | succ j =>
      simp only [List.get?_cons_succ] at h
      simp only [List.set, List.map_cons, ih j x old h hf]

/-- Strict equality of two property values does not depend on their order. -/
theorem propValue_strictEq_comm (a b : PropValue) : a.strictEq b = b.strictEq a := by
  cases a with
  | object fa => cases b <;> rfl
  | prim x =>
    cases b with
    | object fb => rfl
    | prim y =>
      simp only [PropValue.strictEq, JSValue.strictEq]
      cases x with
      | num n =>
        cases n with
        | nan => cases y with
          | num m => cases m <;> simp
          | _ => simp
        | fin q => cases y with
          | num m => cases m <;> simp [eq_comm]
          | _ => simp
      | _ =>
        cases y with
        | num m => cases m <;> simp [eq_comm]
        | _ => simp [eq_comm]

/-- Strictly equal property values are equal. -/
theorem propValue_eq_of_strictEq (a b : PropValue) (h : a.strictEq b = true) : a = b := by
  cases a with
  | object fa => cases b <;> cases h
  | prim x =>
    cases b with
    | object fb => cases h
    | prim y =>
      simp only [PropValue.strictEq] at h
      rw [eq_of_strictEq x y h]

/-- A property value other than `undefined` and `null` passes the test
`v !== undefined && v !== null`. -/
theorem strictEq_nullish_false (v : PropValue) (h1 : v ≠ PropValue.prim JSValue.undefined)
    (h2 : v ≠ PropValue.prim JSValue.null) :
    (!(v.strictEq (PropValue.prim JSValue.undefined)) &&
      !(v.strictEq (PropValue.prim JSValue.null))) = true := by
  cases v with
  | object f => rfl
  | prim x =>
    have hx1 : x ≠ JSValue.undefined := fun h => h1 (by rw [h])
    have hx2 : x ≠ JSValue.null := fun h => h2 (by rw [h])
    cases x with
    | num n => cases n <;> simp [PropValue.strictEq, JSValue.strictEq]
    | undefined => exact absurd rfl hx1
    | null => exact absurd rfl hx2
    | _ => simp [PropValue.strictEq, JSValue.strictEq]

/-- The normalised item: the incoming item with the properties `category`, `image` and
`imageUrl` assigned; every other property is the incoming one, and the keys stay distinct. -/
theorem normalizeForState_some (toStr : JSValue → String) (item : List (String × PropValue)) :
    ∃ normalized, normalizeForState toStr (some item) = some normalized ∧
      (∀ k, k ≠ "category" → k ≠ "image" → k ≠ "imageUrl" →
        List.lookup k normalized = List.lookup k item) ∧
      (List.lookup "category" normalized).isSome = true ∧
      (List.lookup "image" normalized).isSome = true ∧
      (List.lookup "imageUrl" normalized).isSome = true ∧
      ((item.map Prod.fst).Nodup → (normalized.map Prod.fst).Nodup) := by
  refine ⟨_, rfl, ?_, ?_, ?_, ?_, ?_⟩
  · intro k h1 h2 h3
    simp only [lookup_assign, h1, h2, h3, if_false]
  · simp [lookup_assign]
  · simp [lookup_assign]
  · simp [lookup_assign]
  · intro h
    exact nodup_keys_assign _ _ _ (nodup_keys_assign _ _ _ (nodup_keys_assign _ _ _ h))

/-- C28, as stated, fails: on the state `[{ id: 'm1', name: 'Cola', category: 'Drinks' }]` the
incoming item `{ id: 'm1', name: 'Cola Zero' }` does not leave the category of the entry as
it was: the entry is overlaid by the normalised item, whose `category`, `image` and
`imageUrl` are always set, so the category becomes the empty string, while the old entry
overlaid by the fields of the incoming item keeps `Drinks`. -/
theorem upsertItem_overwrites_category :
    upsertItem scenarioToStr (some renamedCola) [colaItem] =
      [[("id", PropValue.prim (JSValue.str "m1")),
        ("name", PropValue.prim (JSValue.str "Cola Zero")),
        ("category", PropValue.prim (JSValue.str "")),
        ("image", PropValue.prim (JSValue.str "")),
        ("imageUrl", PropValue.prim (JSValue.str ""))]] ∧
    spread colaItem renamedCola =
      [("id", PropValue.prim (JSValue.str "m1")),
        ("name", PropValue.prim (JSValue.str "Cola Zero")),
        ("category", PropValue.prim (JSValue.str "Drinks"))] ∧
    upsertItem scenarioToStr (some renamedCola) [colaItem] ≠ [spread colaItem renamedCola] := by
  decide

/-- C28, amended: for a state with pairwise distinct ids and an incoming item with a
non-null id, the result of `upsertItem` has pairwise distinct ids; when an entry has the id,
the result is the state with that entry alone replaced, by the old entry overlaid with the
properties of the normalised incoming item (which always include `category`, `image` and
`imageUrl`); otherwise the normalised incoming item is put in front of the unchanged state. -/
theorem upsertItem_unique (toStr : JSValue → String) (item : List (String × PropValue))
    (prev : List (List (String × PropValue)))
    (hkeys : (item.map Prod.fst).Nodup)
    (hid1 : getProp item "id" ≠ PropValue.prim JSValue.undefined)
    (hid2 : getProp item "id" ≠ PropValue.prim JSValue.null)
    (hdistinct : prev.Pairwise
      (fun a b => (getProp a "id").strictEq (getProp b "id") = false)) :
    ∃ normalized, normalizeForState toStr (some item) = some normalized ∧
      getProp normalized "id" = getProp item "id" ∧
      (∀ k, k ≠ "category" → k ≠ "image" → k ≠ "imageUrl" →
        List.lookup k normalized = List.lookup k item) ∧
      (upsertItem toStr (some item) prev).Pairwise
        (fun a b => (getProp a "id").strictEq (getProp b "id") = false) ∧
      ((∃ i old, prev.get? i = some old ∧
          (getProp old "id").strictEq (getProp item "id") = true ∧
          upsertItem toStr (some item) prev = prev.set i (spread old normalized) ∧
          (upsertItem toStr (some item) prev).length = prev.length ∧
          (∀ j, j ≠ i → (upsertItem toStr (some item) prev).get? j = prev.get? j) ∧
          ∀ k, List.lookup k (spread old normalized) =
            if (List.lookup k normalized).isSome then List.lookup k normalized
            else List.lookup k old) ∨
        ((∀ old ∈ prev, (getProp old "id").strictEq (getProp item "id") = false) ∧
          upsertItem toStr (some item) prev = normalized :: prev)) := by
  obtain ⟨normalized, hnorm, hother, _, _, _, hnd⟩ := normalizeForState_some toStr item
  have hidn : getProp normalized "id" = getProp item "id" := by
    simp only [getProp, hother "id" (by decide) (by decide) (by decide)]
  have hcond := strictEq_nullish_false (getProp item "id") hid1 hid2
  have hup : upsertItem toStr (some item) prev =
      match findIndex (fun it => (getProp it "id").strictEq (getProp item "id")) prev with
      | some i => prev.set i (spread (prev.getD i []) normalized)
      | none => normalized :: prev := by
    simp only [upsertItem, hnorm, hidn, hcond, if_true]
  refine ⟨normalized, hnorm, hidn, hother, ?_⟩
  cases hfind : findIndex (fun it => (getProp it "id").strictEq (getProp item "id")) prev with
  | none =>
    simp only [hfind] at hup
    have hnone := findIndex_none _ prev hfind
    refine ⟨?_, Or.inr ⟨hnone, hup⟩⟩
    rw [hup, List.pairwise_cons]
    refine ⟨?_, hdistinct⟩
    intro b hb
    rw [propValue_strictEq_comm, hidn]
    exact hnone b hb
  | some i =>
    simp only [hfind] at hup
    obtain ⟨old, hold, hpass⟩ := findIndex_some _ prev i hfind
    have hold2 : prev[i]? = some old := by
      rw [← List.get?_eq_getElem?]
      exact hold
    have hgetD : prev.getD i [] = old := by
      simp [List.getD, hold2]
    rw [hgetD] at hup
    have hspread := lookup_spread normalized old (hnd hkeys)
    have hidnew : getProp (spread old normalized) "id" = getProp old "id" := by
      have h1 := hspread "id"
      cases hl : List.lookup "id" normalized with
      | none =>
        exfalso
        apply hid1
        rw [← hidn]
        simp [getProp, hl]
      | some v =>
        rw [hl] at h1
        have h2 : getProp (spread old normalized) "id" = getProp normalized "id" := by
          simp [getProp, h1, hl]
        rw [h2, hidn]
        exact (propValue_eq_of_strictEq _ _ hpass).symm
    refine ⟨?_, Or.inl ⟨i, old, hold, hpass, hup, ?_, ?_, hspread⟩⟩
    · rw [hup]
      have hmap := map_set_same (fun it => getProp it "id") prev i (spread old normalized) old
        hold hidnew
      have h1 : (prev.map (fun it => getProp it "id")).Pairwise
          (fun x y => x.strictEq y = false) := List.pairwise_map.mpr hdistinct
      rw [← hmap] at h1
      exact List.pairwise_map.mp h1
    · rw [hup, List.length_set]
    · intro j hj
      rw [hup]
      simp [List.get?_eq_getElem?, List.getElem?_set, Ne.symm hj]

/-- Witness for `upsertItem_unique`: the incoming item without category on the state of two
drinks. -/
theorem upsertItem_unique_witness :
    (renamedCola.map Prod.fst).Nodup ∧
    getProp renamedCola "id" ≠ PropValue.prim JSValue.undefined ∧
    getProp renamedCola "id" ≠ PropValue.prim JSValue.null ∧
    [colaItem, teaItem].Pairwise
      (fun a b => (getProp a "id").strictEq (getProp b "id") = false) ∧
    (upsertItem scenarioToStr (some renamedCola) [colaItem, teaItem]).Pairwise
      (fun a b => (getProp a "id").strictEq (getProp b "id") = false) ∧
    (upsertItem scenarioToStr (some renamedCola) [colaItem, teaItem]).length = 2 := by
  have hd : [colaItem, teaItem].Pairwise
      (fun a b => (getProp a "id").strictEq (getProp b "id") = false) := by decide
  obtain ⟨_, _, _, _, hp, _⟩ :=
    upsertItem_unique scenarioToStr renamedCola [colaItem, teaItem] (by decide) (by decide)
      (by decide) hd
  exact ⟨by decide, by decide, by decide, hd, hp, by decide⟩

/-! ### Fetching every page of the employees -/

/-- The test of the `break` of `getAllEmployees` on a page whose pagination, when there is
one, reports the total `T`: the page has no pagination, or its number is at least `T`, or it
holds fewer than `limit` employees. -/
theorem break_iff (strToNum : String → JSNumber) (r : PageResult) (T limit : ℚ) (page : ℕ)
    (hT : ∀ p, r.pagination = some p → p.totalPages = JSNumber.fin T) :
    ((!(((match r.pagination with
          | some p => JSValue.num p.totalPages
          | none => JSValue.undefined).or JSValue.undefined).or
            (JSValue.num (JSNumber.fin 0))).truthy ||
        ((((match r.pagination with
          | some p => JSValue.num p.totalPages
          | none => JSValue.undefined).or JSValue.undefined).or
            (JSValue.num (JSNumber.fin 0))).toNumber strToNum).le (JSNumber.fin page) ||
        (JSNumber.fin r.employees.length).lt (JSNumber.fin limit)) = true) ↔
      (r.pagination = none ∨ T ≤ (page : ℚ) ∨ (r.employees.length : ℚ) < limit) := by
  cases hp : r.pagination with
  | none =>
    simp [JSValue.or, JSValue.truthy]
  | some p =>
    have h := hT p hp
    by_cases h0 : T = 0
    · subst h0
      simp [JSValue.or, JSValue.truthy, h]
    · simp [JSValue.or, JSValue.truthy, h, h0, JSValue.toNumber, JSNumber.le, JSNumber.lt]

/-- The loop of `getAllEmployees` on pages that are all fetched: when the first page that
meets the test of the `break` is the page `page + k`, every run of more than `k` rounds
returns the employees gathered so far followed by those of the pages `page`, ..., `page + k`. -/
theorem getAllEmployeesLoop_spec (strToNum : String → JSNumber)
    (fetchPage : ℕ → Except JSError PageResult) (limit T : ℚ) (result : ℕ → PageResult)
    (hfetch : ∀ page, fetchPage page = Except.ok (result page))
    (hT : ∀ page p, (result page).pagination = some p → p.totalPages = JSNumber.fin T) :
    ∀ (k page : ℕ) (aggregated : List Employee),
      (∀ j, j < k → ¬ ((result (page + j)).pagination = none ∨ T ≤ ((page + j : ℕ) : ℚ) ∨
        ((result (page + j)).employees.length : ℚ) < limit)) →
      ((result (page + k)).pagination = none ∨ T ≤ ((page + k : ℕ) : ℚ) ∨
        ((result (page + k)).employees.length : ℚ) < limit) →
      ∀ fuel, k < fuel →
        getAllEmployeesLoop strToNum fetchPage limit fuel page aggregated =
          some (Except.ok (aggregated ++
            (List.range (k + 1)).flatMap (fun j => (result (page + j)).employees))) := by
  intro k
  induction k with
  | zero =>
    intro page aggregated _ hstop fuel hfuel
    obtain ⟨f, rfl⟩ : ∃ f, fuel = f + 1 := ⟨fuel - 1, by omega⟩
    have hb := (break_iff strToNum (result page) T limit page (hT page)).mpr
      (by simpa using hstop)
    rw [getAllEmployeesLoop, hfetch page]
    simp only []
    rw [if_pos hb]
    simp [List.range_succ, List.flatMap]
  | succ k ih =>
    intro page aggregated hgo hstop fuel hfuel
    obtain ⟨f, rfl⟩ : ∃ f, fuel = f + 1 := ⟨fuel - 1, by omega⟩
    have hnb : ¬ _ := fun h =>
      (hgo 0 (Nat.succ_pos k))
        (by simpa using (break_iff strToNum (result page) T limit page (hT page)).mp h)
    rw [getAllEmployeesLoop, hfetch page]
    simp only []
    rw [if_neg hnb]
    rw [ih (page + 1) (aggregated ++ (result page).employees)
      (fun j hj => by
        have h := hgo (j + 1) (by omega)
        rwa [show page + (j + 1) = page + 1 + j by omega] at h)
      (by rwa [show page + (k + 1) = page + 1 + k by omega] at hstop)
      f (by omega)]
    rw [List.range_succ_eq_map (k + 1), List.flatMap_cons, List.flatMap_map]
    simp only [Nat.add_zero, List.append_assoc, Nat.succ_eq_add_one]
    have hfun : (fun j => (result (page + 1 + j)).employees) =
        (fun a => (result (page + (a + 1))).employees) := by
      funext j
      rw [show page + (j + 1) = page + 1 + j by omega]
    rw [hfun]

/-- The limit of `getAllEmployees`: the number given when it is positive, else 200. -/
theorem employeesLimit_default (strToNum : String → JSNumber) (params : EmployeeParams) :
    (∀ q, params.limit.toNumber strToNum = JSNumber.fin q → 0 < q →
      employeesLimit strToNum params = q) ∧
    ((params.limit = JSValue.undefined ∨ params.limit = JSValue.null ∨
        params.limit.toNumber strToNum = JSNumber.nan ∨
        ∃ q, params.limit.toNumber strToNum = JSNumber.fin q ∧ q ≤ 0) →
      employeesLimit strToNum params = 200) := by
  constructor
  · intro q hq hpos
    by_cases h1 : params.limit = JSValue.undefined
    · rw [h1] at hq
      cases hq
    · by_cases h2 : params.limit = JSValue.null
      · rw [h2] at hq
        simp only [JSValue.toNumber, JSNumber.fin.injEq] at hq
        rw [← hq] at hpos
        exact absurd hpos (lt_irrefl 0)
      · have hs1 : params.limit.strictEq JSValue.undefined = false := by
          cases h : params.limit.strictEq JSValue.undefined with
          | false => rfl
          | true => exact absurd (eq_of_strictEq _ _ h) h1
        have hs2 : params.limit.strictEq JSValue.null = false := by
          cases h : params.limit.strictEq JSValue.null with
          | false => rfl
          | true => exact absurd (eq_of_strictEq _ _ h) h2
        simp only [employeesLimit, hs1, hs2, Bool.or_self, Bool.false_eq_true, if_false, hq, hpos,
          gt_iff_lt, if_true]
  · intro h
    by_cases h1 : params.limit = JSValue.undefined
    · simp [employeesLimit, h1, JSValue.strictEq, JSValue.toNumber]
    · by_cases h2 : params.limit = JSValue.null
      · simp [employeesLimit, h2, JSValue.strictEq, JSValue.toNumber]
      · have hs1 : params.limit.strictEq JSValue.undefined = false := by
          cases h : params.limit.strictEq JSValue.undefined with
          | false => rfl
          | true => exact absurd (eq_of_strictEq _ _ h) h1
        have hs2 : params.limit.strictEq JSValue.null = false := by
          cases h : params.limit.strictEq JSValue.null with
          | false => rfl
          | true => exact absurd (eq_of_strictEq _ _ h) h2
        rcases h with h | h | h | ⟨q, hq, hle⟩
        · exact absurd h h1
        · exact absurd h h2
        · simp only [employeesLimit, hs1, hs2, Bool.or_self, Bool.false_eq_true, if_false, h]
        · have hnot : ¬ q > 0 := not_lt.mpr hle
          simp only [employeesLimit, hs1, hs2, Bool.or_self, Bool.false_eq_true, if_false, hq,
            hnot]

/-- C29: on a server that answers every page and whose paginations all report the same
finite total `T`, `getAllEmployees` terminates: there is a first page, counted from the
requested page (1 when none is requested), that has no pagination, or whose number is at
least `T`, or that holds fewer than `limit` employees; every run with more rounds than pages
up to that one returns the employees of the pages from the requested one to that one, in
page order; and `limit` is the number requested when that is positive, else 200. -/
theorem getAllEmployees_terminates (strToNum : String → JSNumber)
    (respond : ℕ → Except JSError ApiResponse) (params : EmployeeParams) (T : ℚ)
    (result : ℕ → PageResult)
    (hfetch : ∀ page,
      _fetchEmployeesPage strToNum respond (employeesLimit strToNum params) page =
        Except.ok (result page))
    (hT : ∀ page p, (result page).pagination = some p → p.totalPages = JSNumber.fin T) :
    (∃ k : ℕ,
      (∀ j, j < k →
        ¬ ((result (params.page.getD 1 + j)).pagination = none ∨
          T ≤ ((params.page.getD 1 + j : ℕ) : ℚ) ∨
          ((result (params.page.getD 1 + j)).employees.length : ℚ) <
            employeesLimit strToNum params)) ∧
      ((result (params.page.getD 1 + k)).pagination = none ∨
        T ≤ ((params.page.getD 1 + k : ℕ) : ℚ) ∨
        ((result (params.page.getD 1 + k)).employees.length : ℚ) <
          employeesLimit strToNum params) ∧
      (∀ fuel, k < fuel →
        getAllEmployees strToNum respond params fuel =
          some (Except.ok ((List.range (k + 1)).flatMap
            (fun j => (result (params.page.getD 1 + j)).employees))))) ∧
    (∀ q, params.limit.toNumber strToNum = JSNumber.fin q → 0 < q →
      employeesLimit strToNum params = q) ∧
    ((params.limit = JSValue.undefined ∨ params.limit = JSValue.null ∨
        params.limit.toNumber strToNum = JSNumber.nan ∨
        ∃ q, params.limit.toNumber strToNum = JSNumber.fin q ∧ q ≤ 0) →
      employeesLimit strToNum params = 200) := by
  refine ⟨?_, employeesLimit_default strToNum params⟩
  classical
  have hex : ∃ j : ℕ, (result (params.page.getD 1 + j)).pagination = none ∨
      T ≤ ((params.page.getD 1 + j : ℕ) : ℚ) ∨
      ((result (params.page.getD 1 + j)).employees.length : ℚ) <
        employeesLimit strToNum params := by
    refine ⟨⌈T⌉₊, Or.inr (Or.inl ?_)⟩
    have h1 : T ≤ (⌈T⌉₊ : ℚ) := Nat.le_ceil T
    have h2 : ((⌈T⌉₊ : ℕ) : ℚ) ≤ ((params.page.getD 1 + ⌈T⌉₊ : ℕ) : ℚ) := by
      exact_mod_cast Nat.le_add_left _ _
    exact le_trans h1 h2
  refine ⟨Nat.find hex, fun j hj => Nat.find_min hex hj, Nat.find_spec hex, ?_⟩
  intro fuel hfuel
  have h := getAllEmployeesLoop_spec strToNum
    (_fetchEmployeesPage strToNum respond (employeesLimit strToNum params))
    (employeesLimit strToNum params) T result hfetch hT (Nat.find hex) (params.page.getD 1) []
    (fun j hj => Nat.find_min hex hj) (Nat.find_spec hex) fuel hfuel
  simpa [getAllEmployees] using h

/-- The limit of the params `{ limit: 2 }`. -/
theorem employeesLimit_limitTwoParams : employeesLimit noNumericStrings limitTwoParams = 2 := by
  simp [employeesLimit, limitTwoParams, JSValue.strictEq, JSValue.toNumber]

/-- The pages that `_fetchEmployeesPage` returns on the server of three pages. -/
theorem fetch_threePageServer (page : ℕ) :
    _fetchEmployeesPage noNumericStrings threePageServer
        (employeesLimit noNumericStrings limitTwoParams) page =
      Except.ok (threePageResult page) := by
  have hlow : callToLowerCase (JSValue.str "Active") = Except.ok "active" := by decide
  rw [employeesLimit_limitTwoParams]
  simp [_fetchEmployeesPage, threePageServer, responseContainer, responsePagination, mapItems,
    _normalizeEmployee, rawEmployee, JSValue.or, JSValue.truthy, JSValue.nullish,
    JSValue.toNumber, hlow, threePageResult, scenarioEmployee]

/-- Witness for `getAllEmployees_terminates`: on the server of three pages of two employees,
asked with `limit: 2` and no page, the three pages are fetched and their six employees
returned in page order. -/
theorem getAllEmployees_terminates_witness :
    (∀ page, _fetchEmployeesPage noNumericStrings threePageServer
        (employeesLimit noNumericStrings limitTwoParams) page =
      Except.ok (threePageResult page)) ∧
    (∀ page p, (threePageResult page).pagination = some p → p.totalPages = JSNumber.fin 3) ∧
    getAllEmployees noNumericStrings threePageServer limitTwoParams 3 =
      some (Except.ok
        [scenarioEmployee 2, scenarioEmployee 3, scenarioEmployee 4, scenarioEmployee 5,
          scenarioEmployee 6, scenarioEmployee 7]) := by
  have hT : ∀ page p, (threePageResult page).pagination = some p →
      p.totalPages = JSNumber.fin 3 := by
    intro page p hp
    simp only [threePageResult, Option.some.injEq] at hp
    rw [← hp]
  obtain ⟨⟨k, hmin, hstop, hres⟩, _, _⟩ :=
    getAllEmployees_terminates noNumericStrings threePageServer limitTwoParams 3
      threePageResult fetch_threePageServer hT
  have hpage : limitTwoParams.page.getD 1 = 1 := rfl
  have hstopIff : ∀ j : ℕ,
      ((threePageResult (limitTwoParams.page.getD 1 + j)).pagination = none ∨
        (3 : ℚ) ≤ ((limitTwoParams.page.getD 1 + j : ℕ) : ℚ) ∨
        ((threePageResult (limitTwoParams.page.getD 1 + j)).employees.length : ℚ) <
          employeesLimit noNumericStrings limitTwoParams) ↔ 2 ≤ j := by
    intro j
    rw [employeesLimit_limitTwoParams, hpage]
    simp only [threePageResult, List.length_cons, List.length_nil, reduceCtorEq, false_or]
    constructor
    · rintro (h | h)
      · have h2 : (3 : ℕ) ≤ 1 + j := by exact_mod_cast h
        omega
      · norm_num at h
    · intro h
      left
      have h2 : (3 : ℕ) ≤ 1 + j := by omega
      exact_mod_cast h2
  have hk : k = 2 := by
    have h1 : 2 ≤ k := (hstopIff k).mp hstop
    by_contra hne
    exact hmin 2 (by omega) ((hstopIff 2).mpr (le_refl 2))
  subst hk
  refine ⟨fetch_threePageServer, hT, ?_⟩
  rw [hres 3 (by decide), hpage]
  rfl

/-! ### The selection of the modal -/

/-- Presses on menu rows keep every selected id among the ids of the menu. -/
theorem pressMenuRow_ids (menuItems : List MenuItem) (rows : List ℕ) :
    ∀ form : ScheduleForm,
      (∀ id ∈ form.selectedItems, id ∈ menuItems.map (fun i => i.id)) →
      ∀ id ∈ (rows.foldl (fun f row => pressMenuRow menuItems row f) form).selectedItems,
        id ∈ menuItems.map (fun i => i.id) := by
  induction rows with
  | nil => intro form h; exact h
  | cons row rest ih =>
    intro form h
    simp only [List.foldl_cons]
    apply ih
    intro id hid
    unfold pressMenuRow at hid
    cases hget : menuItems.get? row with
    | none =>
      rw [hget] at hid
      exact h id hid
    | some item =>
      rw [hget] at hid
      simp only [toggleMenuItem] at hid
      split at hid
      · exact h id (List.mem_filter.mp hid).1
      · rcases List.mem_append.mp hid with hid | hid
        · exact h id hid
        · simp only [List.mem_singleton] at hid
          subst hid
          exact List.mem_map.mpr ⟨item, List.get?_mem hget, rfl⟩

/-- The lookup of a submit handler finds an entry for every id of the menu that is not
`NaN`, and the entry found has that id. -/
theorem find_of_mem_ids (menuItems : List MenuItem) (id : JSValue)
    (hmem : id ∈ menuItems.map (fun i => i.id)) (hid : id ≠ JSValue.num JSNumber.nan) :
    ∃ item, menuItems.find? (fun i => i.id.strictEq id) = some item ∧ item.id = id := by
  cases hfind : menuItems.find? (fun i => i.id.strictEq id) with
  | some item =>
    have h := List.find?_some hfind
    exact ⟨item, rfl, eq_of_strictEq _ _ h⟩
  | none =>
    exfalso
    obtain ⟨item, hitem, hitemId⟩ := List.mem_map.mp hmem
    have h := List.find?_eq_none.mp hfind item hitem
    apply h
    simp only [hitemId]
    exact strictEq_self id hid

/-- C18, amended: the submit handlers have no check for a selected id that is not on the
menu, and none is needed for a selection made in the modal: starting from an empty
selection, presses on menu rows only ever select ids of menu entries, so at submission (on
the menu as loaded or with other quantities, the ids being the same) the lookup finds an
entry for every selected id and each handler builds one line item per selected id, in the
order of the selection, with that id. For a form that passes the checks with an id that no
menu entry has, both handlers throw instead of showing a validation message: no dialog is
shown and nothing is written. -/
theorem selection_on_menu (strToNum : String → JSNumber) (menuItems submitted : List MenuItem)
    (rows : List ℕ) (form : ScheduleForm)
    (hstart : form.selectedItems = [])
    (hids : ∀ i ∈ menuItems, i.id ≠ JSValue.num JSNumber.nan)
    (hsame : submitted.map (fun i => i.id) = menuItems.map (fun i => i.id)) :
    (∀ id ∈ (rows.foldl (fun f row => pressMenuRow menuItems row f) form).selectedItems,
      ∃ item ∈ submitted, item.id = id ∧
        submitted.find? (fun i => i.id.strictEq id) ≠ none) ∧
    (∃ data,
      mapItems (lineItemModal submitted)
          (rows.foldl (fun f row => pressMenuRow menuItems row f) form).selectedItems =
        Except.ok data ∧
      List.Forall₂ (fun id r => r.menu_item = id)
        (rows.foldl (fun f row => pressMenuRow menuItems row f) form).selectedItems data) ∧
    (∃ data,
      mapItems (lineItem submitted)
          (rows.foldl (fun f row => pressMenuRow menuItems row f) form).selectedItems =
        Except.ok data ∧
      List.Forall₂ (fun id r => r.menu_item = id)
        (rows.foldl (fun f row => pressMenuRow menuItems row f) form).selectedItems data) ∧
    (∀ stale : ScheduleForm,
      (∃ id ∈ stale.selectedItems, submitted.find? (fun i => i.id.strictEq id) = none) →
      ((∀ v ∈ requiredFieldsModal stale, isMissing v = false) →
        ∀ (payNow : Bool) (response : CreateResponse) (st : ModalState),
          st.scheduleForm = stale →
          ∃ e, handleSubmit strToNum submitted payNow response st = Except.error e) ∧
      ((∀ v ∈ requiredFields stale, isMissing v = false) →
        ∀ (now : JSValue) (payNow : Bool) (st : CateringState),
          ∃ e, handleScheduleSubmit strToNum stale submitted now payNow st =
            Except.error e)) := by
  have hinv := pressMenuRow_ids menuItems rows form
    (fun id hid => by rw [hstart] at hid; cases hid)
  have hfind : ∀ id ∈ (rows.foldl (fun f row => pressMenuRow menuItems row f) form).selectedItems,
      ∃ item, submitted.find? (fun i => i.id.strictEq id) = some item ∧ item.id = id := by
    intro id hid
    have hmem := hinv id hid
    have hnan : id ≠ JSValue.num JSNumber.nan := by
      obtain ⟨i, hi, hiid⟩ := List.mem_map.mp hmem
      rw [← hiid]
      exact hids i hi
    rw [← hsame] at hmem
    exact find_of_mem_ids submitted id hmem hnan
  refine ⟨?_, ?_, ?_, ?_⟩
  · intro id hid
    obtain ⟨item, hitem, hitemId⟩ := hfind id hid
    have hmem := List.mem_of_find?_eq_some hitem
    exact ⟨item, hmem, hitemId, by rw [hitem]; exact Option.some_ne_none item⟩
  · apply mapItems_forall₂
    intro id hid
    obtain ⟨item, hitem, hitemId⟩ := hfind id hid
    have hline : lineItemModal submitted id =
        Except.ok
          { menu_item := item.id
            name := item.name
            quantity := item.selectedQuantity
            unit_price := item.price.or (JSValue.num (JSNumber.fin 0))
            image := item.image.or JSValue.null } := by
      simp only [lineItemModal, hitem]
    exact ⟨_, hline, hitemId⟩
  · apply mapItems_forall₂
    intro id hid
    obtain ⟨item, hitem, hitemId⟩ := hfind id hid
    have hline : lineItem submitted id =
        Except.ok
          { menu_item := item.id
            name := item.name
            quantity := item.selectedQuantity.or (JSValue.num (JSNumber.fin 1))
            unit_price := item.price.or (JSValue.num (JSNumber.fin 0))
            image := item.image.or JSValue.null } := by
      simp only [lineItem, hitem]
    exact ⟨_, hline, hitemId⟩
  · intro stale habsent
    obtain ⟨id, hid, hnone⟩ := habsent
    have hlen : stale.selectedItems.length ≠ 0 := by
      intro h
      rw [List.length_eq_zero.1 h] at hid
      cases hid
    constructor
    · intro hreq payNow response st hst
      subst hst
      obtain ⟨e, he⟩ := mapItems_error (lineItemModal submitted) st.scheduleForm.selectedItems
        ⟨id, hid, JSError.typeError "Cannot read property of undefined",
          by simp only [lineItemModal, hnone]⟩
      exact ⟨e, by simp [handleSubmit, filter_isMissing_length _ hreq, hlen, he]⟩
    · intro hreq now payNow st
      obtain ⟨e, he⟩ := mapItems_error (lineItem submitted) stale.selectedItems
        ⟨id, hid, JSError.typeError "Cannot read property of undefined",
          by simp only [lineItem, hnone]⟩
      exact ⟨e, by simp [handleScheduleSubmit, filter_isMissing_length _ hreq, hlen, he]⟩

/-- Witness for `selection_on_menu`: one press on the row of the scenario menu selects the
id 7, and the modal builds its line item from the menu with the quantity typed as `0`. -/
theorem selection_on_menu_witness :
    unselectedForm.selectedItems = [] ∧
    (∀ i ∈ scenarioMenu, i.id ≠ JSValue.num JSNumber.nan) ∧
    zeroQuantityMenu.map (fun i => i.id) = scenarioMenu.map (fun i => i.id) ∧
    ([0].foldl (fun f row => pressMenuRow scenarioMenu row f) unselectedForm).selectedItems =
      [JSValue.num (JSNumber.fin 7)] ∧
    ∃ data,
      mapItems (lineItemModal zeroQuantityMenu)
          ([0].foldl (fun f row => pressMenuRow scenarioMenu row f)
            unselectedForm).selectedItems =
        Except.ok data ∧
      List.Forall₂ (fun id r => r.menu_item = id)
        ([0].foldl (fun f row => pressMenuRow scenarioMenu row f)
          unselectedForm).selectedItems data := by
  have hids : ∀ i ∈ scenarioMenu, i.id ≠ JSValue.num JSNumber.nan := by
    intro i hi
    simp only [scenarioMenu, List.mem_singleton] at hi
    subst hi
    simp
  have hq : typeQuantity "0"
      { id := JSValue.num (JSNumber.fin 7)
        name := JSValue.str "Buffet"
        price := JSValue.num (JSNumber.fin 1000)
        selectedQuantity := JSValue.num (JSNumber.fin 2) } =
      some
        { id := JSValue.num (JSNumber.fin 7)
          name := JSValue.str "Buffet"
          price := JSValue.num (JSNumber.fin 1000)
          selectedQuantity := JSValue.num (JSNumber.fin 1) } := by
    have h0 : quantityInput "0" = "0" := by decide
    have hv : decimalValue "0" = 0 := by decide
    simp [typeQuantity, h0, parseIntDigits, hv, blurQuantity, JSValue.or, JSValue.truthy]
  have hsame : zeroQuantityMenu.map (fun i => i.id) = scenarioMenu.map (fun i => i.id) := by
    simp only [zeroQuantityMenu, scenarioMenu, List.filterMap_cons, hq, List.filterMap_nil,
      List.map_cons, List.map_nil]
  have h := selection_on_menu noNumericStrings scenarioMenu zeroQuantityMenu [0] unselectedForm
    rfl hids hsame
  refine ⟨rfl, hids, hsame, ?_, h.2.1⟩
  simp [pressMenuRow, scenarioMenu, toggleMenuItem, includes, unselectedForm]

end TechnoMart
